import Mathlib

/-!
# Fortran emitter of `Source/Modules/fortran.cxx`

A shallow embedding of the FORTRAN language module: DOH strings and hashes are
Lean strings and association lists, the emitter object and the ambient
front-end state are an explicit `Emitter` record threaded through every
operation, and the services of the SWIG core that the module calls (type-map
table, symbol table, action emission, pretty printing) are the fields of an
`Env` record or small models placed next to their callers.
-/

namespace Fortran

/-! ## DOH objects -/

/-- A semantic type in SWIG's encoded string form (`SwigType`). -/
abbrev SwigType := String

/-- DOH hash with string keys; a node's attribute bag is a `Hash String`. -/
abbrev Hash (α : Type) := List (String × α)

/-- `Getattr(h, k)`: the value stored under `k`, `none` standing for `NULL`. -/
def Getattr {α : Type} : Hash α → String → Option α
  | [], _ => none
  | (k', v) :: r, k => if k' = k then some v else Getattr r k

/-- `Setattr(h, k, v)` for a non-null `v`: replace the value under `k`, or add the key. -/
def Setattr {α : Type} : Hash α → String → α → Hash α
  | [], k, v => [(k, v)]
  | (k', v') :: r, k, v => if k' = k then (k, v) :: r else (k', v') :: Setattr r k v

/-- `Delattr(h, k)`: the key is removed from the hash. -/
def Delattr {α : Type} : Hash α → String → Hash α
  | [], _ => []
  | (k', v') :: r, k => if k' = k then Delattr r k else (k', v') :: Delattr r k

/-- `Setattr(h, k, v)` where `v` may be `NULL`: DOH deletes the key in that case. -/
def SetattrOpt {α : Type} (h : Hash α) (k : String) : Option α → Hash α
  | some v => Setattr h k v
  | none => Delattr h k

/-- `checkAttribute(n, k, v)`: the attribute is present and equal to `v`. -/
def checkAttribute (h : Hash String) (k v : String) : Bool :=
  Getattr h k == some v

/-- `GetFlag(n, k)`: the attribute is present and is not the string "0". -/
def GetFlag (h : Hash String) (k : String) : Bool :=
  match Getattr h k with
  | none => false
  | some v => v != "0"

/-- `Len(s)` of a DOH string: its length in bytes; `Len(NULL)` is 0. -/
def Len (s : Option String) : Nat :=
  match s with
  | none => 0
  | some s => s.utf8ByteSize

/-- `Printv(out, a1, ..., NULL)`: append the arguments in order, stopping at the
first `NULL` argument (the varargs list is NULL-terminated). -/
def Printv (out : String) : List (Option String) → String
  | [] => out
  | none :: _ => out
  | some s :: r => Printv (out ++ s) r

/-- The `%s` conversion of `Printf`/`NewStringf`: a `NULL` argument prints nothing. -/
def fmt_s (s : Option String) : String := s.getD ""

/-- Scan of `Replaceall`: `k` counts the characters of a matched token that are
still to be passed over; at `k = 0` a match of `tok` at the current position is
replaced by `rep` and the scan resumes behind the token. -/
def replaceAux (tok rep : List Char) : Nat → List Char → List Char
  | _, [] => []
  | k + 1, _ :: cs => replaceAux tok rep k cs
  | 0, c :: cs =>
    if tok.isPrefixOf (c :: cs) then rep ++ replaceAux tok rep (tok.length - 1) cs
    else c :: replaceAux tok rep 0 cs

/-- `Replaceall(s, tok, rep)`: one left-to-right pass replacing every
non-overlapping occurrence of `tok`; an empty token replaces nothing. -/
def Replaceall (s tok rep : String) : String :=
  if tok.data.isEmpty then s else ⟨replaceAux tok.data rep.data 0 s.data⟩

/-- Scan of `Replace(s, tok, rep, DOH_REPLACE_FIRST)`: only the first occurrence. -/
def replaceFirstAux (tok rep : List Char) : List Char → List Char
  | [] => []
  | c :: cs =>
    if tok.isPrefixOf (c :: cs) then rep ++ (c :: cs).drop tok.length
    else c :: replaceFirstAux tok rep cs

/-- `Replace(s, tok, rep, DOH_REPLACE_FIRST)`. -/
def ReplaceFirst (s tok rep : String) : String :=
  if tok.data.isEmpty then s else ⟨replaceFirstAux tok.data rep.data s.data⟩

/-- Occurrence test behind `Strstr`: `tok` starts at some position of the text. -/
def occursIn (tok : List Char) : List Char → Bool
  | [] => tok.isPrefixOf []
  | c :: cs => tok.isPrefixOf (c :: cs) || occursIn tok cs

/-- `Strstr(s, tok) != NULL`. -/
def Strstr (s tok : String) : Bool := occursIn tok.data s.data

/-- `isspace` of the C library: blank, tab, newline, vertical tab, form feed,
carriage return. -/
def isspace (c : Char) : Bool :=
  c = ' ' || (9 ≤ c.toNat && c.toNat ≤ 13)

/-- `lstrip`: the text with leading whitespace removed (`NULL` stays `NULL`). -/
def lstrip (s : Option String) : Option String :=
  s.map fun t => ⟨t.data.dropWhile isspace⟩

/-! ## Diagnostics, status codes and external services -/

/-- The warning numbers of `swigwarn.h` that the module passes to `Swig_warning`.
Their numeric values are not part of the module; `WARN_NONE` disables the
diagnostic. -/
inductive Warning where
  | WARN_NONE
  | WARN_TYPEMAP_IN_UNDEF
  | WARN_TYPEMAP_OUT_UNDEF
  | WARN_LANG_NATIVE_UNIMPL
  | WARN_FORTRAN_TYPEMAP_CTYPE_UNDEF
  | WARN_FORTRAN_TYPEMAP_IMTYPE_UNDEF
  | WARN_FORTRAN_TYPEMAP_FTYPE_UNDEF
  | WARN_FORTRAN_TYPEMAP_FDATA_UNDEF
  | WARN_FORTRAN_TYPEMAP_FCREATE_UNDEF
  | WARN_FORTRAN_TYPEMAP_FRELEASE_UNDEF
  | WARN_FORTRAN_TYPEMAP_FOUT_UNDEF
  deriving DecidableEq, Repr

/-- One call of `Swig_warning`: the warning number and the formatted message. -/
structure Diag where
  code : Warning
  text : String
  deriving DecidableEq, Repr

/-- Return status of the handlers. -/
inductive Status where
  | SWIG_OK
  | SWIG_ERROR
  | SWIG_NOWRAP
  deriving DecidableEq, Repr

/-- One entry of the type-mapping table: the template text and the keyword
arguments given with it (`%typemap(ctype, out="...")`). -/
structure Typemap where
  code : String
  kwargs : List (String × String)
  deriving DecidableEq, Repr

/-- A parameter node. `attrs` holds its string attributes; the four `..._next`
fields are the links `tmap:in:next`, `tmap:check:next`, `tmap:freearg:next` and
`tmap:argout:next`. The type-map attachment of the SWIG core points such a link
at the parameter behind the last one the matched type map consumes, so a link is
stored as the number of following siblings it passes over (`some 0` is the next
sibling) and `none` is an absent (`NULL`) link. -/
structure Parm where
  attrs : Hash String
  tmap_in_next : Option Nat
  tmap_check_next : Option Nat
  tmap_freearg_next : Option Nat
  tmap_argout_next : Option Nat
  deriving DecidableEq, Repr

/-- A tree node: string attributes, the parameter list `parms`, the list
`bases` of base-class nodes (`none` when the attribute is absent), and whether
`wrap:parms` has been pointed at the parameter list. -/
structure Node where
  attrs : Hash String
  parms : List Parm
  bases : Option (List (Hash String))
  wrap_parms : Bool
  deriving DecidableEq, Repr

/-- A `Wrapper` object: the definition line, local declarations and code, the
names of the locals declared so far, and the statement terminator that
`NewFortranWrapper` overrides. -/
structure Wrapper where
  def_ : String
  locals : String
  code : String
  localh : List String
  end_statement : String
  deriving DecidableEq, Repr

/-- Services of the SWIG core used by the module. `typemaps` is the type-mapping
table keyed by operation and semantic type; the other fields are the type
utilities, the record and enum registries, the naming helpers, the parameter
attachment passes, the action emitter, the conversions of a member declaration
into a plain function, and the pretty printer. -/
structure Env where
  typemaps : String → SwigType → Option Typemap
  SwigType_manglestr : Option SwigType → String
  SwigType_str : Option SwigType → String
  SwigType_namestr : Option String → String
  SwigType_typedef_resolve_all : SwigType → SwigType
  SwigType_strip_qualifiers : SwigType → SwigType
  SwigType_isenum : SwigType → Bool
  SwigType_isfunctionpointer : Option SwigType → Bool
  SwigType_rcaststr : Option String → String → String
  enumLookup : SwigType → Option (Hash String)
  classLookup : SwigType → Option (Hash String)
  Swig_name_make : Hash String → String → String
  Language_makeParameterName : Hash String → Hash String → Nat → String
  emit_parameter_variables : List Parm → Wrapper → List Parm × Wrapper
  Swig_typemap_attach_parms : String → List Parm → Wrapper → List Parm × Wrapper
  emit_attach_parmmaps : List Parm → Wrapper → List Parm × Wrapper
  Swig_director_emit_dynamic_cast : Node → Wrapper → Wrapper
  emit_action : Node → String
  emit_return_variable : Node → Option SwigType → Wrapper → Wrapper
  Swig_ConstructorToFunction : Node → Node
  Swig_DestructorToFunction : Node → Node
  Swig_MethodToFunction : Node → Node
  Wrapper_pretty_print : String → String

/-! ## Class-name substitution -/

/-- Result of `substitute_classname`: the template after the call, the returned
flag and the diagnostics emitted. -/
structure SubstResult where
  tm : String
  performed : Bool
  warnings : List Diag
  deriving DecidableEq, Repr

/-- The name `substitute_classname_impl` looks up for the type: the `sym:name`
of the registered enum or class node, if there is one. -/
def lookup_replacementname (env : Env) (classnametype : SwigType) : Option String :=
  if env.SwigType_isenum classnametype then
    match env.enumLookup classnametype with
    | some lookup => Getattr lookup "sym:name"
    | none => none
  else
    match env.classLookup classnametype with
    | some lookup => Getattr lookup "sym:name"
    | none => none

/-- `FORTRAN::substitute_classname_impl`: replace the special variable by the
registered name, or by the mangled placeholder (with a diagnostic) when the
type is not registered. Returns the template and the diagnostics. -/
def substitute_classname_impl (env : Env) (classnametype : SwigType) (tm : String)
    (classnamespecialvariable : String) : String × List Diag :=
  match lookup_replacementname env classnametype with
  | some replacementname => (Replaceall tm classnamespecialvariable replacementname, [])
  | none =>
    let w : Diag := ⟨Warning.WARN_FORTRAN_TYPEMAP_FTYPE_UNDEF,
      "No '$fclassname' replacement (wrapped type) found for "
        ++ env.SwigType_str (some classnametype) ++ "\n"⟩
    let replacementname := "SWIGTYPE" ++ env.SwigType_manglestr (some classnametype)
    (Replaceall tm classnamespecialvariable replacementname, [w])

/-- `FORTRAN::substitute_classname`. -/
def substitute_classname (env : Env) (pt : SwigType) (tm : String) : SubstResult :=
  let type := env.SwigType_typedef_resolve_all pt
  let strippedtype := env.SwigType_strip_qualifiers type
  if Strstr tm "$fclassname" then
    let r := substitute_classname_impl env strippedtype tm "$fclassname"
    ⟨r.1, true, r.2⟩
  else
    ⟨tm, false, []⟩

/-- `FORTRAN::replaceSpecialVariables`: the hook the type-map lookup calls on a
template it has found; `type` is the `type` attribute of the node looked up. -/
def replaceSpecialVariables (env : Env) (type : SwigType) (tm : String) : String × List Diag :=
  let r := substitute_classname env type tm
  (r.tm, r.warnings)

/-! ## Type-map lookup -/

/-- Attach the keyword arguments of a type map to a node as `tmap:<method>:<kw>`. -/
def attach_kwargs (tmap_method : String) : List (String × String) → Hash String → Hash String
  | [], node => node
  | (kw, v) :: r, node =>
    attach_kwargs tmap_method r (Setattr node ("tmap:" ++ tmap_method ++ ":" ++ kw) v)

/-- `Swig_typemap_lookup(tmap_method, node, lname, f)` of the SWIG core, at its
interface: a search of the table for the node's `type`; on a hit the template
(after the special-variable hook) is stored on the node as `tmap:<method>`
together with its keyword arguments and returned; on a miss the node is left
alone and `NULL` is returned. -/
def Swig_typemap_lookup (env : Env) (tmap_method : String) (node : Hash String) :
    Option String × Hash String × List Diag :=
  match Getattr node "type" with
  | none => (none, node, [])
  | some t =>
    match env.typemaps tmap_method t with
    | none => (none, node, [])
    | some tm =>
      let s := replaceSpecialVariables env t tm.code
      (some s.1, attach_kwargs tmap_method tm.kwargs (Setattr node ("tmap:" ++ tmap_method) s.1),
        s.2)

/-- The `attributes` argument of `get_typemap`: `NULL`, the node `n` itself, or
a separate attribute set. -/
inductive AttrArg where
  | null
  | self
  | other (attributes : Hash String)
  deriving DecidableEq, Repr

/-- Result of `get_typemap`: the returned template (`none` for `NULL`), the
node after the call, the separate attribute set after the call when one was
given, and the diagnostics emitted. -/
structure TypemapResult where
  tm : Option String
  n : Hash String
  attributes : Option (Hash String)
  warnings : List Diag
  deriving DecidableEq, Repr

/-- First half of `get_typemap` (the `if (attributes) ... else ...` statement):
bind the type map through the table, or read the attached one. -/
def base_lookup (env : Env) (n : Hash String) (tmname : String) (type : Option SwigType)
    (attributes : AttrArg) : TypemapResult :=
  match attributes with
  | AttrArg.self =>
    let r := Swig_typemap_lookup env tmname (SetattrOpt n "type" type)
    ⟨r.1, r.2.1, none, r.2.2⟩
  | AttrArg.other a =>
    let r := Swig_typemap_lookup env tmname (SetattrOpt a "type" type)
    ⟨r.1, n, some r.2.1, r.2.2⟩
  | AttrArg.null => ⟨Getattr n ("tmap:" ++ tmname), n, none, []⟩

/-- `FORTRAN::get_typemap` (six-argument form). -/
def get_typemap (env : Env) (n : Hash String) (tmname : String) (type : Option SwigType)
    (attributes : AttrArg) (warning : Warning) (suffix : Option String) : TypemapResult :=
  let b := base_lookup env n tmname type attributes
  match b.tm with
  | some tm =>
    match suffix with
    | some sfx =>
      match Getattr b.n ("tmap:" ++ tmname ++ ":" ++ sfx) with
      | some suffixed_tm => { b with tm := some suffixed_tm }
      | none => { b with tm := some tm }
    | none => { b with tm := some tm }
  | none =>
    if warning ≠ Warning.WARN_NONE then
      let type := Getattr b.n "type"
      let tm := "SWIGTYPE" ++ env.SwigType_manglestr type
      let w : Diag := ⟨warning,
        "No '" ++ tmname ++ "' typemap defined for " ++ env.SwigType_str type ++ "\n"⟩
      match b.attributes with
      | some a =>
        { tm := some tm, n := b.n, attributes := some (Setattr a ("tmap:" ++ tmname) tm),
          warnings := b.warnings ++ [w] }
      | none =>
        { tm := some tm, n := Setattr b.n ("tmap:" ++ tmname) tm, attributes := none,
          warnings := b.warnings ++ [w] }
    else { b with tm := none }

/-- `FORTRAN::get_attached_typemap`. -/
def get_attached_typemap (env : Env) (n : Hash String) (tmname : String) (warning : Warning) :
    TypemapResult :=
  get_typemap env n tmname (Getattr n "type") AttrArg.null warning none

/-- `FORTRAN::get_typemap` (four-argument form): binds to a fresh attribute set
(`NewHash()`), without suffix. -/
def get_typemap4 (env : Env) (n : Hash String) (tmname : String) (type : Option SwigType)
    (warning : Warning) : TypemapResult :=
  get_typemap env n tmname type (AttrArg.other []) warning none

/-- `FORTRAN::get_typemap_out`. -/
def get_typemap_out (env : Env) (n : Hash String) (tmname : String) (warning : Warning) :
    TypemapResult :=
  get_typemap env n tmname (Getattr n "type") AttrArg.self warning (some "out")

/-! ## Emitter state -/

/-- The `FORTRAN` object together with the front-end state its methods read:
the two options, the ten output sections, the two overload tables, the current
class type and enumerator list, and from the language base class the symbol
table of the module scope (`addSymbol`), the current class node
(`getCurrentClass`, `is_wrapping_class`), the current namespace (`getNSpace`),
the flags `Abstract` and `ImportMode`, and the diagnostics reported so far. -/
structure Emitter where
  d_use_proxy : Bool
  d_use_final : Bool
  f_begin : String
  f_runtime : String
  f_header : String
  f_wrapper : String
  f_init : String
  f_imports : String
  f_public : String
  f_types : String
  f_interfaces : String
  f_proxy : String
  d_overloads : Hash (List String)
  d_method_overloads : Hash (List String)
  d_classtype : Option SwigType
  d_enumvalues : Option (List String)
  symbols : List String
  currentClass : Option Node
  nspace : Option String
  isAbstract : Bool
  importMode : Bool
  warnings : List Diag
  errors : List String
  deriving DecidableEq, Repr

/-- The ten output sections, in declaration order. -/
def Emitter.sections (st : Emitter) : List String :=
  [st.f_begin, st.f_runtime, st.f_header, st.f_wrapper, st.f_init,
   st.f_imports, st.f_public, st.f_types, st.f_interfaces, st.f_proxy]

/-- `is_wrapping_class()`. -/
def is_wrapping_class (st : Emitter) : Bool := st.currentClass.isSome

/-- `Language::addSymbol(s, n)` for the module scope: fails, reporting an error,
when the name is already registered; registers it otherwise. -/
def addSymbol (st : Emitter) (s : Option String) : Bool × Emitter :=
  if fmt_s s ∈ st.symbols then
    (false, { st with errors := st.errors ++
      ["'" ++ fmt_s s ++ "' is multiply defined in the generated target language module.\n"] })
  else
    (true, { st with symbols := st.symbols ++ [fmt_s s] })

/-- Namespace part of a registered naming format (the `%n` of `Swig_name_*`). -/
def nspace_part (nspace : Option String) : String :=
  match nspace with
  | some ns => Replaceall (ns ++ "_") "." "_"
  | none => ""

/-- `Swig_name_wrapper` with the format `swigc_%f` registered by `top`. -/
def Swig_name_wrapper (fname : Option String) : String := "swigc_" ++ fmt_s fname

/-- `Swig_name_set` with the format `set_%n%v` registered by `top`. -/
def Swig_name_set (nspace : Option String) (vname : String) : String :=
  "set_" ++ nspace_part nspace ++ vname

/-- `Swig_name_get` with the format `get_%n%v` registered by `top`. -/
def Swig_name_get (nspace : Option String) (vname : String) : String :=
  "get_" ++ nspace_part nspace ++ vname

/-- `NewWrapper()`. -/
def NewWrapper : Wrapper := ⟨"", "", "", [], ";\n"⟩

/-- `NewFortranWrapper()`: a wrapper whose statements end in a newline. -/
def NewFortranWrapper : Wrapper := { NewWrapper with end_statement := "\n" }

/-- Declaration text built by `Wrapper_add_localv`: every argument up to the
first `NULL` followed by a blank. -/
def localv_decl : List (Option String) → String
  | [] => ""
  | none :: _ => ""
  | some s :: r => s ++ " " ++ localv_decl r

/-- `Wrapper_add_localv(w, name, ..., NULL)`: declare the local unless a local of
that name exists already. -/
def Wrapper_add_localv (w : Wrapper) (name : String) (parts : List (Option String)) : Wrapper :=
  if name ∈ w.localh then w
  else { w with localh := w.localh ++ [name],
                locals := w.locals ++ localv_decl parts ++ w.end_statement }

/-- `Wrapper_print(w, f)`: definition, locals and code, run through the pretty
printer and appended to the section `f`. -/
def Wrapper_print (env : Env) (w : Wrapper) (f : String) : String :=
  f ++ env.Wrapper_pretty_print (w.def_ ++ "\n" ++ w.locals ++ "\n" ++ w.code ++ "\n")

/-- `Printv(w->def, ...)`. -/
def Wrapper.printDef (w : Wrapper) (args : List (Option String)) : Wrapper :=
  { w with def_ := Printv w.def_ args }

/-- `Printv(w->code, ...)`. -/
def Wrapper.printCode (w : Wrapper) (args : List (Option String)) : Wrapper :=
  { w with code := Printv w.code args }

/-- A service of the SWIG core applied to the wrapper `w` with result `r`: such
a service declares locals and emits code, and leaves the definition line and
the statement terminator to the module. -/
def Wrapper.withBody (w r : Wrapper) : Wrapper :=
  { w with locals := r.locals, localh := r.localh, code := r.code }

/-! ## Line wrapping and C arguments -/

/-- `g_max_line_length`. -/
def g_max_line_length : Nat := 128

/-- Loop of `print_wrapped_line`; `prepend_comma` is the separator pending
before the next item. -/
def print_wrapped_loop : String → String → List String → Nat → String × Nat
  | out, _, [], line_length => (out, line_length)
  | out, prepend_comma, item :: rest, line_length =>
    let line_length := line_length + 2 + Len (some item)
    if line_length ≥ g_max_line_length then
      let out := Printv out [some prepend_comma]
      let out := Printv out [some "&\n    ", some item]
      print_wrapped_loop out ", " rest 4
    else
      let out := Printv out [some prepend_comma, some item]
      print_wrapped_loop out ", " rest line_length

/-- `print_wrapped_line(out, it, line_length)`: returns the output and the final
line length. -/
def print_wrapped_line (out : String) (items : List String) (line_length : Nat) : String × Nat :=
  print_wrapped_loop out "" items line_length

/-- `FORTRAN::print_carg(out, n, tm, arg)`. -/
def print_carg (env : Env) (out : String) (n : Hash String) (tm arg : Option String) : String :=
  if !env.SwigType_isfunctionpointer (Getattr n "type") then
    Printv out [tm, some " ", arg]
  else
    let subst := "(*" ++ fmt_s arg ++ ")("
    let tm_arg := tm.map fun t => ReplaceFirst t " (*)(" subst
    Printv out [tm_arg]

/-! ## Proxy parameters -/

/-- `FORTRAN::makeParameterName`. -/
def makeParameterName (env : Env) (n : Hash String) (p : Hash String) (arg_num : Nat) : String :=
  match Getattr p "name" with
  | some name => env.Swig_name_make p name
  | none => env.Language_makeParameterName n p arg_num

/-- Body of the loop of `emit_proxy_parm` for one visited parameter. -/
def emit_proxy_parm_body (env : Env) (n : Hash String) (i : Nat) (p : Parm) (f : Wrapper) :
    Parm × Wrapper × List Diag :=
  let imarg := "f" ++ fmt_s (Getattr p.attrs "lname")
  let a := Setattr p.attrs "imname" imarg
  let r := get_attached_typemap env a "imtype" Warning.WARN_FORTRAN_TYPEMAP_IMTYPE_UNDEF
  let f := Wrapper_add_localv f imarg [some "   ", r.tm, some " :: ", some imarg]
  let farg := makeParameterName env n r.n i
  ({ p with attrs := Setattr r.n "fname" farg }, f, r.warnings)

/-- The walk of `emit_proxy_parm`. The first argument counts the siblings still
to be passed over while a `tmap:in:next` link is followed (0 when the walk
stands on the parameter at the head of the list); `i` is the argument counter. -/
def emit_proxy_parm_loop (env : Env) (n : Hash String) :
    Nat → Nat → List Parm → Wrapper → List Parm × Wrapper × List Diag
  | _, _, [], f => ([], f, [])
  | k + 1, i, p :: rest, f =>
    let r := emit_proxy_parm_loop env n k i rest f
    (p :: r.1, r.2.1, r.2.2)
  | 0, i, p :: rest, f =>
    if checkAttribute p.attrs "tmap:in:numinputs" "0" then
      match p.tmap_in_next with
      | none => (p :: rest, f, [])
      | some k =>
        let r := emit_proxy_parm_loop env n k (i + 1) rest f
        (p :: r.1, r.2.1, r.2.2)
    else
      let b := emit_proxy_parm_body env n i p f
      let r := emit_proxy_parm_loop env n 0 (i + 1) rest b.2.1
      (b.1 :: r.1, r.2.1, b.2.2 ++ r.2.2)

/-- `FORTRAN::emit_proxy_parm(n, parmlist, f)`. -/
def emit_proxy_parm (env : Env) (n : Hash String) (parmlist : List Parm) (f : Wrapper) :
    List Parm × Wrapper × List Diag :=
  let a1 := env.Swig_typemap_attach_parms "imtype" parmlist f
  let f := f.withBody a1.2
  let a2 := env.Swig_typemap_attach_parms "ftype" a1.1 f
  let f := f.withBody a2.2
  let a3 := env.Swig_typemap_attach_parms "fin" a2.1 f
  let f := f.withBody a3.2
  emit_proxy_parm_loop env n 0 0 a3.1 f

/-! ## Function wrapper: parameter pass -/

/-- The text objects the parameter loop of `functionWrapper` appends to: the
three wrappers, the dummy-argument blocks `imargs` and `fargs`, the call
`fcall`, the pending separator `prepend_comma`, and the diagnostics. -/
structure ParmLoop where
  cfunc : Wrapper
  imfunc : Wrapper
  ffunc : Wrapper
  imargs : String
  fargs : String
  fcall : String
  prepend_comma : String
  warnings : List Diag
  deriving DecidableEq, Repr

/-- `Replaceall(tm, "$input", arg)` on a template that may be `NULL`. -/
def replace_input (tm : Option String) (arg : Option String) : Option String :=
  tm.map fun t => Replaceall t "$input" (fmt_s arg)

/-- Body of the parameter loop of `functionWrapper` (the statements between the
skip loop and `p = nextSibling(p)`) for the visited parameter `p` of the
function node `n`. Templates are replaced in place, so the substituted text is
stored back under the attribute it was read from. -/
def parm_body (env : Env) (n : Hash String) (p : Parm) (s : ParmLoop) : Parm × ParmLoop :=
  -- C arguments
  let imarg := Getattr p.attrs "imname"
  let r1 := get_attached_typemap env p.attrs "ctype" Warning.WARN_FORTRAN_TYPEMAP_CTYPE_UNDEF
  let cdef := Printv s.cfunc.def_ [some s.prepend_comma]
  let cdef := print_carg env cdef n r1.tm imarg
  -- C argument conversion
  let r2 := get_attached_typemap env r1.n "in" Warning.WARN_TYPEMAP_IN_UNDEF
  let tm_in := replace_input r2.tm imarg
  let a := SetattrOpt r2.n "tmap:in" tm_in
  let a := SetattrOpt a "emit:input" imarg
  let ccode := Printv s.cfunc.code [tm_in, some "\n"]
  -- F wrapper arguments
  let imdef := Printv s.imfunc.def_ [some s.prepend_comma, imarg]
  let r3 := get_typemap env a "imtype" (Getattr n "type") AttrArg.self
    Warning.WARN_FORTRAN_TYPEMAP_IMTYPE_UNDEF (some "in")
  let imargs := Printv s.imargs [some "   ", r3.tm, some " :: ", imarg, some "\n"]
  let fcall := Printv s.fcall [some s.prepend_comma, imarg]
  -- F proxy arguments
  let farg := Getattr r3.n "fname"
  let fdef := Printv s.ffunc.def_ [some s.prepend_comma, farg]
  let r4 := get_typemap env r3.n "ftype" (Getattr n "type") AttrArg.self
    Warning.WARN_FORTRAN_TYPEMAP_FTYPE_UNDEF (some "in")
  let fargs := Printv s.fargs [some "   ", r4.tm, some " :: ", farg, some "\n"]
  -- F proxy conversion
  let r5 := get_attached_typemap env r4.n "fin" Warning.WARN_TYPEMAP_IN_UNDEF
  let tm_fin := replace_input r5.tm farg
  let a := SetattrOpt r5.n "tmap:fin" tm_fin
  let fcode := Printv s.ffunc.code [tm_fin, some "\n"]
  ({ p with attrs := a },
   { cfunc := { s.cfunc with def_ := cdef, code := ccode },
     imfunc := { s.imfunc with def_ := imdef },
     ffunc := { s.ffunc with def_ := fdef, code := fcode },
     imargs := imargs, fargs := fargs, fcall := fcall,
     prepend_comma := ", ",
     warnings := s.warnings ++ r1.warnings ++ r2.warnings ++ r3.warnings ++ r4.warnings
       ++ r5.warnings })

/-- The parameter loop of `functionWrapper` (`while (p) { ... }`). The first
argument counts the siblings still to be passed over while a `tmap:in:next`
link is followed; at 0 the walk stands on the head of the list, which is
skipped when `tmap:in:numinputs` is "0" and processed by `parm_body` otherwise.
Returns the parameter list with the visited parameters updated. -/
def parm_loop (env : Env) (n : Hash String) : Nat → List Parm → ParmLoop → List Parm × ParmLoop
  | _, [], s => ([], s)
  | k + 1, p :: rest, s =>
    let r := parm_loop env n k rest s
    (p :: r.1, r.2)
  | 0, p :: rest, s =>
    if checkAttribute p.attrs "tmap:in:numinputs" "0" then
      match p.tmap_in_next with
      | none => (p :: rest, s)
      | some k =>
        let r := parm_loop env n k rest s
        (p :: r.1, r.2)
    else
      let b := parm_body env n p s
      let r := parm_loop env n 0 rest b.2
      (b.1 :: r.1, r.2)

/-- The parameters at which the walk of the parameter loop stops, in order:
those neither marked `tmap:in:numinputs` = "0" nor passed over by a link. -/
def visited_parms : Nat → List Parm → List Parm
  | _, [] => []
  | k + 1, _ :: rest => visited_parms k rest
  | 0, p :: rest =>
    if checkAttribute p.attrs "tmap:in:numinputs" "0" then
      match p.tmap_in_next with
      | none => []
      | some k => visited_parms k rest
    else p :: visited_parms 0 rest

/-- One of the three passes after the parameter loop (constraint checks,
cleanup, argument output): a parameter carrying the attribute `key` gets its
template substituted by `subst`, stored back and appended with a newline, and
the walk follows the pass's own link; other parameters are stepped over. -/
def collect_pass (key : String) (next : Parm → Option Nat) (subst : Parm → String → String) :
    Nat → List Parm → String → List Parm × String
  | _, [], out => ([], out)
  | k + 1, p :: rest, out =>
    let r := collect_pass key next subst k rest out
    (p :: r.1, r.2)
  | 0, p :: rest, out =>
    match Getattr p.attrs key with
    | some tm =>
      let tm := subst p tm
      let p := { p with attrs := Setattr p.attrs key tm }
      let out := Printv out [some tm, some "\n"]
      match next p with
      | none => (p :: rest, out)
      | some k =>
        let r := collect_pass key next subst k rest out
        (p :: r.1, r.2)
    | none =>
      let r := collect_pass key next subst 0 rest out
      (p :: r.1, r.2)

/-- Substitution of the constraint-check and cleanup passes. -/
def subst_input (p : Parm) (tm : String) : String :=
  Replaceall tm "$input" (fmt_s (Getattr p.attrs "emit:input"))

/-- Substitution of the argument-output pass. -/
def subst_argout (p : Parm) (tm : String) : String :=
  Replaceall (Replaceall tm "$result" "fresult") "$input" (fmt_s (Getattr p.attrs "emit:input"))

/-! ## Function wrapper -/

/-- `Swig_typemap_lookup_out("out", n, Swig_cresult_name(), f, actioncode)` of
the SWIG core, at its interface: the `out` template of the node's type; when
one is found the action code is emitted into the wrapper first. -/
def Swig_typemap_lookup_out (env : Env) (node : Hash String) (f : Wrapper) (actioncode : String) :
    Option String × Hash String × Wrapper × List Diag :=
  let r := Swig_typemap_lookup env "out" node
  match r.1 with
  | some code => (some code, r.2.1, { f with code := f.code ++ actioncode }, r.2.2)
  | none => (none, r.2.1, f, r.2.2)

/-- What `functionWrapper` has set up when it reaches its parameter loop: the
node attributes, the parameter list the loop walks, the text objects of the
loop, the three resolved return-type templates and the two shape flags. -/
structure FWHead where
  attrs : Hash String
  parmlist : List Parm
  loop : ParmLoop
  c_return_type : Option String
  im_return_type : Option String
  f_return_type : Option String
  is_csubroutine : Bool
  is_fsubroutine : Bool
  deriving DecidableEq, Repr

/-- What `functionWrapper` has built when it reaches the `Wrapper_print` calls:
the three wrappers, the enriched node, the three resolved return-type
templates, the two shape flags and the diagnostics. -/
structure FWBuild where
  cfunc : Wrapper
  imfunc : Wrapper
  ffunc : Wrapper
  n : Node
  c_return_type : Option String
  im_return_type : Option String
  f_return_type : Option String
  is_csubroutine : Bool
  is_fsubroutine : Bool
  warnings : List Diag
  deriving DecidableEq, Repr

/-- The body of `FORTRAN::functionWrapper` from `Setattr(n, "wrap:name", wname)`
(line 423) to the start of the parameter loop (line 520), for the names `wname`
and `fname` computed at its start. -/
def functionWrapper_head (env : Env) (n : Node) (wname fname : String) : FWHead :=
  let attrs := Setattr (Setattr n.attrs "wrap:name" wname) "wrap:fname" fname
  -- Update parameter names for static variables
  let parmlist : List Parm :=
    match Getattr attrs "staticmembervariableHandler:sym:name", n.parms with
    | some staticName, p :: rest => { p with attrs := Setattr p.attrs "name" staticName } :: rest
    | _, ps => ps
  let cfunc := NewWrapper
  let imfunc := NewFortranWrapper
  let ffunc := NewFortranWrapper
  let imargs := "   use, intrinsic :: ISO_C_BINDING\n"
  let fargs := imargs
  let fcall := ""
  -- Return type
  let rc := get_typemap_out env attrs "ctype" Warning.WARN_FORTRAN_TYPEMAP_CTYPE_UNDEF
  let rim := get_typemap_out env rc.n "imtype" Warning.WARN_FORTRAN_TYPEMAP_IMTYPE_UNDEF
  let rf := get_typemap_out env rim.n "ftype" Warning.WARN_FORTRAN_TYPEMAP_FTYPE_UNDEF
  let c_return_type := rc.tm
  let im_return_type := rim.tm
  let f_return_type := rf.tm
  let attrs := SetattrOpt rf.n "wrap:type" c_return_type
  let attrs := SetattrOpt attrs "wrap:imtype" im_return_type
  let attrs := SetattrOpt attrs "wrap:ftype" f_return_type
  -- Check whether the C routine returns a variable
  let is_csubroutine : Bool := c_return_type == some "void"
  -- Check whether the Fortran routine returns a variable
  let is_fsubroutine : Bool := Len f_return_type == 0
  let im_func_type := if is_csubroutine then "subroutine" else "function"
  let f_func_type := if is_fsubroutine then "subroutine" else "function"
  let cfunc := cfunc.printDef [some "SWIGEXPORT ", c_return_type, some " ", some wname, some "("]
  let imfunc := imfunc.printDef [some im_func_type, some " ", some fname, some "("]
  let ffunc := ffunc.printDef [some f_func_type, some " ", some wname, some "("]
  let cfunc := if !is_csubroutine then
      Wrapper_add_localv cfunc "fresult" [c_return_type, some "fresult = 0"] else cfunc
  let ffunc := if !is_csubroutine then
      Wrapper_add_localv ffunc "fresult" [im_return_type, some " :: fresult"] else ffunc
  let imargs := if !is_csubroutine then
      Printv imargs [im_return_type, some " :: fresult\n"] else imargs
  let fcall := if !is_csubroutine then
      Printv fcall [some "fresult = ", some wname, some "("]
    else Printv fcall [some "call ", some wname, some "("]
  let fargs := if !is_fsubroutine then
      Printv fargs [f_return_type, some " :: swigf_result\n"] else fargs
  -- Function parameters
  let e1 := env.emit_parameter_variables parmlist cfunc
  let cfunc := cfunc.withBody e1.2
  let e2 := env.Swig_typemap_attach_parms "ctype" e1.1 cfunc
  let cfunc := cfunc.withBody e2.2
  let e3 := env.emit_attach_parmmaps e2.1 cfunc
  let cfunc := cfunc.withBody e3.2
  let e4 := emit_proxy_parm env attrs e3.1 ffunc
  let parmlist := e4.1
  let ffunc := e4.2.1
  let ffunc := match Getattr attrs "fortran:argprepend" with
    | some fargs_prepend =>
      -- `Len(parmlist) > 0`: a parameter node is a non-empty hash, `NULL` has length 0
      ffunc.printDef [some fargs_prepend, some (if parmlist.length > 0 then ", " else "")]
    | none => ffunc
  { attrs := attrs, parmlist := parmlist,
    loop := ⟨cfunc, imfunc, ffunc, imargs, fargs, fcall, "",
      rc.warnings ++ rim.warnings ++ rf.warnings ++ e4.2.2⟩,
    c_return_type := c_return_type, im_return_type := im_return_type,
    f_return_type := f_return_type,
    is_csubroutine := is_csubroutine, is_fsubroutine := is_fsubroutine }

/-- The objects `functionWrapper` works on between the parameter loop and the
`Wrapper_print` calls: the three wrappers, the node attributes, the parameter
list, the collected `cleanup` and `outarg` texts, and the diagnostics. -/
structure FWMid where
  cfunc : Wrapper
  imfunc : Wrapper
  ffunc : Wrapper
  attrs : Hash String
  parmlist : List Parm
  cleanup : String
  outarg : String
  warnings : List Diag
  deriving DecidableEq, Repr

/-- Lines 589-620 of `functionWrapper` ("END FUNCTION DEFINITION"): close the
three definition lines, save the proxy call as `wrap:faction`, add the result
clauses and the dummy-argument blocks. -/
def functionWrapper_enddef (h : FWHead) (l : List Parm × ParmLoop) (wname : String) : FWMid :=
  let cfunc := l.2.cfunc.printDef [some ") \x7b"]
  let imfunc := l.2.imfunc.printDef [some ") &\n    bind(C, name=\"", some wname, some "\")"]
  let ffunc := l.2.ffunc.printDef [some ")"]
  let fcall := Printv l.2.fcall [some ")"]
  let imfunc := imfunc.printDef
    [some (if !h.is_csubroutine then " &\n     result(fresult)\n" else "\n")]
  let ffunc := ffunc.printDef
    [some (if !h.is_fsubroutine then " &\n     result(swigf_result)\n" else "\n")]
  let imfunc := imfunc.printDef [some l.2.imargs]
  let ffunc := ffunc.printDef [some l.2.fargs]
  { cfunc := cfunc, imfunc := imfunc, ffunc := ffunc,
    attrs := Setattr h.attrs "wrap:faction" fcall,
    parmlist := l.1, cleanup := "", outarg := "", warnings := l.2.warnings }

/-- Lines 622-673 of `functionWrapper`: the constraint-check, cleanup and
argument-output passes over the parameter list. -/
def functionWrapper_passes (m : FWMid) : FWMid :=
  let chk := collect_pass "tmap:check" Parm.tmap_check_next subst_input 0 m.parmlist m.cfunc.code
  let cln := collect_pass "tmap:freearg" Parm.tmap_freearg_next subst_input 0 chk.1 ""
  let arg := collect_pass "tmap:argout" Parm.tmap_argout_next subst_argout 0 cln.1 ""
  { m with cfunc := { m.cfunc with code := chk.2 }, parmlist := arg.1,
           cleanup := cln.2, outarg := arg.2 }

/-- The `$owner` replacement text: "1" for a declaration flagged `feature:new`. -/
def owner_flag (attrs : Hash String) : String :=
  if GetFlag attrs "feature:new" then "1" else "0"

/-- The diagnostic of `functionWrapper` for a missing `out` or `fout` type map. -/
def unable_warning (env : Env) (code : Warning) (attrs : Hash String)
    (cpp_returntype : Option SwigType) : Diag :=
  ⟨code, "Unable to use return type " ++ env.SwigType_str cpp_returntype
    ++ " in function " ++ fmt_s (Getattr attrs "name") ++ ".\n"⟩

/-- Lines 675-695 of `functionWrapper`: the C++ call and the conversion of its
result in the native wrapper. -/
def functionWrapper_out (env : Env) (n : Node) (m : FWMid) : FWMid :=
  let node : Node := { n with attrs := m.attrs, parms := m.parmlist, wrap_parms := true }
  let cfunc := m.cfunc.withBody (env.Swig_director_emit_dynamic_cast node m.cfunc)
  let actioncode := env.emit_action node
  let cpp_returntype := Getattr m.attrs "type"
  let o := Swig_typemap_lookup_out env m.attrs cfunc actioncode
  let m1 : FWMid :=
    match o.1 with
    | some code =>
      let code := Replaceall (Replaceall code "$result" "fresult") "$owner" (owner_flag m.attrs)
      { m with attrs := Setattr o.2.1 "tmap:out" code,
               cfunc := o.2.2.1.printCode [some code, some "\n"],
               warnings := m.warnings ++ o.2.2.2 }
    | none =>
      { m with attrs := o.2.1, cfunc := o.2.2.1,
               warnings := m.warnings ++ o.2.2.2 ++
                 [unable_warning env Warning.WARN_TYPEMAP_OUT_UNDEF m.attrs cpp_returntype] }
  let cfunc := m1.cfunc.withBody
    (env.emit_return_variable { node with attrs := m1.attrs } cpp_returntype m1.cfunc)
  { m1 with cfunc := cfunc }

/-- Lines 697-718 of `functionWrapper`: the call statement and the result
conversion in the proxy routine. -/
def functionWrapper_fout (env : Env) (h : FWHead) (m : FWMid) : FWMid :=
  let cpp_returntype := Getattr h.attrs "type"
  let factioncode := match Getattr m.attrs "feature:faction" with
    | some c => some c
    | none => Getattr m.attrs "wrap:faction"
  let ffunc := m.ffunc.printCode [factioncode, some "\n"]
  let fo := Swig_typemap_lookup env "fout" m.attrs
  match fo.1 with
  | some code =>
    let code := Replaceall
      (Replaceall code "$result" (if h.is_fsubroutine then "" else "swigf_result"))
      "$owner" (owner_flag m.attrs)
    { m with attrs := Setattr fo.2.1 "tmap:fout" code,
             ffunc := ffunc.printCode [some code, some "\n"],
             warnings := m.warnings ++ fo.2.2 }
  | none =>
    { m with attrs := fo.2.1, ffunc := ffunc,
             warnings := m.warnings ++ fo.2.2 ++
               [unable_warning env Warning.WARN_FORTRAN_TYPEMAP_FOUT_UNDEF m.attrs
                 cpp_returntype] }

/-- Lines 720-743 of `functionWrapper`: argument output, cleanup, the return
statement, the closing lines and the standard substitutions. -/
def functionWrapper_finish (env : Env) (h : FWHead) (symname : Option String) (m : FWMid) :
    FWMid :=
  let im_func_type := if h.is_csubroutine then "subroutine" else "function"
  let f_func_type := if h.is_fsubroutine then "subroutine" else "function"
  let cfunc := m.cfunc.printCode [some m.outarg]
  let cfunc := cfunc.printCode [some m.cleanup]
  let ret := if !h.is_csubroutine then
      "    return " ++ env.SwigType_rcaststr h.c_return_type "fresult" ++ ";\n"
    else ""
  let ccode := cfunc.code ++ ret ++ "\x7d\n"
  let imfunc := m.imfunc.printCode [some "  end ", some im_func_type]
  let ffunc := m.ffunc.printCode [some "  end ", some f_func_type]
  -- Standard substitutions
  let ccode := Replaceall ccode "$cleanup" m.cleanup
  let ccode := Replaceall ccode "$symname" (fmt_s symname)
  let ccode := Replaceall ccode "SWIG_contract_assert(" "SWIG_contract_assert($null, "
  let ccode := Replaceall ccode "$null" (if h.is_csubroutine then "" else "0")
  { m with cfunc := { cfunc with code := ccode }, imfunc := imfunc,
           ffunc := { ffunc with code := Replaceall ffunc.code "$symname" (fmt_s symname) } }

/-- The body of `FORTRAN::functionWrapper` from `Setattr(n, "wrap:name", wname)`
up to the `Wrapper_print` calls: `functionWrapper_head`, the parameter loop, and
the four stages of lines 589-743. -/
def functionWrapper_build (env : Env) (n : Node) (symname : Option String)
    (wname fname : String) : FWBuild :=
  let h := functionWrapper_head env n wname fname
  let l := parm_loop env h.attrs 0 h.parmlist h.loop
  let m := functionWrapper_enddef h l wname
  let m := functionWrapper_passes m
  let m := functionWrapper_out env n m
  let m := functionWrapper_fout env h m
  let m := functionWrapper_finish env h symname m
  { cfunc := m.cfunc, imfunc := m.imfunc, ffunc := m.ffunc,
    n := { n with attrs := m.attrs, parms := m.parmlist, wrap_parms := true },
    c_return_type := h.c_return_type, im_return_type := h.im_return_type,
    f_return_type := h.f_return_type,
    is_csubroutine := h.is_csubroutine, is_fsubroutine := h.is_fsubroutine,
    warnings := m.warnings }

/-- The public alias chosen by `write_function_interface` and whether the
declaration is a static member (`is_static`). -/
def function_alias (st : Emitter) (n : Hash String) : Option String × Bool :=
  match Getattr n "fortran:membername" with
  | some alias_ => (some alias_, false)
  | none =>
    match Getattr n "staticmembervariableHandler:sym:name" with
    | some alias_ =>
      if (Getattr n "varset").isSome then (some (Swig_name_set st.nspace alias_), true)
      else if (Getattr n "varget").isSome then (some (Swig_name_get st.nspace alias_), true)
      else (some alias_, true)
    | none =>
      match Getattr n "staticmemberfunctionHandler:sym:name" with
      | some alias_ => (some alias_, true)
      | none =>
        match Getattr n "membervariableHandler:sym:name" with
        | some alias_ =>
          if (Getattr n "memberset").isSome then (some (Swig_name_set st.nspace alias_), false)
          else if (Getattr n "memberget").isSome then (some (Swig_name_get st.nspace alias_), false)
          else (Getattr n "sym:name", false)
        | none => (Getattr n "sym:name", false)

/-- `Append(overloads, name)` on the list stored under `alias`, creating the
list when the key is new. -/
def append_overload (table : Hash (List String)) (alias_ : String) (name : String) :
    Hash (List String) :=
  match Getattr table alias_ with
  | some overloads => Setattr table alias_ (overloads ++ [name])
  | none => Setattr table alias_ [name]

/-- `FORTRAN::write_function_interface`. -/
def write_function_interface (st : Emitter) (n : Hash String) : Status × Emitter :=
  let fname := Getattr n "wrap:fname"
  let a := function_alias st n
  let alias_ := a.1
  let is_static := a.2
  let is_overloaded := (Getattr n "sym:overloaded").isSome
  if is_wrapping_class st then
    let overalias := fmt_s alias_ ++ fmt_s (Getattr n "sym:overname")
    let st := if is_overloaded then
        { st with d_method_overloads := append_overload st.d_method_overloads (fmt_s alias_) overalias }
      else st
    let alias_ := if is_overloaded then some overalias else alias_
    let line := Printv st.f_types
      [some "  procedure",
       some (if is_static then ", nopass" else if is_overloaded then ", private" else ""),
       some " :: ", alias_, some " => ", fname, some "\n"]
    (Status.SWIG_OK, { st with f_types := line })
  else
    if is_overloaded then
      (Status.SWIG_OK,
        { st with d_overloads := append_overload st.d_overloads (fmt_s alias_) (fmt_s fname) })
    else
      let line := Printv st.f_public [some " public :: ", alias_, some "\n"]
      (Status.SWIG_OK, { st with f_public := line })

/-- The native wrapper name `wname` computed at the start of `functionWrapper`. -/
def functionWrapper_wname (n : Node) : String :=
  if (Getattr n.attrs "sym:overloaded").isSome then
    Swig_name_wrapper (Getattr n.attrs "sym:name") ++ fmt_s (Getattr n.attrs "sym:overname")
  else Swig_name_wrapper (Getattr n.attrs "sym:name")

/-- The binding proxy name `fname` computed at the start of `functionWrapper`. -/
def functionWrapper_fname (st : Emitter) (n : Node) : String :=
  if is_wrapping_class st then
    (if (Getattr n.attrs "sym:overloaded").isSome then
      "swigf_" ++ fmt_s (Getattr n.attrs "sym:name") ++ fmt_s (Getattr n.attrs "sym:overname")
     else "swigf_" ++ fmt_s (Getattr n.attrs "sym:name"))
  else
    (if (Getattr n.attrs "sym:overloaded").isSome then
      fmt_s (Getattr n.attrs "sym:name") ++ fmt_s (Getattr n.attrs "sym:overname")
     else fmt_s (Getattr n.attrs "sym:name"))

/-- `FORTRAN::functionWrapper`: status, emitter and node after the call. -/
def functionWrapper (env : Env) (st : Emitter) (n : Node) : Status × Emitter × Node :=
  let symname := Getattr n.attrs "sym:name"
  let is_overloaded := (Getattr n.attrs "sym:overloaded").isSome
  let wname := functionWrapper_wname n
  let reg := if is_overloaded then (true, st) else addSymbol st symname
  if !reg.1 then (Status.SWIG_ERROR, reg.2, n)
  else
    let st := reg.2
    let fname := functionWrapper_fname st n
    let b := functionWrapper_build env n symname wname fname
    let st := { st with
      f_wrapper := Wrapper_print env b.cfunc st.f_wrapper,
      f_interfaces := Wrapper_print env b.imfunc st.f_interfaces,
      f_proxy := Wrapper_print env b.ffunc st.f_proxy,
      warnings := st.warnings ++ b.warnings }
    let r := write_function_interface st b.n.attrs
    (r.1, r.2, b.n)

/-! ## Classes, constructors, destructors, member functions -/

/-- Text of one `generic` binding written by `classHandler` for the overload
group `items` stored under `key`. -/
def generic_binding (f_types : String) (key : String) (items : List String) : String :=
  let f_types := Printv f_types [some "  generic :: ", some key, some " => "]
  let line_length := 13 + Len (some key) + 4 - 2
  let f_types := (print_wrapped_line f_types items line_length).1
  Printv f_types [some "\n"]

/-- The loop `for (kv = First(d_method_overloads); kv.key; kv = Next(kv))` of
`classHandler`. The table is walked in the order of the association list; DOH
walks its buckets, and nothing below depends on the order between keys. -/
def write_method_overloads : Hash (List String) → String → String
  | [], f_types => f_types
  | (key, items) :: r, f_types => write_method_overloads r (generic_binding f_types key items)

/-- Lines 916-966 of `FORTRAN::classHandler`, from the base classes to
`" contains\n"`: the emitter as it is handed to the member visits. -/
def classHandler_header (env : Env) (st : Emitter) (n : Node) : Emitter :=
  let symname := Getattr n.attrs "sym:name"
  let baselist := n.bases
  let has_base : Bool := match baselist with
    | some l => l.length > 0
    | none => false
  let has_bases : Bool := match baselist with
    | some l => l.length > 1
    | none => false
  let basename : Option String :=
    if has_base then
      match baselist with
      | some (base :: _) => Getattr base "sym:name"
      | _ => none
    else none
  let w1 : List Diag := if has_base then
      [⟨Warning.WARN_LANG_NATIVE_UNIMPL, "Inheritance (class '" ++ env.SwigType_namestr symname
        ++ "') support is under development and limited.\n"⟩]
    else []
  -- the format has one `%s`, which receives the first argument, "\n"
  let w2 : List Diag := if has_bases then
      [⟨Warning.WARN_LANG_NATIVE_UNIMPL,
        "Multiple inheritance (class '\n') is not supported in Fortran"⟩]
    else []
  let d_classtype := Getattr n.attrs "classtypeobj"
  let f_public := Printv st.f_public [some " public :: ", symname, some "\n"]
  let f_types := Printv st.f_types [some " type"]
  let f_types := match basename with
    | some b => Printv f_types [some ", extends(", some b, some ")"]
    | none => f_types
  let f_types := if st.isAbstract then Printv f_types [some ", abstract"] else f_types
  let f_types := Printv f_types [some " :: ", symname, some "\n"]
  -- Insert the class data. Only do this if the class has no base classes
  let d : String × List Diag := match basename with
    | some _ => (f_types, [])
    | none =>
      let fdata := get_typemap4 env n.attrs "fdata" d_classtype
        Warning.WARN_FORTRAN_TYPEMAP_FDATA_UNDEF
      (Printv f_types [some "  ", lstrip fdata.tm], fdata.warnings)
  let f_types := Printv d.1 [some " contains\n"]
  { st with
    d_method_overloads := [], d_classtype := d_classtype,
    f_public := f_public, f_types := f_types,
    warnings := st.warnings ++ w1 ++ w2 ++ d.2 }

/-- Lines 971-1052 of `FORTRAN::classHandler`: the smart-pointer assignment, the
generic bindings and the end of the type. -/
def classHandler_close (env : Env) (st : Emitter) (n : Node) : Emitter :=
  let symname := Getattr n.attrs "sym:name"
  let st := match Getattr n.attrs "feature:smartptr" with
    | some spclass =>
      let alias_ := "assignment(=)"
      let fname := "swigf_assign_" ++ fmt_s symname
      let wrapname := "swigc_spcopy_" ++ fmt_s symname
      let overloads := Setattr st.d_method_overloads alias_ [fname]
      let f_types := Printv st.f_types [some "  procedure, private :: ", some fname, some "\n"]
      let f_proxy := Printv st.f_proxy
        [some "  subroutine ", some fname, some "(self, other)\n",
         some "   use, intrinsic :: ISO_C_BINDING\n",
         some "   class(", symname, some "), intent(inout) :: self\n",
         some "   type(", symname, some "), intent(in) :: other\n",
         some "   call self%release()\n",
         some "   self%swigptr = ", some wrapname, some "(other%swigptr)\n",
         some "  end subroutine\n"]
      let f_interfaces := Printv st.f_interfaces
        [some "  function ", some wrapname, some "(farg1) &\n",
         some "     bind(C, name=\"", some wrapname, some "\") &\n",
         some "     result(fresult)\n",
         some "   use, intrinsic :: ISO_C_BINDING\n",
         some "   type(C_PTR) :: fresult\n",
         some "   type(C_PTR), value :: farg1\n",
         some "  end function\n"]
      let cfunc := NewWrapper.printDef
        [some "SWIGEXPORT void* ", some wrapname, some "(void* farg1) \x7b\n"]
      let cfunc := cfunc.printCode
        [some spclass, some "* arg1 = (", some spclass, some " *)farg1;\n",
         some "    return new ", some spclass, some "(*arg1);\n",
         some "\x7d\n"]
      { st with d_method_overloads := overloads, f_types := f_types, f_proxy := f_proxy,
                f_interfaces := f_interfaces, f_wrapper := Wrapper_print env cfunc st.f_wrapper }
    | none => st
  let f_types := write_method_overloads st.d_method_overloads st.f_types
  let f_types := Printv f_types [some " end type\n"]
  { st with f_types := f_types, d_method_overloads := [], d_classtype := none }

/-- `FORTRAN::classHandler`. `Language_classHandler` is the member dispatch of
the language base class (`Language::classHandler(n)`), which visits the members
of the class and so runs the member handlers on the emitter. -/
def classHandler (env : Env) (Language_classHandler : Node → Emitter → Emitter)
    (st : Emitter) (n : Node) : Status × Emitter :=
  let reg := addSymbol st (Getattr n.attrs "sym:name")
  if !reg.1 then (Status.SWIG_ERROR, reg.2)
  else
    let st := classHandler_header env reg.2 n
    let st := Language_classHandler n st
    (Status.SWIG_OK, classHandler_close env st n)

/-- `Swig_restore(n)` after `Swig_require(..., "?name", "*sym:name", "?type",
"?parms")`: the four attributes get back the values saved on entry. -/
def Swig_restore (saved : Node) (n : Node) : Node :=
  let a := SetattrOpt n.attrs "name" (Getattr saved.attrs "name")
  let a := SetattrOpt a "sym:name" (Getattr saved.attrs "sym:name")
  let a := SetattrOpt a "type" (Getattr saved.attrs "type")
  { n with attrs := a, parms := saved.parms }

/-- The node `Language::constructorHandler(n)` hands to `functionWrapper`: the
constructor converted into a function returning the new object
(`Swig_ConstructorToFunction`) and renamed with the default format `new_%n%c`. -/
def constructor_function (env : Env) (st : Emitter) (n : Node) : Node :=
  let mrename := "new_" ++ nspace_part st.nspace ++ fmt_s (Getattr n.attrs "sym:name")
  let f := env.Swig_ConstructorToFunction n
  { f with attrs := Setattr f.attrs "sym:name" mrename }

/-- `Language::constructorHandler(n)` of the base class, at its interface: the
constructor is converted into a function returning the new object, renamed
with the default format `new_%n%c`, wrapped, and its saved attributes restored. -/
def Language_constructorHandler (env : Env) (st : Emitter) (n : Node) : Emitter × Node :=
  let r := functionWrapper env st (constructor_function env st n)
  (r.2.1, Swig_restore n r.2.2)

/-- `Language::destructorHandler(n)` of the base class, at its interface
(default format `delete_%n%c`). -/
def Language_destructorHandler (env : Env) (st : Emitter) (n : Node) : Emitter × Node :=
  let mrename := "delete_" ++ nspace_part st.nspace ++ fmt_s (Getattr n.attrs "sym:name")
  let f := env.Swig_DestructorToFunction n
  let f := { f with attrs := Setattr f.attrs "sym:name" mrename }
  let r := functionWrapper env st f
  (r.2.1, Swig_restore n r.2.2)

/-- `Language::memberfunctionHandler(n)` of the base class, at its interface
(default format `%n%c_%m` over the class prefix). -/
def Language_memberfunctionHandler (env : Env) (st : Emitter) (n : Node) : Emitter × Node :=
  let classPrefix := match st.currentClass with
    | some c => fmt_s (Getattr c.attrs "sym:name")
    | none => ""
  let fname := nspace_part st.nspace ++ classPrefix ++ "_" ++ fmt_s (Getattr n.attrs "sym:name")
  let f := env.Swig_MethodToFunction n
  let f := { f with attrs := Setattr f.attrs "sym:name" fname }
  let r := functionWrapper env st f
  (r.2.1, Swig_restore n r.2.2)

/-- The attribute writes of `FORTRAN::constructorHandler` before it hands the
node to the base class (lines 1061-1097). -/
def constructorHandler_prepare (env : Env) (st : Emitter) (n : Node) : Node × List Diag :=
  let classname := match st.currentClass with
    | some classn => Getattr classn.attrs "sym:name"
    | none => none
  let symname := Getattr n.attrs "sym:name"
  let renamed : Bool := symname != classname
  let alias_ : Option String := if renamed then symname else some "create"
  let a := if renamed then
      Setattr n.attrs "sym:name" (fmt_s classname ++ "_" ++ fmt_s symname)
    else n.attrs
  let a := SetattrOpt a "fortran:membername" alias_
  -- Replace Fortran return type with void
  let a := Setattr a "ftype:out" ""
  -- Replace standard "out" typemap with custom
  let fcreate := get_typemap4 env a "fcreate" st.d_classtype
    Warning.WARN_FORTRAN_TYPEMAP_FCREATE_UNDEF
  let a := match fcreate.tm with
    | some t => Setattr fcreate.n "fout" t
    | none => fcreate.n
  -- Add an extra "self" argument to the wrapper code
  let a := Setattr a "fortran:argprepend" "self"
  ({ n with attrs := a }, fcreate.warnings)

/-- `FORTRAN::constructorHandler`. -/
def constructorHandler (env : Env) (st : Emitter) (n : Node) : Status × Emitter × Node :=
  let p := constructorHandler_prepare env st n
  let st := { st with warnings := st.warnings ++ p.2 }
  let r := Language_constructorHandler env st p.1
  (Status.SWIG_OK, r.1, r.2)

/-- `FORTRAN::destructorHandler`. -/
def destructorHandler (env : Env) (st : Emitter) (n : Node) : Status × Emitter × Node :=
  let a := Setattr n.attrs "fortran:membername" "release"
  -- Replace standard "out" typemap with custom
  let frelease := get_typemap4 env a "frelease" st.d_classtype
    Warning.WARN_FORTRAN_TYPEMAP_FRELEASE_UNDEF
  let a := match frelease.tm with
    | some t => Setattr frelease.n "fout" t
    | none => frelease.n
  let st := { st with warnings := st.warnings ++ frelease.warnings }
  let r := Language_destructorHandler env st { n with attrs := a }
  let st := r.1
  let n := r.2
  if st.d_use_final then
    let fname := "swigf_final_" ++ fmt_s (Getattr n.attrs "sym:name")
    let classname := match st.currentClass with
      | some classn => Getattr classn.attrs "sym:name"
      | none => none
    let f_types := Printv st.f_types [some "  final     :: ", some fname, some "\n"]
    let f_proxy := Printv st.f_proxy
      [some "  subroutine ", some fname, some "(self)\n",
       some "   use, intrinsic :: ISO_C_BINDING\n",
       some "   class(", classname, some ") :: self\n",
       some "   call ", Getattr n.attrs "wrap:name", some "(self%swigptr)\n",
       some "   self%swigptr = C_NULL_PTR\n",
       some "  end subroutine\n"]
    (Status.SWIG_OK, { st with f_types := f_types, f_proxy := f_proxy }, n)
  else (Status.SWIG_OK, st, n)

/-- `FORTRAN::memberfunctionHandler`. -/
def memberfunctionHandler (env : Env) (st : Emitter) (n : Node) : Status × Emitter × Node :=
  let a := SetattrOpt n.attrs "fortran:membername" (Getattr n.attrs "sym:name")
  let r := Language_memberfunctionHandler env st { n with attrs := a }
  (Status.SWIG_OK, r.1, r.2)

/-! ## Module file -/

/-- The inner loop of `write_module` over the names of one overload group;
`prepend_comma` is the separator pending before the next name. -/
def print_procedures : String → String → List String → String
  | out, _, [] => out
  | out, prepend_comma, item :: rest =>
    print_procedures (Printv out [some prepend_comma, some item]) ", " rest

/-- The interface block `write_module` writes for one overload group of the
module scope. -/
def module_interface (out : String) (key : String) (items : List String) : String :=
  let out := Printv out [some " public :: ", some key, some "\n",
    some " interface ", some key, some "\n", some "  module procedure :: "]
  let out := print_procedures out "" items
  Printv out [some "\n", some " end interface\n"]

/-- The loop over `d_overloads` in `write_module` (keys in the order of the
association list, see `write_method_overloads`). -/
def write_overloads : Hash (List String) → String → String
  | [], out => out
  | (key, items) :: r, out => write_overloads r (module_interface out key items)

/-- `FORTRAN::write_module`: the text written to the module file after the
banner, for the module name `d_module`. -/
def write_module (st : Emitter) (d_module : Option String) : String :=
  let out := Printv "" [some "module ", d_module, some "\n",
    some " use, intrinsic :: ISO_C_BINDING\n",
    some st.f_imports,
    some " implicit none\n", some "\n", some " ! PUBLIC METHODS AND TYPES\n",
    some st.f_public]
  let out := write_overloads st.d_overloads out
  Printv out [some " ! TYPES\n", some st.f_types, some "\n",
    some " ! WRAPPER DECLARATIONS\n", some " private\n", some " interface\n",
    some st.f_interfaces, some " end interface\n", some "\n", some "contains\n",
    some "  ! FORTRAN PROXY CODE\n", some st.f_proxy,
    some "end module ", d_module, some "\n"]

/-! ## Sample inputs

Concrete collaborators and nodes on which the statements below are evaluated. -/

/-- A concrete environment over the table `tms` and the class registry
`classes`: types are mangled by prefixing an underscore, the type utilities and
the core services do nothing, and the pretty printer is the identity. -/
def sampleEnv (tms : String → SwigType → Option Typemap)
    (classes : SwigType → Option (Hash String)) : Env where
  typemaps := tms
  SwigType_manglestr := fun t => "_" ++ fmt_s t
  SwigType_str := fun t => fmt_s t
  SwigType_namestr := fun t => fmt_s t
  SwigType_typedef_resolve_all := fun t => t
  SwigType_strip_qualifiers := fun t => t
  SwigType_isenum := fun _ => false
  SwigType_isfunctionpointer := fun _ => false
  SwigType_rcaststr := fun _ name => name
  enumLookup := fun _ => none
  classLookup := classes
  Swig_name_make := fun _ name => name
  Language_makeParameterName := fun _ _ i => "arg" ++ toString i
  emit_parameter_variables := fun l w => (l, w)
  Swig_typemap_attach_parms := fun _ l w => (l, w)
  emit_attach_parmmaps := fun l w => (l, w)
  Swig_director_emit_dynamic_cast := fun _ w => w
  emit_action := fun _ => ""
  emit_return_variable := fun _ _ w => w
  Swig_ConstructorToFunction := fun n => { n with attrs := Setattr n.attrs "type" "p.Foo" }
  Swig_DestructorToFunction := fun n => { n with attrs := Setattr n.attrs "type" "void" }
  Swig_MethodToFunction := fun n => n
  Wrapper_pretty_print := fun s => s

/-- The empty type-mapping table. -/
def noTypemaps : String → SwigType → Option Typemap := fun _ _ => none

/-- No registered class. -/
def noClasses : SwigType → Option (Hash String) := fun _ => none

/-- A table with the return-type templates of `int`, `void` and `p.Foo`. -/
def sampleTypemaps : String → SwigType → Option Typemap := fun m t =>
  if m = "ctype" ∧ t = "int" then some ⟨"int", []⟩
  else if m = "imtype" ∧ t = "int" then some ⟨"integer(C_INT)", []⟩
  else if m = "ftype" ∧ t = "int" then some ⟨"integer(C_INT)", []⟩
  else if m = "ctype" ∧ t = "void" then some ⟨"void", []⟩
  else if m = "imtype" ∧ t = "void" then some ⟨"", []⟩
  else if m = "ftype" ∧ t = "void" then some ⟨"", []⟩
  else if m = "ctype" ∧ t = "p.Foo" then some ⟨"void*", []⟩
  else if m = "imtype" ∧ t = "p.Foo" then some ⟨"type(C_PTR)", []⟩
  else if m = "ftype" ∧ t = "p.Foo" then some ⟨"type(Foo)", []⟩
  else none

/-- The emitter right after `top` has created its sections and tables. -/
def emptyEmitter : Emitter :=
  { d_use_proxy := true, d_use_final := false,
    f_begin := "", f_runtime := "", f_header := "", f_wrapper := "", f_init := "",
    f_imports := "", f_public := "", f_types := "", f_interfaces := "", f_proxy := "",
    d_overloads := [], d_method_overloads := [], d_classtype := none, d_enumvalues := none,
    symbols := [], currentClass := none, nspace := none, isAbstract := false,
    importMode := false, warnings := [], errors := [] }

/-- An `int` parameter `name` with local name `lname`, its `ctype`, `in` and
`fin` templates attached. -/
def intParm (name lname : String) : Parm :=
  ⟨[("type", "int"), ("name", name), ("lname", lname), ("tmap:ctype", "int"),
    ("tmap:imtype", "integer(C_INT)"), ("tmap:in", "$1 = $input;"),
    ("tmap:fin", "f$1 = $input")], some 0, none, none, none⟩

/-- The free function `int add(int a, int b)`. -/
def addNode : Node :=
  ⟨[("sym:name", "add"), ("name", "add"), ("type", "int")],
   [intParm "a" "arg1", intParm "b" "arg2"], none, false⟩

/-- The class `Foo`. -/
def fooClass : Node := ⟨[("sym:name", "Foo"), ("classtypeobj", "Foo")], [], none, false⟩

/-- The emitter while the members of `Foo` are visited. -/
def fooEmitter : Emitter :=
  { emptyEmitter with currentClass := some fooClass, d_classtype := some "Foo" }

/-- The type-mapping table has no entry for the lookup: on the attached path the
node carries neither `tmap:<operation>` nor the suffix-qualified attribute; on
the binding paths the table has no template for the operation and type. -/
def no_mapping (env : Env) (n : Hash String) (tmname : String) (type : Option SwigType)
    (suffix : Option String) : AttrArg → Prop
  | AttrArg.null =>
    Getattr n ("tmap:" ++ tmname) = none ∧
      ∀ sfx, suffix = some sfx → Getattr n ("tmap:" ++ tmname ++ ":" ++ sfx) = none
  | _ => ∀ t, type = some t → env.typemaps tmname t = none

/-- The `attributes` argument of the second of two successive lookups: `NULL` and
the node itself stay what they were; an attribute set is the set `a2` (the
one of the first call as that call left it, or a fresh one). -/
def again (a2 : Hash String) : AttrArg → AttrArg
  | AttrArg.other _ => AttrArg.other a2
  | x => x

/-- The name `substitute_classname` puts in place of `$fclassname` for the type
`pt`: the registered name of the resolved, unqualified type, or its mangled
placeholder. -/
def replacement_name (env : Env) (pt : SwigType) : String :=
  let strippedtype := env.SwigType_strip_qualifiers (env.SwigType_typedef_resolve_all pt)
  match lookup_replacementname env strippedtype with
  | some replacementname => replacementname
  | none => "SWIGTYPE" ++ env.SwigType_manglestr (some strippedtype)

/-- Whether the replacement text `r` can complete an occurrence of the token
`d :: F` together with the text around it: `r` is a (possibly empty) piece of
`F`, or `r` begins with a non-empty end of `F`, or `r` contains the character
`d` followed by text that is a beginning of `F` or begins with `F`. -/
def completes (d : Char) (F r : List Char) : Bool :=
  (F.tails.any fun t => r.isPrefixOf t) ||
  (F.tails.any fun t => !t.isEmpty && t.isPrefixOf r) ||
  (r.tails.any fun t =>
    match t with
    | c :: post => c == d && (post.isPrefixOf F || F.isPrefixOf post)
    | [] => false)

/-- Whether the replacement name `r` can complete a new `$fclassname` with the
text around it (`completes` for the token `$fclassname`). -/
def completes_token (r : String) : Bool :=
  completes '$' ("fclassname" : String).data r.data

/-- A registry in which the type `Foo` is wrapped under the name `name`. -/
def classNamed (name : String) : SwigType → Option (Hash String) := fun t =>
  if t = "Foo" then some [("sym:name", name)] else none

/-- A registry in which the type `Foo` is wrapped under the name `c`. -/
def classNamedC : SwigType → Option (Hash String) := fun t =>
  if t = "Foo" then some [("sym:name", "c")] else none

/-- The entries `xs` written one after the other, the first behind the
separator `sep` and every later one behind ", ": what the loops leave behind
that print `prepend_comma` before each item. -/
def sepJoin : String → List String → String
  | _, [] => ""
  | sep, x :: xs => sep ++ x ++ sepJoin ", " xs

/-- The entry of the parameter `p` in the native wrapper header: what
`print_carg` writes for its attached `ctype` template and its `imname`. -/
def c_entry (env : Env) (n : Hash String) (p : Parm) : String :=
  print_carg env "" n
    (get_attached_typemap env p.attrs "ctype" Warning.WARN_FORTRAN_TYPEMAP_CTYPE_UNDEF).tm
    (Getattr p.attrs "imname")

/-- The entry of the parameter `p` in the ffi interface header: its `imname`. -/
def im_entry (p : Parm) : String := fmt_s (Getattr p.attrs "imname")

/-- The entry of the parameter `p` in the proxy routine header: its `fname`. -/
def f_entry (p : Parm) : String := fmt_s (Getattr p.attrs "fname")

/-- An attribute key that the type-map lookups never write: neither `type` nor a
key of the form `tmap:...`. -/
def plain_key (k : String) : Prop := k ≠ "type" ∧ ∀ x : String, k ≠ "tmap:" ++ x

/-- The routine keyword of a wrapper's definition line is `subroutine`. -/
def is_subroutine (w : Wrapper) : Bool :=
  ("subroutine " : String).data.isPrefixOf w.def_.data

/-- The text `functionWrapper` writes in front of the parameters of the proxy
routine: the `fortran:argprepend` attribute, followed by ", " when the
parameter list is not empty. -/
def argprepend_text (attrs : Hash String) (parmlist : List Parm) : String :=
  match Getattr attrs "fortran:argprepend" with
  | some fargs_prepend => fargs_prepend ++ (if parmlist.length > 0 then ", " else "")
  | none => ""

/-- The constructor `Foo(int val)` as the parser delivers it. -/
def fooCtor : Node := ⟨[("sym:name", "Foo"), ("name", "Foo")], [intParm "val" "arg1"], none, false⟩

/-- The default constructor `Foo()` as the parser delivers it. -/
def fooDefaultCtor : Node := ⟨[("sym:name", "Foo"), ("name", "Foo")], [], none, false⟩

/-- The function node that `constructorHandler` passes on to `functionWrapper`
for the constructor `n` of `Foo`. -/
def fooCtorFunction (n : Node) : Node :=
  constructor_function (sampleEnv sampleTypemaps noClasses) fooEmitter
    (constructorHandler_prepare (sampleEnv sampleTypemaps noClasses) fooEmitter n).1

/-- The function `void tick()`. -/
def tickNode : Node := ⟨[("sym:name", "tick"), ("name", "tick"), ("type", "void")], [], none, false⟩

/-- The parameters visited by the parameter walk of `functionWrapper` for the
declaration `n` (the N non-skipped parameters), as they stand when the walk
starts. -/
def walked_parms (env : Env) (n : Node) (wname fname : String) : List Parm :=
  visited_parms 0 (functionWrapper_head env n wname fname).parmlist

/-- The routine keyword chosen for a shape flag. -/
def func_type (is_subroutine : Bool) : String :=
  if is_subroutine then "subroutine" else "function"

/-- The items `xs` written in order, each behind the separator at the same
position of `seps`. -/
def interleave : List String → List String → String
  | s :: ss, x :: xs => s ++ x ++ interleave ss xs
  | _, _ => ""

/-- The separators `print_wrapped_line` writes between items: nothing, a comma,
a continuation break, or a comma followed by a continuation break. -/
def is_separator (s : String) : Prop :=
  s = "" ∨ s = ", " ∨ s = "&\n    " ∨ s = ", &\n    "

/-- A class `D` with the declared base-class nodes `bases`. -/
def derivedClass (bases : List (Hash String)) : Node :=
  ⟨[("sym:name", "D"), ("classtypeobj", "D")], [], some bases, false⟩

/-- A member dispatch that visits no member. -/
def noMembers : Node → Emitter → Emitter := fun _ st => st

/-- The table `sampleTypemaps` extended with a creation template for the class
`Foo` and a generic result-conversion template for the type `p.Foo`. -/
def ctorTypemaps : String → SwigType → Option Typemap := fun m t =>
  if m = "fcreate" ∧ t = "Foo" then some ⟨"   self%swigptr = fresult", []⟩
  else if m = "fout" ∧ t = "p.Foo" then some ⟨"   $result%swigptr = fresult", []⟩
  else sampleTypemaps m t

/-- The lines of a text: the pieces between its newline characters. -/
def split_lines : List Char → List (List Char)
  | [] => [[]]
  | c :: cs =>
    if c = '\n' then [] :: split_lines cs
    else
      match split_lines cs with
      | l :: ls => (c :: l) :: ls
      | [] => [[c]]

/-- The lengths of the lines of a text. -/
def line_lengths (s : String) : List Nat := (split_lines s.data).map List.length

/-- The identifier made of `k` copies of the letter `c`. -/
def ident (c : Char) (k : Nat) : String := ⟨List.replicate k c⟩

/-- An attribute key that neither the type-map lookups nor `functionWrapper`
write: it is not `type`, does not start with `tmap:` and does not start with
`wrap:`. -/
def carried_key (k : String) : Prop := plain_key k ∧ ∀ x : String, k ≠ "wrap:" ++ x

/-- The constructor `Foo(int val)` renamed by the user to `make`. -/
def fooRenamedCtor : Node :=
  ⟨[("sym:name", "make"), ("name", "Foo")], [intParm "val" "arg1"], none, false⟩

/-- The set or get name of an accessor of the field `field`: the set name when
the attribute `setk` is present, else the get name when `getk` is present;
nothing when there is no field or the node is neither. -/
def accessor_name (st : Emitter) (n : Hash String) (field : Option String)
    (setk getk : String) : Option String :=
  field.bind fun v =>
    if (Getattr n setk).isSome then some (Swig_name_set st.nspace v)
    else if (Getattr n getk).isSome then some (Swig_name_get st.nspace v)
    else none

/-- The alias precedence in four steps: the override name; else the set or get
name of a static-field accessor; else the set or get name of an instance-field
accessor; else the canonical symbol name. -/
def alias_four_steps (st : Emitter) (n : Hash String) : Option String :=
  Getattr n "fortran:membername"
    <|> accessor_name st n (Getattr n "staticmembervariableHandler:sym:name") "varset" "varget"
    <|> accessor_name st n (Getattr n "membervariableHandler:sym:name") "memberset" "memberget"
    <|> Getattr n "sym:name"

/-- The alias precedence in six steps: the override name; else the set or get
name of a static-field accessor; else the bare field name of a static field
that is neither; else the own name of a static member function; else the
set or get name of an instance-field accessor; else the canonical symbol name. -/
def alias_precedence (st : Emitter) (n : Hash String) : Option String :=
  Getattr n "fortran:membername"
    <|> accessor_name st n (Getattr n "staticmembervariableHandler:sym:name") "varset" "varget"
    <|> Getattr n "staticmembervariableHandler:sym:name"
    <|> Getattr n "staticmemberfunctionHandler:sym:name"
    <|> accessor_name st n (Getattr n "membervariableHandler:sym:name") "memberset" "memberget"
    <|> Getattr n "sym:name"

/-- The static member function `Foo::count` as `staticmemberfunctionHandler`
hands it to `functionWrapper`: the canonical symbol is `Foo_count`, the saved
own name is `count`. -/
def staticCountNode : Hash String :=
  [("sym:name", "Foo_count"), ("name", "count"), ("type", "int"),
   ("staticmemberfunctionHandler:sym:name", "count"), ("wrap:fname", "swigf_Foo_count")]

/-- The getter of the instance field `d_val` of `Foo` at module level. -/
def getterNode : Hash String :=
  [("sym:name", "Foo_d_val_get"), ("membervariableHandler:sym:name", "d_val"),
   ("memberget", "1"), ("wrap:fname", "Foo_d_val_get")]

/-- The canonical symbol `Language::memberfunctionHandler` gives the member
function named `s` (format `%n%c_%m`). -/
def member_symbol (st : Emitter) (s : String) : String :=
  nspace_part st.nspace
    ++ (match st.currentClass with
        | some c => fmt_s (Getattr c.attrs "sym:name")
        | none => "")
    ++ "_" ++ s

/-- The canonical symbol `Language::destructorHandler` gives the destructor `n`
(format `delete_%n%c`). -/
def destructor_symbol (st : Emitter) (n : Hash String) : String :=
  "delete_" ++ nspace_part st.nspace ++ fmt_s (Getattr n "sym:name")

/-- The node `Language::memberfunctionHandler(n)` hands to `functionWrapper`:
the method converted into a function (`Swig_MethodToFunction`) and renamed with
the format `%n%c_%m`. -/
def member_function (env : Env) (st : Emitter) (n : Node) : Node :=
  { env.Swig_MethodToFunction n with
    attrs := Setattr (env.Swig_MethodToFunction n).attrs "sym:name"
      (member_symbol st (fmt_s (Getattr n.attrs "sym:name"))) }

/-- The node `Language::destructorHandler(n)` hands to `functionWrapper`: the
destructor converted into a function (`Swig_DestructorToFunction`) and renamed
with the format `delete_%n%c`. -/
def destructor_function (env : Env) (st : Emitter) (n : Node) : Node :=
  { env.Swig_DestructorToFunction n with
    attrs := Setattr (env.Swig_DestructorToFunction n).attrs "sym:name"
      (destructor_symbol st n.attrs) }

/-- The attribute writes of `FORTRAN::destructorHandler` before it hands the
node to the base class (lines 1110-1119). -/
def destructorHandler_prepare (env : Env) (st : Emitter) (n : Node) : Node :=
  { n with attrs :=
      match (get_typemap4 env (Setattr n.attrs "fortran:membername" "release") "frelease"
          st.d_classtype Warning.WARN_FORTRAN_TYPEMAP_FRELEASE_UNDEF).tm with
      | some t =>
        Setattr (get_typemap4 env (Setattr n.attrs "fortran:membername" "release") "frelease"
          st.d_classtype Warning.WARN_FORTRAN_TYPEMAP_FRELEASE_UNDEF).n "fout" t
      | none =>
        (get_typemap4 env (Setattr n.attrs "fortran:membername" "release") "frelease"
          st.d_classtype Warning.WARN_FORTRAN_TYPEMAP_FRELEASE_UNDEF).n }

/-- Lines 1123-1149 of `FORTRAN::destructorHandler`: what it does with the
emitter and node `r` left by `Language::destructorHandler`. -/
def destructor_final (r : Emitter × Node) : Status × Emitter × Node :=
  if r.1.d_use_final then
    (Status.SWIG_OK,
      { r.1 with
        f_types := Printv r.1.f_types
          [some "  final     :: ", some ("swigf_final_" ++ fmt_s (Getattr r.2.attrs "sym:name")),
           some "\n"],
        f_proxy := Printv r.1.f_proxy
          [some "  subroutine ", some ("swigf_final_" ++ fmt_s (Getattr r.2.attrs "sym:name")),
           some "(self)\n",
           some "   use, intrinsic :: ISO_C_BINDING\n",
           some "   class(",
           (match r.1.currentClass with
            | some classn => Getattr classn.attrs "sym:name"
            | none => none),
           some ") :: self\n",
           some "   call ", Getattr r.2.attrs "wrap:name", some "(self%swigptr)\n",
           some "   self%swigptr = C_NULL_PTR\n",
           some "  end subroutine\n"] },
      r.2)
  else (Status.SWIG_OK, r.1, r.2)

/-! ## Enumerations -/

/-- `FORTRAN::enumvalueDeclaration`. The call of the base class at its start
leaves the emitter alone; a child without a name or a value is reported on
`stderr` only, which is not part of the emitter. -/
def enumvalueDeclaration (env : Env) (st : Emitter) (n : Hash String) : Status × Emitter :=
  let name := Getattr n "sym:name"
  let value := match Getattr n "enumvalue" with
    | some v => some v
    -- Implicit enum value (no value specified: PREVIOUS + 1)
    | none => Getattr n "enumvalueex"
  match name, value with
  | some name, some value =>
    match st.d_enumvalues with
    | some l =>
      (Status.SWIG_OK,
        { st with
          d_enumvalues := some (l ++ [name]),
          f_types := Printv st.f_types
            [some "  enumerator :: ", some name, some " = ", some value, some "\n"] })
    | none =>
      -- Anonymous enum
      (Status.SWIG_OK,
        { st with warnings := st.warnings ++
            [⟨Warning.WARN_LANG_NATIVE_UNIMPL,
              "Anonymous enums ('" ++ env.SwigType_namestr (some name)
                ++ "') are currently unsupported and will not be wrapped\n"⟩] })
  | _, _ => (Status.SWIG_OK, st)

/-- `Language::enumDeclaration(n)` of the base class, at its interface: the
children of the enum are handed, in source order, to `enumvalueDeclaration`
(the base class skips them in import mode, where `FORTRAN::enumDeclaration`
has returned before). -/
def Language_enumDeclaration (env : Env) : Emitter → List (Hash String) → Emitter
  | st, [] => st
  | st, c :: r => Language_enumDeclaration env (enumvalueDeclaration env st c).2 r

/-- `FORTRAN::enumDeclaration` for the enum node `n` with the child nodes
`children`; `className` is what `getClassName()` of the base class returns. -/
def enumDeclaration (env : Env) (st : Emitter) (className : Option String) (n : Hash String)
    (children : List (Hash String)) : Status × Emitter :=
  if st.importMode then (Status.SWIG_OK, st)
  else
    -- Symname is not present if the enum is not being wrapped
    let symname := Getattr n "sym:name"
    let st := match symname with
      | some s =>
        -- Scope the enum if it's in a class
        let enum_name := if is_wrapping_class st then fmt_s className ++ "_" ++ s else s
        { st with
          f_types := Printv st.f_types
            [some " enum, bind(c)\n", some "  enumerator :: ", some enum_name, some " = -1\n"],
          d_enumvalues := some [enum_name] }
      | none => st
    -- Emit enum items
    let st := Language_enumDeclaration env st children
    let st := match symname with
      | some _ =>
        let f_types := Printv st.f_types [some " end enum\n"]
        -- Make the enum class *and* its values public
        let f_public := Printv st.f_public [some " public :: "]
        let f_public := (print_wrapped_line f_public (st.d_enumvalues.getD []) 11).1
        let f_public := Printv f_public [some "\n"]
        { st with f_types := f_types, f_public := f_public, d_enumvalues := none }
      | none => st
    (Status.SWIG_OK, st)

/-- Modelled from the spec: the child nodes the front end (parser and type pass,
not among the sources studied here) hands to the enum emitter for the declared
enumerators: each carries its name as `sym:name`, an explicit value as
`enumvalue`, and an implicit value, the previous value plus one, as
`enumvalueex`. -/
def enum_children : Int → List (String × Option Int) → List (Hash String)
  | _, [] => []
  | _, (name, some v) :: r =>
    [("sym:name", name), ("enumvalue", toString v)] :: enum_children (v + 1) r
  | next, (name, none) :: r =>
    [("sym:name", name), ("enumvalueex", toString next)] :: enum_children (next + 1) r

/-- The declared enumerators of `Color`. -/
def colorItems : List (String × Option Int) := [("A", none), ("B", some 5), ("C", none)]

/-- An enum without export name. -/
def hiddenEnum : Hash String := [("name", "Hidden")]

/-! ## Start-up and directives -/

/-- `FORTRAN::main`: the option loop over the arguments after the program name. -/
def FORTRAN_main : Emitter → List String → Emitter
  | st, [] => st
  | st, arg :: r =>
    if arg = "-noproxy" then FORTRAN_main { st with d_use_proxy := false } r
    else if arg = "-final" then FORTRAN_main { st with d_use_final := true } r
    else FORTRAN_main st r

/-- `FORTRAN::top` up to the call of `Language::top(n)`: the ten sections are
created empty and the module-level overload table is created. -/
def top_begin (st : Emitter) : Emitter :=
  { st with
    f_begin := "", f_runtime := "", f_header := "", f_wrapper := "", f_init := "",
    f_imports := "", f_public := "", f_types := "", f_interfaces := "", f_proxy := "",
    d_overloads := [] }

/-- `FORTRAN::importDirective` for the import node `n` whose first child is
`mod`; the visit of the imported declarations by the base class is left to the
visits themselves. -/
def importDirective (st : Emitter) (n : Hash String) (mod : Hash String) : Status × Emitter :=
  match Getattr n "module" with
  | some _ =>
    let modname := Getattr mod "name"
    (Status.SWIG_OK, { st with f_imports := Printv st.f_imports [some " use ", modname, some "\n"] })
  | none => (Status.SWIG_OK, st)

/-- The sections `top` registers with `Swig_register_filebyname`, each with
the write into it. -/
def registered_files : List (String × (Emitter → String → Emitter)) :=
  [("begin", fun st c => { st with f_begin := st.f_begin ++ c }),
   ("runtime", fun st c => { st with f_runtime := st.f_runtime ++ c }),
   ("header", fun st c => { st with f_header := st.f_header ++ c }),
   ("wrapper", fun st c => { st with f_wrapper := st.f_wrapper ++ c }),
   ("init", fun st c => { st with f_init := st.f_init ++ c }),
   ("fimports", fun st c => { st with f_imports := st.f_imports ++ c }),
   ("fpublic", fun st c => { st with f_public := st.f_public ++ c }),
   ("ftypes", fun st c => { st with f_types := st.f_types ++ c }),
   ("finterfaces", fun st c => { st with f_interfaces := st.f_interfaces ++ c }),
   ("fproxy", fun st c => { st with f_proxy := st.f_proxy ++ c })]

/-- `Swig_filebyname(name)`: the registered section of that name, if any. -/
def Swig_filebyname (name : String) : Option (String × (Emitter → String → Emitter)) :=
  registered_files.find? fun e => e.1 == name

/-- `Language::insertDirective(n)` of the base class, at its interface: unless
in import mode (generated code apart), the code and a newline are written to
the section registered under the name `section` (`header` when there is none);
an unknown name is an error. -/
def Language_insertDirective (st : Emitter) (n : Hash String) : Status × Emitter :=
  if !st.importMode || (Getattr n "generated").isSome then
    let code := fmt_s (Getattr n "code") ++ "\n"
    let section_ := (Getattr n "section").getD "header"
    match Swig_filebyname section_ with
    | some f => (Status.SWIG_OK, f.2 st code)
    | none =>
      (Status.SWIG_OK, { st with errors := st.errors ++
        ["Unknown target '" ++ section_ ++ "' for %insert directive.\n"] })
  else (Status.SWIG_NOWRAP, st)

/-- `FORTRAN::insertDirective`: status, emitter and node after the call (the
code string of the node is extended in place). A `NULL` class type is passed to
`substitute_classname` as the empty type. -/
def insertDirective (env : Env) (st : Emitter) (n : Hash String) :
    Status × Emitter × Hash String :=
  if st.importMode then
    let r := Language_insertDirective st n
    (r.1, r.2, n)
  else
    -- Make sure the code ends its line
    let code := (Getattr n "code").map fun c => c ++ "\n"
    let n := SetattrOpt n "code" code
    let section_ := Getattr n "section"
    if section_ = some "fortran" then
      if st.d_use_proxy then
        let sub : SubstResult :=
          if is_wrapping_class st then
            substitute_classname env (st.d_classtype.getD "") (fmt_s code)
          else ⟨fmt_s code, false, []⟩
        let code := code.map fun _ => sub.tm
        -- Insert code into the body of the module (after "contains")
        (Status.SWIG_OK,
          { st with f_proxy := Printv st.f_proxy [code], warnings := st.warnings ++ sub.warnings },
          SetattrOpt n "code" code)
      else (Status.SWIG_OK, st, n)
    else if section_ = some "fortranspec" then
      if is_wrapping_class st then
        -- Insert code into the class definition
        let sub := substitute_classname env (st.d_classtype.getD "") (fmt_s code)
        let code := code.map fun _ => sub.tm
        (Status.SWIG_OK,
          { st with f_types := Printv st.f_types [code], warnings := st.warnings ++ sub.warnings },
          SetattrOpt n "code" code)
      else
        -- Insert code into the header of the module (alongside "public" methods)
        (Status.SWIG_OK, { st with f_public := Printv st.f_public [code] }, n)
    else
      let r := Language_insertDirective st n
      (r.1, r.2, n)

/-- A step of the language base class on its own state: the emitter members
proper (options, sections, overload tables, class type, enumerator list) stay
as they are, while the symbol table, the current class, the namespace, the
flags `Abstract` and `ImportMode` and the diagnostics may change. -/
def frontend_step (st st2 : Emitter) : Prop :=
  st2 = { st with
    symbols := st2.symbols, currentClass := st2.currentClass, nspace := st2.nspace,
    isAbstract := st2.isAbstract, importMode := st2.importMode,
    warnings := st2.warnings, errors := st2.errors }

/-- The emitter states reachable through the operations of the module: from the
state `top` sets up after `main` has read the options, by the visits of
functions, class members, class headers and ends, enums and enumerators, by the
directives, and by the steps of the base class on its own state. -/
inductive Reachable (env : Env) : Emitter → Prop where
  | start (argv : List String) : Reachable env (top_begin (FORTRAN_main emptyEmitter argv))
  | frontend (st st2 : Emitter) : Reachable env st → frontend_step st st2 → Reachable env st2
  | function (st : Emitter) (n : Node) :
      Reachable env st → Reachable env (functionWrapper env st n).2.1
  | constructor (st : Emitter) (n : Node) :
      Reachable env st → Reachable env (constructorHandler env st n).2.1
  | destructor (st : Emitter) (n : Node) :
      Reachable env st → Reachable env (destructorHandler env st n).2.1
  | memberfunction (st : Emitter) (n : Node) :
      Reachable env st → Reachable env (memberfunctionHandler env st n).2.1
  | classOpen (st : Emitter) (n : Node) :
      Reachable env st → Reachable env (classHandler_header env st n)
  | classClose (st : Emitter) (n : Node) :
      Reachable env st → Reachable env (classHandler_close env st n)
  | enum (st : Emitter) (className : Option String) (n : Hash String)
      (children : List (Hash String)) :
      Reachable env st → Reachable env (enumDeclaration env st className n children).2
  | enumvalue (st : Emitter) (n : Hash String) :
      Reachable env st → Reachable env (enumvalueDeclaration env st n).2
  | insert (st : Emitter) (n : Hash String) :
      Reachable env st → Reachable env (insertDirective env st n).2.1
  | importModule (st : Emitter) (n mod : Hash String) :
      Reachable env st → Reachable env (importDirective st n mod).2

/-- A table that also has the return-type templates of the function pointer
`int (*)(int)` and of `double`. -/
def extraTypemaps : String → SwigType → Option Typemap := fun m t =>
  if m = "ctype" ∧ t = "p.f(int).int" then some ⟨"int (*)(int)", []⟩
  else if m = "imtype" ∧ t = "p.f(int).int" then some ⟨"type(C_FUNPTR)", []⟩
  else if m = "ftype" ∧ t = "p.f(int).int" then some ⟨"type(C_FUNPTR)", []⟩
  else if m = "ctype" ∧ t = "double" then some ⟨"double", []⟩
  else if m = "imtype" ∧ t = "double" then some ⟨"real(C_DOUBLE)", []⟩
  else if m = "ftype" ∧ t = "double" then some ⟨"real(C_DOUBLE)", []⟩
  else sampleTypemaps m t

/-- The sample environment in which `p.f(int).int` is a function pointer. -/
def fpEnv : Env :=
  { sampleEnv extraTypemaps noClasses with
    SwigType_isfunctionpointer := fun t => t == some "p.f(int).int" }

/-- The parameter `int (*cb)(int)` with its templates attached. -/
def callbackParm : Parm :=
  ⟨[("type", "p.f(int).int"), ("name", "cb"), ("lname", "arg1"),
    ("tmap:ctype", "int (*)(int)"), ("tmap:imtype", "type(C_FUNPTR), value"),
    ("tmap:in", "$1 = $input;"), ("tmap:fin", "f$1 = $input")], some 0, none, none, none⟩

/-- The function `int apply(int (*cb)(int))`. -/
def applyNode : Node :=
  ⟨[("sym:name", "apply"), ("name", "apply"), ("type", "int")], [callbackParm], none, false⟩

/-- The function `int (*handler(int which))(int)`, which returns a function
pointer. -/
def handlerNode : Node :=
  ⟨[("sym:name", "handler"), ("name", "handler"), ("type", "p.f(int).int")],
   [intParm "which" "arg1"], none, false⟩

/-- The function `double scale(int n)`. -/
def scaleNode : Node :=
  ⟨[("sym:name", "scale"), ("name", "scale"), ("type", "double")], [intParm "n" "arg1"],
   none, false⟩

/-- A parameter the `in` template of which takes no input
(`tmap:in:numinputs` = "0"). -/
def ignoredParm : Parm :=
  ⟨[("type", "int"), ("name", "hidden"), ("lname", "arg1"), ("tmap:in:numinputs", "0"),
    ("tmap:in", "$1 = 0;")], some 0, none, none, none⟩

/-- The constructor `Foo(int hidden)` whose only parameter is skipped. -/
def fooIgnoringCtor : Node :=
  ⟨[("sym:name", "Foo"), ("name", "Foo")], [ignoredParm], none, false⟩

/-- The text of the assignment subroutine `fname` of the class `symname`: the
release of the handle of `self`, then the store of the copy made by `wrapname`. -/
def assignment_text (fname symname wrapname : String) : String :=
  "  subroutine " ++ fname ++ "(self, other)\n"
    ++ "   use, intrinsic :: ISO_C_BINDING\n"
    ++ "   class(" ++ symname ++ "), intent(inout) :: self\n"
    ++ "   type(" ++ symname ++ "), intent(in) :: other\n"
    ++ "   call self%release()\n"
    ++ "   self%swigptr = " ++ wrapname ++ "(other%swigptr)\n"
    ++ "  end subroutine\n"

/-- The text of the ffi interface function of the copy routine `wrapname`. -/
def spcopy_interface (wrapname : String) : String :=
  "  function " ++ wrapname ++ "(farg1) &\n"
    ++ "     bind(C, name=\"" ++ wrapname ++ "\") &\n"
    ++ "     result(fresult)\n"
    ++ "   use, intrinsic :: ISO_C_BINDING\n"
    ++ "   type(C_PTR) :: fresult\n"
    ++ "   type(C_PTR), value :: farg1\n"
    ++ "  end function\n"

/-- The native wrapper of the copy routine `wrapname` for the smart-pointer
class `spclass`. -/
def spcopy_wrapper (wrapname spclass : String) : Wrapper :=
  { NewWrapper with
    def_ := "SWIGEXPORT void* " ++ wrapname ++ "(void* farg1) \x7b\n",
    code := spclass ++ "* arg1 = (" ++ spclass ++ " *)farg1;\n"
      ++ "    return new " ++ spclass ++ "(*arg1);\n" ++ "\x7d\n" }

/-- The class `Foo` held by `std::shared_ptr`. -/
def sharedFoo : Node :=
  ⟨[("sym:name", "Foo"), ("classtypeobj", "Foo"), ("feature:smartptr", "std::shared_ptr< Foo >")],
   [], none, false⟩

/-- The emitter after the header of the class `sharedFoo` has been written at
module level, the class having no members. -/
def sharedFooOpen : Emitter :=
  classHandler_header (sampleEnv sampleTypemaps noClasses)
    (addSymbol emptyEmitter (some "Foo")).2 sharedFoo

/-! ## Attribute lemmas -/

theorem Getattr_Setattr_same {α : Type} (h : Hash α) (k : String) (v : α) :
    Getattr (Setattr h k v) k = some v := by
  induction h with
  | nil => simp [Setattr, Getattr]
  | cons e r ih =>
    obtain ⟨k', v'⟩ := e
    by_cases hk : k' = k
    · simp [Setattr, Getattr, hk]
    · simp [Setattr, Getattr, hk, ih]

theorem Getattr_Setattr_ne {α : Type} (h : Hash α) (k k2 : String) (v : α) (hne : k ≠ k2) :
    Getattr (Setattr h k v) k2 = Getattr h k2 := by
  induction h with
  | nil => simp [Setattr, Getattr, hne]
  | cons e r ih =>
    obtain ⟨k', v'⟩ := e
    by_cases hk : k' = k
    · subst hk
      simp [Setattr, Getattr, hne]
    · by_cases hk2 : k' = k2
      · subst hk2
        simp [Setattr, Getattr, hk]
      · simp [Setattr, Getattr, hk, hk2, ih]

theorem Getattr_Delattr_same {α : Type} (h : Hash α) (k : String) :
    Getattr (Delattr h k) k = none := by
  induction h with
  | nil => simp [Delattr, Getattr]
  | cons e r ih =>
    obtain ⟨k', v'⟩ := e
    by_cases hk : k' = k
    · simp [Delattr, hk, ih]
    · simp [Delattr, Getattr, hk, ih]

theorem Getattr_Delattr_ne {α : Type} (h : Hash α) (k k2 : String) (hne : k ≠ k2) :
    Getattr (Delattr h k) k2 = Getattr h k2 := by
  induction h with
  | nil => simp [Delattr, Getattr]
  | cons e r ih =>
    obtain ⟨k', v'⟩ := e
    by_cases hk : k' = k
    · subst hk
      simp [Delattr, Getattr, hne, ih]
    · by_cases hk2 : k' = k2
      · subst hk2
        simp [Delattr, Getattr, hk]
      · simp [Delattr, Getattr, hk, hk2, ih]

theorem Getattr_SetattrOpt_same {α : Type} (h : Hash α) (k : String) (v : Option α) :
    Getattr (SetattrOpt h k v) k = v := by
  cases v with
  | none => simp [SetattrOpt, Getattr_Delattr_same]
  | some x => simp [SetattrOpt, Getattr_Setattr_same]

theorem Getattr_SetattrOpt_ne {α : Type} (h : Hash α) (k k2 : String) (v : Option α)
    (hne : k ≠ k2) : Getattr (SetattrOpt h k v) k2 = Getattr h k2 := by
  cases v with
  | none => simp [SetattrOpt, Getattr_Delattr_ne _ _ _ hne]
  | some x => simp [SetattrOpt, Getattr_Setattr_ne _ _ _ _ hne]

theorem Printv_append (out : String) (args : List (Option String)) :
    Printv out args = out ++ Printv "" args := by
  induction args generalizing out with
  | nil => simp [Printv]
  | cons a r ih =>
    cases a with
    | none => simp [Printv]
    | some x =>
      simp only [Printv]
      rw [ih (out ++ x), ih ("" ++ x)]
      simp [String.append_assoc]

/-! ## Duplicate symbols (C3) -/

/-- C3: for a non-overloaded declaration whose symbol registration fails,
`functionWrapper` returns `SWIG_ERROR` and leaves the ten output sections, both
overload tables and the whole declaration node (so also `wrap:name` and
`wrap:fname`) as they were. -/
theorem functionWrapper_duplicate_symbol (env : Env) (st : Emitter) (n : Node)
    (hov : Getattr n.attrs "sym:overloaded" = none)
    (hdup : (addSymbol st (Getattr n.attrs "sym:name")).1 = false) :
    (functionWrapper env st n).1 = Status.SWIG_ERROR ∧
    (functionWrapper env st n).2.1.sections = st.sections ∧
    (functionWrapper env st n).2.1.d_overloads = st.d_overloads ∧
    (functionWrapper env st n).2.1.d_method_overloads = st.d_method_overloads ∧
    (functionWrapper env st n).2.2 = n ∧
    Getattr (functionWrapper env st n).2.2.attrs "wrap:name" = Getattr n.attrs "wrap:name" ∧
    Getattr (functionWrapper env st n).2.2.attrs "wrap:fname" = Getattr n.attrs "wrap:fname" := by
  have hst : (addSymbol st (Getattr n.attrs "sym:name")).2.sections = st.sections ∧
      (addSymbol st (Getattr n.attrs "sym:name")).2.d_overloads = st.d_overloads ∧
      (addSymbol st (Getattr n.attrs "sym:name")).2.d_method_overloads
        = st.d_method_overloads := by
    unfold addSymbol
    split <;> simp [Emitter.sections]
  simp only [functionWrapper, hov, Option.isSome_none, Bool.false_eq_true, if_false, hdup,
    Bool.not_false, if_true]
  exact ⟨trivial, hst.1, hst.2.1, hst.2.2, trivial, trivial, trivial⟩

/-- C3 at a concrete input: `add` is wrapped while `add` is already registered. -/
theorem functionWrapper_duplicate_symbol_witness :
    Getattr addNode.attrs "sym:overloaded" = none ∧
    (addSymbol { emptyEmitter with symbols := ["add"] } (Getattr addNode.attrs "sym:name")).1
      = false ∧
    (functionWrapper (sampleEnv sampleTypemaps noClasses)
      { emptyEmitter with symbols := ["add"] } addNode).1 = Status.SWIG_ERROR :=
  ⟨by decide, by decide,
   (functionWrapper_duplicate_symbol (sampleEnv sampleTypemaps noClasses)
      { emptyEmitter with symbols := ["add"] } addNode (by decide) (by decide)).1⟩

/-! ## Type-map resolution (C5, C6, C7) -/

theorem Swig_typemap_lookup_miss (env : Env) (m : String) (node : Hash String)
    (h : ∀ t, Getattr node "type" = some t → env.typemaps m t = none) :
    Swig_typemap_lookup env m node = (none, node, []) := by
  unfold Swig_typemap_lookup
  cases ht : Getattr node "type" with
  | none => rfl
  | some t => simp [h t ht]

theorem suffix_key_ne (tmname sfx : String) :
    "tmap:" ++ tmname ≠ "tmap:" ++ tmname ++ ":" ++ sfx := by
  intro h
  have hl := congrArg String.length h
  have h1 : (":" : String).length = 1 := rfl
  simp only [String.length_append, h1] at hl
  omega

/-- C5: with diagnostics enabled and no entry for the lookup, `get_typemap`
returns the placeholder, and a second call with the same arguments on the node
left by the first returns the same text, on the attached path as well as when
an attribute set (the node itself, the same set again, or a fresh set) is
supplied. -/
theorem get_typemap_placeholder_idempotent (env : Env) (n : Hash String) (tmname : String)
    (type : Option SwigType) (attributes : AttrArg) (warning : Warning)
    (suffix : Option String) (a2 : Hash String)
    (hw : warning ≠ Warning.WARN_NONE)
    (hmiss : no_mapping env n tmname type suffix attributes) :
    (get_typemap env (get_typemap env n tmname type attributes warning suffix).n tmname type
        (again a2 attributes) warning suffix).tm
      = (get_typemap env n tmname type attributes warning suffix).tm ∧
    ∃ t, (get_typemap env n tmname type attributes warning suffix).tm
      = some ("SWIGTYPE" ++ env.SwigType_manglestr t) := by
  cases attributes with
  | null =>
    obtain ⟨h1, h2⟩ := hmiss
    have e1 : get_typemap env n tmname type AttrArg.null warning suffix
        = ⟨some ("SWIGTYPE" ++ env.SwigType_manglestr (Getattr n "type")),
            Setattr n ("tmap:" ++ tmname) ("SWIGTYPE" ++ env.SwigType_manglestr (Getattr n "type")),
            none,
            [⟨warning, "No '" ++ tmname ++ "' typemap defined for "
              ++ env.SwigType_str (Getattr n "type") ++ "\n"⟩]⟩ := by
      simp [get_typemap, base_lookup, h1, hw]
    rw [e1]
    refine ⟨?_, _, rfl⟩
    cases suffix with
    | none => simp [get_typemap, base_lookup, again, Getattr_Setattr_same]
    | some sfx =>
      have h3 := h2 sfx rfl
      simp [get_typemap, base_lookup, again, Getattr_Setattr_same,
        Getattr_Setattr_ne _ _ _ _ (suffix_key_ne tmname sfx), h3]
  | self =>
    have hl : ∀ h : Hash String, Swig_typemap_lookup env tmname (SetattrOpt h "type" type)
        = (none, SetattrOpt h "type" type, []) := by
      intro h
      apply Swig_typemap_lookup_miss
      intro t ht
      rw [Getattr_SetattrOpt_same] at ht
      exact hmiss t ht
    have e1 : get_typemap env n tmname type AttrArg.self warning suffix
        = ⟨some ("SWIGTYPE" ++ env.SwigType_manglestr type),
            Setattr (SetattrOpt n "type" type) ("tmap:" ++ tmname)
              ("SWIGTYPE" ++ env.SwigType_manglestr type),
            none,
            [⟨warning, "No '" ++ tmname ++ "' typemap defined for "
              ++ env.SwigType_str type ++ "\n"⟩]⟩ := by
      simp [get_typemap, base_lookup, hl, hw, Getattr_SetattrOpt_same]
    rw [e1]
    refine ⟨?_, _, rfl⟩
    simp [get_typemap, base_lookup, again, hl, hw, Getattr_SetattrOpt_same]
  | other a =>
    have hl : ∀ h : Hash String, Swig_typemap_lookup env tmname (SetattrOpt h "type" type)
        = (none, SetattrOpt h "type" type, []) := by
      intro h
      apply Swig_typemap_lookup_miss
      intro t ht
      rw [Getattr_SetattrOpt_same] at ht
      exact hmiss t ht
    refine ⟨?_, Getattr n "type", ?_⟩
    · simp [get_typemap, base_lookup, again, hl, hw]
    · simp [get_typemap, base_lookup, hl, hw]

/-- C5 at a concrete input: two attached lookups of `ctype` on a parameter
without that attribute. -/
theorem get_typemap_placeholder_idempotent_witness :
    Warning.WARN_FORTRAN_TYPEMAP_CTYPE_UNDEF ≠ Warning.WARN_NONE ∧
    no_mapping (sampleEnv noTypemaps noClasses) [("type", "int")] "ctype" (some "int") none
      AttrArg.null ∧
    (get_typemap (sampleEnv noTypemaps noClasses)
        (get_typemap (sampleEnv noTypemaps noClasses) [("type", "int")] "ctype" (some "int")
          AttrArg.null Warning.WARN_FORTRAN_TYPEMAP_CTYPE_UNDEF none).n "ctype" (some "int")
        (again [] AttrArg.null) Warning.WARN_FORTRAN_TYPEMAP_CTYPE_UNDEF none).tm
      = (get_typemap (sampleEnv noTypemaps noClasses) [("type", "int")] "ctype" (some "int")
          AttrArg.null Warning.WARN_FORTRAN_TYPEMAP_CTYPE_UNDEF none).tm :=
  ⟨by decide, ⟨by decide, by intro sfx h; cases h⟩,
   (get_typemap_placeholder_idempotent (sampleEnv noTypemaps noClasses) [("type", "int")]
      "ctype" (some "int") AttrArg.null Warning.WARN_FORTRAN_TYPEMAP_CTYPE_UNDEF none []
      (by decide) ⟨by decide, by intro sfx h; cases h⟩).1⟩

/-- C6 (violated by the code): in the four-argument form the placeholder is
built from the `type` attribute of the node, not from the type passed to the
lookup. For the class node `Foo` (no `type` attribute) and the passed type
`Foo` the result is the mangling of `NULL`, and for a node of type `int` it is
`SWIGTYPE_int`; neither is the placeholder of `Foo`. -/
theorem get_typemap4_placeholder_from_node_type :
    (get_typemap4 (sampleEnv noTypemaps noClasses) fooClass.attrs "fdata" (some "Foo")
        Warning.WARN_FORTRAN_TYPEMAP_FDATA_UNDEF).tm = some "SWIGTYPE_" ∧
    (get_typemap4 (sampleEnv noTypemaps noClasses) [("sym:name", "f"), ("type", "int")] "fcreate"
        (some "Foo") Warning.WARN_FORTRAN_TYPEMAP_FCREATE_UNDEF).tm = some "SWIGTYPE_int" ∧
    "SWIGTYPE" ++ (sampleEnv noTypemaps noClasses).SwigType_manglestr (some "Foo")
      = "SWIGTYPE_Foo" := by
  decide

/-- C7: `get_typemap` returns the suffix-qualified attribute of the node exactly
in the case that a suffix is given and the base lookup succeeded, and then only
if that attribute is present (the base template otherwise); without a suffix it
returns the base template; when the base lookup misses the result is the
placeholder, or `NULL` with diagnostics disabled, whatever suffix-qualified
attribute the node carries. -/
theorem get_typemap_suffix_override (env : Env) (n : Hash String) (tmname : String)
    (type : Option SwigType) (attributes : AttrArg) (warning : Warning)
    (suffix : Option String) :
    (get_typemap env n tmname type attributes warning suffix).tm =
      match (base_lookup env n tmname type attributes).tm, suffix with
      | some tm, some sfx =>
        (match Getattr (base_lookup env n tmname type attributes).n
            ("tmap:" ++ tmname ++ ":" ++ sfx) with
          | some suffixed_tm => some suffixed_tm
          | none => some tm)
      | some tm, none => some tm
      | none, _ =>
        if warning = Warning.WARN_NONE then none
        else some ("SWIGTYPE" ++ env.SwigType_manglestr
          (Getattr (base_lookup env n tmname type attributes).n "type")) := by
  unfold get_typemap
  cases hb : (base_lookup env n tmname type attributes).tm with
  | some tm =>
    cases suffix with
    | none => simp [hb]
    | some sfx =>
      cases hs : Getattr (base_lookup env n tmname type attributes).n
          ("tmap:" ++ tmname ++ ":" ++ sfx) <;> simp [hb, hs]
  | none =>
    by_cases hw : warning = Warning.WARN_NONE
    · simp [hb, hw]
    · cases ha : (base_lookup env n tmname type attributes).attributes <;> simp [hb, hw, ha]

/-! ## Class-name substitution (C8) -/

theorem replaceAux_of_not_occursIn (tok rep : List Char) (s : List Char)
    (h : occursIn tok s = false) : replaceAux tok rep 0 s = s := by
  induction s with
  | nil => simp [replaceAux]
  | cons c cs ih =>
    simp only [occursIn, Bool.or_eq_false_iff] at h
    simp [replaceAux, h.1, ih h.2]

theorem Replaceall_of_not_Strstr (s tok rep : String) (h : Strstr s tok = false) :
    Replaceall s tok rep = s := by
  unfold Replaceall
  split
  · rfl
  · rw [replaceAux_of_not_occursIn _ _ _ h]

theorem substitute_classname_tm (env : Env) (pt : SwigType) (tm : String) :
    (substitute_classname env pt tm).tm = Replaceall tm "$fclassname" (replacement_name env pt) := by
  unfold substitute_classname
  by_cases h : Strstr tm "$fclassname" = true
  · simp only [h, if_true, substitute_classname_impl, replacement_name]
    cases lookup_replacementname env
      (env.SwigType_strip_qualifiers (env.SwigType_typedef_resolve_all pt)) <;> rfl
  · simp only [h, Bool.false_eq_true, if_false]
    rw [Replaceall_of_not_Strstr _ _ _ (by simpa using h)]

/-- C8 as stated fails: the class of the type is registered under the identifier
`c`, the template is `$f$fclassnamelassname`, and the text left by
`substitute_classname` is `$fclassname`, which still contains the token. -/
theorem substitute_classname_leaves_token :
    (substitute_classname (sampleEnv noTypemaps classNamedC) "Foo" "$f$fclassnamelassname").tm
      = "$fclassname" ∧
    (substitute_classname (sampleEnv noTypemaps classNamedC) "Foo"
      "$f$fclassnamelassname").performed = true ∧
    Strstr (substitute_classname (sampleEnv noTypemaps classNamedC) "Foo"
      "$f$fclassnamelassname").tm "$fclassname" = true := by
  decide

/-! ## Parameter lists of the three tiers (C1) -/

theorem sepJoin_intercalate_go (acc : String) (l : List String) :
    String.intercalate.go acc ", " l = acc ++ sepJoin ", " l := by
  induction l generalizing acc with
  | nil => simp [String.intercalate.go, sepJoin]
  | cons a r ih => simp [String.intercalate.go, sepJoin, ih, String.append_assoc]

theorem sepJoin_empty (l : List String) : sepJoin "" l = String.intercalate ", " l := by
  cases l with
  | nil => simp [sepJoin, String.intercalate]
  | cons a r => simp [sepJoin, String.intercalate, sepJoin_intercalate_go]

theorem sepJoin_cons_intercalate (a : String) (l : List String) :
    a ++ sepJoin ", " l = String.intercalate ", " (a :: l) := by
  simp [String.intercalate, sepJoin_intercalate_go]

theorem Printv_sep_opt (out sep : String) (x : Option String) :
    Printv out [some sep, x] = out ++ sep ++ fmt_s x := by
  cases x <;> simp [Printv, fmt_s]

theorem print_carg_append (env : Env) (out : String) (n : Hash String) (tm arg : Option String) :
    print_carg env out n tm arg = out ++ print_carg env "" n tm arg := by
  unfold print_carg
  split <;> exact Printv_append _ _

theorem plain_key_fname : plain_key "fname" := by
  refine ⟨by decide, ?_⟩
  intro x h
  have h2 := congrArg String.data h
  simp [String.data_append] at h2

theorem plain_key_ne_tmap {k : String} (hk : plain_key k) (x : String) : "tmap:" ++ x ≠ k :=
  fun h => hk.2 x h.symm

theorem attach_kwargs_plain (m : String) (kws : List (String × String)) (node : Hash String)
    (k : String) (hk : plain_key k) : Getattr (attach_kwargs m kws node) k = Getattr node k := by
  induction kws generalizing node with
  | nil => rfl
  | cons e r ih =>
    obtain ⟨kw, v⟩ := e
    simp only [attach_kwargs]
    rw [ih]
    apply Getattr_Setattr_ne
    rw [String.append_assoc, String.append_assoc]
    exact plain_key_ne_tmap hk _

theorem Swig_typemap_lookup_plain (env : Env) (m : String) (node : Hash String)
    (k : String) (hk : plain_key k) :
    Getattr (Swig_typemap_lookup env m node).2.1 k = Getattr node k := by
  unfold Swig_typemap_lookup
  cases ht : Getattr node "type" with
  | none => rfl
  | some t =>
    cases hm : env.typemaps m t with
    | none => simp [hm]
    | some tm =>
      simp only [hm]
      rw [attach_kwargs_plain _ _ _ _ hk]
      exact Getattr_Setattr_ne _ _ _ _ (plain_key_ne_tmap hk _)

theorem base_lookup_plain (env : Env) (n : Hash String) (tmname : String)
    (type : Option SwigType) (attributes : AttrArg) (k : String) (hk : plain_key k) :
    Getattr (base_lookup env n tmname type attributes).n k = Getattr n k := by
  cases attributes with
  | null => rfl
  | other a => rfl
  | self =>
    simp only [base_lookup]
    rw [Swig_typemap_lookup_plain _ _ _ _ hk]
    exact Getattr_SetattrOpt_ne _ _ _ _ (fun h => hk.1 h.symm)

theorem get_typemap_plain (env : Env) (n : Hash String) (tmname : String)
    (type : Option SwigType) (attributes : AttrArg) (warning : Warning)
    (suffix : Option String) (k : String) (hk : plain_key k) :
    Getattr (get_typemap env n tmname type attributes warning suffix).n k = Getattr n k := by
  have hb := base_lookup_plain env n tmname type attributes k hk
  unfold get_typemap
  cases htm : (base_lookup env n tmname type attributes).tm with
  | some tm =>
    cases suffix with
    | none => simpa [htm] using hb
    | some sfx =>
      cases hs : Getattr (base_lookup env n tmname type attributes).n
          ("tmap:" ++ tmname ++ ":" ++ sfx) <;> simpa [htm, hs] using hb
  | none =>
    by_cases hw : warning = Warning.WARN_NONE
    · simpa [htm, hw] using hb
    · cases ha : (base_lookup env n tmname type attributes).attributes with
      | some a => simpa [htm, hw, ha] using hb
      | none =>
        simp only [htm, hw, ha, ne_eq, not_false_eq_true, if_true]
        rw [Getattr_Setattr_ne _ _ _ _ (plain_key_ne_tmap hk _)]
        exact hb

theorem get_attached_typemap_plain (env : Env) (n : Hash String) (tmname : String)
    (warning : Warning) (k : String) (hk : plain_key k) :
    Getattr (get_attached_typemap env n tmname warning).n k = Getattr n k :=
  get_typemap_plain env n tmname _ _ warning none k hk

theorem parm_body_defs (env : Env) (n : Hash String) (p : Parm) (s : ParmLoop) :
    (parm_body env n p s).2.cfunc.def_ = s.cfunc.def_ ++ s.prepend_comma ++ c_entry env n p ∧
    (parm_body env n p s).2.imfunc.def_ = s.imfunc.def_ ++ s.prepend_comma ++ im_entry p ∧
    (parm_body env n p s).2.ffunc.def_ = s.ffunc.def_ ++ s.prepend_comma ++ f_entry p ∧
    (parm_body env n p s).2.prepend_comma = ", " := by
  refine ⟨?_, ?_, ?_, rfl⟩
  · simp only [parm_body, c_entry]
    rw [print_carg_append]
    simp [Printv]
  · simp only [parm_body, im_entry]
    exact Printv_sep_opt _ _ _
  · simp only [parm_body, f_entry]
    rw [Printv_sep_opt]
    congr 2
    rw [get_typemap_plain _ _ _ _ _ _ _ _ plain_key_fname]
    rw [Getattr_SetattrOpt_ne _ _ _ _ (by decide), Getattr_SetattrOpt_ne _ _ _ _ (by decide)]
    rw [get_attached_typemap_plain _ _ _ _ _ plain_key_fname]
    rw [get_attached_typemap_plain _ _ _ _ _ plain_key_fname]

theorem parm_loop_defs (env : Env) (n : Hash String) (ps : List Parm) (k : Nat) (s : ParmLoop) :
    (parm_loop env n k ps s).2.cfunc.def_
      = s.cfunc.def_ ++ sepJoin s.prepend_comma ((visited_parms k ps).map (c_entry env n)) ∧
    (parm_loop env n k ps s).2.imfunc.def_
      = s.imfunc.def_ ++ sepJoin s.prepend_comma ((visited_parms k ps).map im_entry) ∧
    (parm_loop env n k ps s).2.ffunc.def_
      = s.ffunc.def_ ++ sepJoin s.prepend_comma ((visited_parms k ps).map f_entry) := by
  induction ps generalizing k s with
  | nil => cases k <;> simp [parm_loop, visited_parms, sepJoin]
  | cons p rest ih =>
    cases k with
    | succ k => simpa [parm_loop, visited_parms] using ih k s
    | zero =>
      by_cases hskip : checkAttribute p.attrs "tmap:in:numinputs" "0" = true
      · cases hn : p.tmap_in_next with
        | none => simp [parm_loop, visited_parms, hskip, hn, sepJoin]
        | some j => simpa [parm_loop, visited_parms, hskip, hn] using ih j s
      · have hb := parm_body_defs env n p s
        have hr := ih 0 (parm_body env n p s).2
        simp only [parm_loop, visited_parms, hskip, Bool.false_eq_true, if_false, List.map_cons,
          sepJoin]
        rw [hr.1, hr.2.1, hr.2.2, hb.1, hb.2.1, hb.2.2.1, hb.2.2.2]
        simp [String.append_assoc]

theorem Wrapper_add_localv_def (w : Wrapper) (name : String) (parts : List (Option String)) :
    (Wrapper_add_localv w name parts).def_ = w.def_ := by
  unfold Wrapper_add_localv
  split <;> rfl

theorem ite_def_ (c : Bool) (a b : Wrapper) :
    (if c = true then a else b).def_ = if c = true then a.def_ else b.def_ := by
  split <;> rfl

theorem emit_proxy_parm_loop_def (env : Env) (n : Hash String) (ps : List Parm) (k i : Nat)
    (f : Wrapper) : (emit_proxy_parm_loop env n k i ps f).2.1.def_ = f.def_ := by
  induction ps generalizing k i f with
  | nil => cases k <;> rfl
  | cons p rest ih =>
    cases k with
    | succ k => simpa [emit_proxy_parm_loop] using ih k i f
    | zero =>
      by_cases hskip : checkAttribute p.attrs "tmap:in:numinputs" "0" = true
      · cases hn : p.tmap_in_next with
        | none => simp [emit_proxy_parm_loop, hskip, hn]
        | some j => simpa [emit_proxy_parm_loop, hskip, hn] using ih j (i + 1) f
      · simp only [emit_proxy_parm_loop, hskip, Bool.false_eq_true, if_false]
        rw [ih]
        simp [emit_proxy_parm_body, Wrapper_add_localv_def]

theorem emit_proxy_parm_def (env : Env) (n : Hash String) (ps : List Parm) (f : Wrapper) :
    (emit_proxy_parm env n ps f).2.1.def_ = f.def_ := by
  simp [emit_proxy_parm, emit_proxy_parm_loop_def, Wrapper.withBody]

theorem get_typemap_isSome (env : Env) (n : Hash String) (tmname : String)
    (type : Option SwigType) (attributes : AttrArg) (warning : Warning)
    (suffix : Option String) (hw : warning ≠ Warning.WARN_NONE) :
    ∃ t, (get_typemap env n tmname type attributes warning suffix).tm = some t := by
  unfold get_typemap
  cases hb : (base_lookup env n tmname type attributes).tm with
  | none =>
    cases ha : (base_lookup env n tmname type attributes).attributes <;> simp [hb, hw, ha]
  | some tm =>
    cases suffix with
    | none => simp [hb]
    | some sfx =>
      cases hs : Getattr (base_lookup env n tmname type attributes).n
        ("tmap:" ++ tmname ++ ":" ++ sfx) <;> simp [hb, hs]

theorem functionWrapper_head_defs (env : Env) (n : Node) (wname fname : String) :
    (∃ crt, (functionWrapper_head env n wname fname).c_return_type = some crt ∧
      (functionWrapper_head env n wname fname).loop.cfunc.def_
        = "SWIGEXPORT " ++ crt ++ " " ++ wname ++ "(") ∧
    (functionWrapper_head env n wname fname).loop.imfunc.def_
      = func_type (functionWrapper_head env n wname fname).is_csubroutine
        ++ " " ++ fname ++ "(" ∧
    (functionWrapper_head env n wname fname).loop.ffunc.def_
      = func_type (functionWrapper_head env n wname fname).is_fsubroutine
        ++ " " ++ wname ++ "("
        ++ argprepend_text (functionWrapper_head env n wname fname).attrs
            (functionWrapper_head env n wname fname).parmlist ∧
    (functionWrapper_head env n wname fname).loop.prepend_comma = "" := by
  refine ⟨?_, ?_, ?_, rfl⟩
  · obtain ⟨crt, hc⟩ := get_typemap_isSome env
      (Setattr (Setattr n.attrs "wrap:name" wname) "wrap:fname" fname) "ctype"
      (Getattr (Setattr (Setattr n.attrs "wrap:name" wname) "wrap:fname" fname) "type")
      AttrArg.self Warning.WARN_FORTRAN_TYPEMAP_CTYPE_UNDEF (some "out") (by decide)
    refine ⟨crt, hc, ?_⟩
    simp only [functionWrapper_head, Wrapper.withBody, get_typemap_out, hc]
    rw [ite_def_]
    simp [Wrapper_add_localv_def, Wrapper.printDef, Printv, NewWrapper, String.append_assoc]
  · simp [functionWrapper_head, func_type, Wrapper.printDef, Printv, NewFortranWrapper,
      NewWrapper, String.append_assoc]
  · simp only [functionWrapper_head, argprepend_text, func_type]
    split
    · simp only [Wrapper.printDef, Printv, emit_proxy_parm_def]
      rw [ite_def_]
      simp [Wrapper_add_localv_def, Wrapper.printDef, Printv, NewFortranWrapper, NewWrapper,
        String.append_assoc]
    · simp only [emit_proxy_parm_def]
      rw [ite_def_]
      simp [Wrapper_add_localv_def, Wrapper.printDef, Printv, NewFortranWrapper, NewWrapper,
        String.append_assoc]

theorem functionWrapper_enddef_defs (h : FWHead) (l : List Parm × ParmLoop) (wname : String) :
    (functionWrapper_enddef h l wname).cfunc.def_ = l.2.cfunc.def_ ++ ") \x7b" ∧
    (functionWrapper_enddef h l wname).imfunc.def_
      = l.2.imfunc.def_ ++ ") &\n    bind(C, name=\"" ++ wname ++ "\")"
        ++ ((if !h.is_csubroutine then " &\n     result(fresult)\n" else "\n") ++ l.2.imargs) ∧
    (functionWrapper_enddef h l wname).ffunc.def_
      = l.2.ffunc.def_ ++ ")"
        ++ ((if !h.is_fsubroutine then " &\n     result(swigf_result)\n" else "\n")
            ++ l.2.fargs) := by
  simp [functionWrapper_enddef, Wrapper.printDef, Printv, String.append_assoc]

theorem functionWrapper_passes_defs (m : FWMid) :
    (functionWrapper_passes m).cfunc.def_ = m.cfunc.def_ ∧
    (functionWrapper_passes m).imfunc = m.imfunc ∧
    (functionWrapper_passes m).ffunc = m.ffunc := by
  simp [functionWrapper_passes]

theorem functionWrapper_out_defs (env : Env) (n : Node) (m : FWMid) :
    (functionWrapper_out env n m).cfunc.def_ = m.cfunc.def_ ∧
    (functionWrapper_out env n m).imfunc = m.imfunc ∧
    (functionWrapper_out env n m).ffunc = m.ffunc := by
  unfold functionWrapper_out Swig_typemap_lookup_out
  cases ho : (Swig_typemap_lookup env "out" m.attrs).1 <;>
    simp [ho, Wrapper.withBody, Wrapper.printCode]

theorem functionWrapper_fout_defs (env : Env) (h : FWHead) (m : FWMid) :
    (functionWrapper_fout env h m).cfunc = m.cfunc ∧
    (functionWrapper_fout env h m).imfunc = m.imfunc ∧
    (functionWrapper_fout env h m).ffunc.def_ = m.ffunc.def_ := by
  unfold functionWrapper_fout
  cases ho : (Swig_typemap_lookup env "fout" m.attrs).1 <;> simp [ho, Wrapper.printCode]

theorem functionWrapper_finish_defs (env : Env) (h : FWHead) (symname : Option String)
    (m : FWMid) :
    (functionWrapper_finish env h symname m).cfunc.def_ = m.cfunc.def_ ∧
    (functionWrapper_finish env h symname m).imfunc.def_ = m.imfunc.def_ ∧
    (functionWrapper_finish env h symname m).ffunc.def_ = m.ffunc.def_ := by
  simp [functionWrapper_finish, Wrapper.printCode]

theorem functionWrapper_build_defs (env : Env) (n : Node) (symname : Option String)
    (wname fname : String) :
    (functionWrapper_build env n symname wname fname).cfunc.def_
      = (functionWrapper_enddef (functionWrapper_head env n wname fname)
          (parm_loop env (functionWrapper_head env n wname fname).attrs 0
            (functionWrapper_head env n wname fname).parmlist
            (functionWrapper_head env n wname fname).loop) wname).cfunc.def_ ∧
    (functionWrapper_build env n symname wname fname).imfunc.def_
      = (functionWrapper_enddef (functionWrapper_head env n wname fname)
          (parm_loop env (functionWrapper_head env n wname fname).attrs 0
            (functionWrapper_head env n wname fname).parmlist
            (functionWrapper_head env n wname fname).loop) wname).imfunc.def_ ∧
    (functionWrapper_build env n symname wname fname).ffunc.def_
      = (functionWrapper_enddef (functionWrapper_head env n wname fname)
          (parm_loop env (functionWrapper_head env n wname fname).attrs 0
            (functionWrapper_head env n wname fname).parmlist
            (functionWrapper_head env n wname fname).loop) wname).ffunc.def_ := by
  simp only [functionWrapper_build]
  refine ⟨?_, ?_, ?_⟩
  · rw [(functionWrapper_finish_defs _ _ _ _).1, (functionWrapper_fout_defs _ _ _).1,
      (functionWrapper_out_defs _ _ _).1, (functionWrapper_passes_defs _).1]
  · rw [(functionWrapper_finish_defs _ _ _ _).2.1, (functionWrapper_fout_defs _ _ _).2.1,
      (functionWrapper_out_defs _ _ _).2.1, (functionWrapper_passes_defs _).2.1]
  · rw [(functionWrapper_finish_defs _ _ _ _).2.2, (functionWrapper_fout_defs _ _ _).2.2,
      (functionWrapper_out_defs _ _ _).2.2, (functionWrapper_passes_defs _).2.2]

theorem argprepend_list (attrs : Hash String) (parmlist : List Parm)
    (hp : Getattr attrs "fortran:argprepend" = none ∨ visited_parms 0 parmlist ≠ [] ∨
      parmlist = []) :
    argprepend_text attrs parmlist
        ++ String.intercalate ", " ((visited_parms 0 parmlist).map f_entry)
      = String.intercalate ", "
          ((Getattr attrs "fortran:argprepend").toList
            ++ (visited_parms 0 parmlist).map f_entry) := by
  unfold argprepend_text
  cases ha : Getattr attrs "fortran:argprepend" with
  | none => simp
  | some a =>
    rcases hp with hp | hp | hp
    · rw [ha] at hp
      cases hp
    · have hne : parmlist ≠ [] := by
        intro he
        apply hp
        simp [he, visited_parms]
      have hlen : parmlist.length > 0 := List.length_pos.mpr hne
      cases hw : visited_parms 0 parmlist with
      | nil => exact absurd hw hp
      | cons p ps =>
        simp only [hlen, if_true, Option.toList, List.map_cons, List.singleton_append]
        rw [← sepJoin_cons_intercalate, ← sepJoin_cons_intercalate]
        simp [sepJoin, String.append_assoc]
    · subst hp
      simp [visited_parms, String.intercalate, String.intercalate.go]

set_option maxRecDepth 100000 in
/-- C1 as stated fails for a constructor: for `Foo(int val)` the walk visits
one parameter; the native wrapper header and the ffi interface header list one
parameter, the proxy routine header lists two, `self` and `val`. -/
theorem constructor_proxy_lists_self :
    functionWrapper_wname (fooCtorFunction fooCtor) = "swigc_new_Foo" ∧
    functionWrapper_fname fooEmitter (fooCtorFunction fooCtor) = "swigf_new_Foo" ∧
    (walked_parms (sampleEnv sampleTypemaps noClasses) (fooCtorFunction fooCtor)
      "swigc_new_Foo" "swigf_new_Foo").length = 1 ∧
    (functionWrapper_build (sampleEnv sampleTypemaps noClasses) (fooCtorFunction fooCtor)
      (some "new_Foo") "swigc_new_Foo" "swigf_new_Foo").cfunc.def_
      = "SWIGEXPORT void* swigc_new_Foo(int farg1) \x7b" ∧
    (functionWrapper_build (sampleEnv sampleTypemaps noClasses) (fooCtorFunction fooCtor)
      (some "new_Foo") "swigc_new_Foo" "swigf_new_Foo").imfunc.def_
      = "function swigf_new_Foo(farg1) &\n    bind(C, name=\"swigc_new_Foo\") &\n"
        ++ "     result(fresult)\n   use, intrinsic :: ISO_C_BINDING\n"
        ++ "type(C_PTR) :: fresult\n   type(C_PTR) :: farg1\n" ∧
    (functionWrapper_build (sampleEnv sampleTypemaps noClasses) (fooCtorFunction fooCtor)
      (some "new_Foo") "swigc_new_Foo" "swigf_new_Foo").ffunc.def_
      = "function swigc_new_Foo(self, val) &\n     result(swigf_result)\n"
        ++ "   use, intrinsic :: ISO_C_BINDING\ntype(Foo) :: swigf_result\n   type(Foo) :: val\n" := by
  decide!

/-- C1, amended: with N the parameters visited by the parameter walk, the
native wrapper header and the ffi interface header list exactly the entries of
those N parameters, in walk order, separated by ", "; the proxy routine header
lists the `fortran:argprepend` entry, when the declaration carries one (a
constructor's `self`), followed by the entries of the same N parameters in the
same order. (A declaration with `fortran:argprepend` whose non-empty parameter
list is skipped entirely is left out.) -/
theorem functionWrapper_parameter_lists (env : Env) (n : Node) (symname : Option String)
    (wname fname : String)
    (hp : Getattr (functionWrapper_head env n wname fname).attrs "fortran:argprepend" = none ∨
      walked_parms env n wname fname ≠ [] ∨
      (functionWrapper_head env n wname fname).parmlist = []) :
    ∃ crt tim tf : String,
      (functionWrapper_build env n symname wname fname).cfunc.def_
        = "SWIGEXPORT " ++ crt ++ " " ++ wname ++ "("
          ++ String.intercalate ", "
              ((walked_parms env n wname fname).map
                (c_entry env (functionWrapper_head env n wname fname).attrs))
          ++ ") \x7b" ∧
      (functionWrapper_build env n symname wname fname).imfunc.def_
        = func_type (functionWrapper_build env n symname wname fname).is_csubroutine
          ++ " " ++ fname ++ "("
          ++ String.intercalate ", " ((walked_parms env n wname fname).map im_entry)
          ++ ") &\n    bind(C, name=\"" ++ wname ++ "\")" ++ tim ∧
      (functionWrapper_build env n symname wname fname).ffunc.def_
        = func_type (functionWrapper_build env n symname wname fname).is_fsubroutine
          ++ " " ++ wname ++ "("
          ++ String.intercalate ", "
              ((Getattr (functionWrapper_head env n wname fname).attrs
                  "fortran:argprepend").toList
                ++ (walked_parms env n wname fname).map f_entry)
          ++ ")" ++ tf := by
  obtain ⟨⟨crt, -, hc⟩, him, hf, hsep⟩ := functionWrapper_head_defs env n wname fname
  obtain ⟨bc, bim, bf⟩ := functionWrapper_build_defs env n symname wname fname
  obtain ⟨ec, eim, ef⟩ := functionWrapper_enddef_defs (functionWrapper_head env n wname fname)
    (parm_loop env (functionWrapper_head env n wname fname).attrs 0
      (functionWrapper_head env n wname fname).parmlist
      (functionWrapper_head env n wname fname).loop) wname
  obtain ⟨lc, lim, lf⟩ := parm_loop_defs env (functionWrapper_head env n wname fname).attrs
    (functionWrapper_head env n wname fname).parmlist 0
    (functionWrapper_head env n wname fname).loop
  refine ⟨crt,
    (if !(functionWrapper_head env n wname fname).is_csubroutine
      then " &\n     result(fresult)\n" else "\n")
      ++ (parm_loop env (functionWrapper_head env n wname fname).attrs 0
          (functionWrapper_head env n wname fname).parmlist
          (functionWrapper_head env n wname fname).loop).2.imargs,
    (if !(functionWrapper_head env n wname fname).is_fsubroutine
      then " &\n     result(swigf_result)\n" else "\n")
      ++ (parm_loop env (functionWrapper_head env n wname fname).attrs 0
          (functionWrapper_head env n wname fname).parmlist
          (functionWrapper_head env n wname fname).loop).2.fargs, ?_, ?_, ?_⟩
  · rw [bc, ec, lc, hc, hsep, sepJoin_empty]
    simp only [walked_parms, String.append_assoc]
  · rw [bim, eim, lim, him, hsep, sepJoin_empty]
    simp only [walked_parms, functionWrapper_build, String.append_assoc]
  · rw [bf, ef, lf, hf, hsep, sepJoin_empty]
    have hlist := argprepend_list (functionWrapper_head env n wname fname).attrs
      (functionWrapper_head env n wname fname).parmlist hp
    simp only [walked_parms, functionWrapper_build, String.append_assoc] at hlist ⊢
    rw [← hlist]
    simp only [String.append_assoc]

/-- C1, amended, at a concrete input: the free function `int add(int a, int b)`. -/
theorem functionWrapper_parameter_lists_witness :
    (Getattr (functionWrapper_head (sampleEnv sampleTypemaps noClasses) addNode
        "swigc_add" "add").attrs "fortran:argprepend" = none ∨
      walked_parms (sampleEnv sampleTypemaps noClasses) addNode "swigc_add" "add" ≠ [] ∨
      (functionWrapper_head (sampleEnv sampleTypemaps noClasses) addNode
        "swigc_add" "add").parmlist = []) ∧
    ∃ crt tim tf : String,
      (functionWrapper_build (sampleEnv sampleTypemaps noClasses) addNode (some "add")
          "swigc_add" "add").cfunc.def_
        = "SWIGEXPORT " ++ crt ++ " " ++ "swigc_add" ++ "("
          ++ String.intercalate ", "
              ((walked_parms (sampleEnv sampleTypemaps noClasses) addNode "swigc_add" "add").map
                (c_entry (sampleEnv sampleTypemaps noClasses)
                  (functionWrapper_head (sampleEnv sampleTypemaps noClasses) addNode
                    "swigc_add" "add").attrs))
          ++ ") \x7b" ∧
      (functionWrapper_build (sampleEnv sampleTypemaps noClasses) addNode (some "add")
          "swigc_add" "add").imfunc.def_
        = func_type (functionWrapper_build (sampleEnv sampleTypemaps noClasses) addNode
            (some "add") "swigc_add" "add").is_csubroutine
          ++ " " ++ "add" ++ "("
          ++ String.intercalate ", "
              ((walked_parms (sampleEnv sampleTypemaps noClasses) addNode "swigc_add" "add").map
                im_entry)
          ++ ") &\n    bind(C, name=\"" ++ "swigc_add" ++ "\")" ++ tim ∧
      (functionWrapper_build (sampleEnv sampleTypemaps noClasses) addNode (some "add")
          "swigc_add" "add").ffunc.def_
        = func_type (functionWrapper_build (sampleEnv sampleTypemaps noClasses) addNode
            (some "add") "swigc_add" "add").is_fsubroutine
          ++ " " ++ "swigc_add" ++ "("
          ++ String.intercalate ", "
              ((Getattr (functionWrapper_head (sampleEnv sampleTypemaps noClasses) addNode
                  "swigc_add" "add").attrs "fortran:argprepend").toList
                ++ (walked_parms (sampleEnv sampleTypemaps noClasses) addNode
                    "swigc_add" "add").map f_entry)
          ++ ")" ++ tf :=
  ⟨Or.inl (by decide!),
   functionWrapper_parameter_lists (sampleEnv sampleTypemaps noClasses) addNode (some "add")
     "swigc_add" "add" (Or.inl (by decide!))⟩

/-! ## Routine shapes (C9, C10) -/

theorem isPrefixOf_subroutine (b : Bool) (rest : String) :
    ("subroutine " : String).data.isPrefixOf (func_type b ++ " " ++ rest).data = b := by
  cases b with
  | true =>
    have h : (func_type true ++ " " ++ rest).data = ("subroutine " : String).data ++ rest.data := by
      simp only [String.data_append]
      rfl
    rw [h, List.isPrefixOf_iff_prefix]
    exact List.prefix_append _ _
  | false =>
    have h : (func_type false ++ " " ++ rest).data
        = 'f' :: (("unction " : String).data ++ rest.data) := by
      simp only [String.data_append]
      rfl
    have h2 : ("subroutine " : String).data = 's' :: ("ubroutine " : String).data := rfl
    rw [h, h2]
    simp [List.isPrefixOf]

theorem is_subroutine_of_def (w : Wrapper) (b : Bool) (rest : String)
    (h : w.def_ = func_type b ++ " " ++ rest) : is_subroutine w = b := by
  unfold is_subroutine
  rw [h]
  exact isPrefixOf_subroutine b rest

theorem functionWrapper_head_flags (env : Env) (n : Node) (wname fname : String) :
    (functionWrapper_head env n wname fname).is_csubroutine
      = ((functionWrapper_head env n wname fname).c_return_type == some "void") ∧
    (functionWrapper_head env n wname fname).is_fsubroutine
      = (Len (functionWrapper_head env n wname fname).f_return_type == 0) ∧
    (functionWrapper_head env n wname fname).c_return_type
      = (get_typemap_out env (Setattr (Setattr n.attrs "wrap:name" wname) "wrap:fname" fname)
          "ctype" Warning.WARN_FORTRAN_TYPEMAP_CTYPE_UNDEF).tm ∧
    (functionWrapper_head env n wname fname).f_return_type
      = (get_typemap_out env
          (get_typemap_out env
            (get_typemap_out env (Setattr (Setattr n.attrs "wrap:name" wname) "wrap:fname" fname)
              "ctype" Warning.WARN_FORTRAN_TYPEMAP_CTYPE_UNDEF).n
            "imtype" Warning.WARN_FORTRAN_TYPEMAP_IMTYPE_UNDEF).n
          "ftype" Warning.WARN_FORTRAN_TYPEMAP_FTYPE_UNDEF).tm :=
  ⟨rfl, rfl, rfl, rfl⟩

theorem functionWrapper_build_returns (env : Env) (n : Node) (symname : Option String)
    (wname fname : String) :
    (functionWrapper_build env n symname wname fname).c_return_type
      = (functionWrapper_head env n wname fname).c_return_type ∧
    (functionWrapper_build env n symname wname fname).f_return_type
      = (functionWrapper_head env n wname fname).f_return_type ∧
    (functionWrapper_build env n symname wname fname).is_csubroutine
      = (functionWrapper_head env n wname fname).is_csubroutine ∧
    (functionWrapper_build env n symname wname fname).is_fsubroutine
      = (functionWrapper_head env n wname fname).is_fsubroutine :=
  ⟨rfl, rfl, rfl, rfl⟩

set_option maxRecDepth 100000 in
/-- C9 as stated fails: for `void tick()` the resolved native return-type
template is `void`, which is not empty (4 bytes), and the ffi interface
routine is a subroutine. -/
theorem void_native_template_gives_subroutine :
    functionWrapper_wname tickNode = "swigc_tick" ∧
    functionWrapper_fname emptyEmitter tickNode = "tick" ∧
    (functionWrapper_build (sampleEnv sampleTypemaps noClasses) tickNode (some "tick")
      "swigc_tick" "tick").c_return_type = some "void" ∧
    Len (functionWrapper_build (sampleEnv sampleTypemaps noClasses) tickNode (some "tick")
      "swigc_tick" "tick").c_return_type = 4 ∧
    is_subroutine (functionWrapper_build (sampleEnv sampleTypemaps noClasses) tickNode
      (some "tick") "swigc_tick" "tick").imfunc = true ∧
    (functionWrapper_build (sampleEnv sampleTypemaps noClasses) tickNode (some "tick")
      "swigc_tick" "tick").imfunc.def_
      = "subroutine tick() &\n    bind(C, name=\"swigc_tick\")\n"
        ++ "   use, intrinsic :: ISO_C_BINDING\n" := by
  decide!

/-- C9, amended: `functionWrapper` decides the two shapes independently: the ffi
interface routine of the native tier is a subroutine exactly when the resolved
native return-type template (`ctype`, with its `out` override) is the text
`void`, and the proxy routine is a subroutine exactly when the resolved binding
return-type template (`ftype`, with its `out` override) is empty. -/
theorem functionWrapper_shapes (env : Env) (n : Node) (symname : Option String)
    (wname fname : String) :
    (is_subroutine (functionWrapper_build env n symname wname fname).imfunc = true ↔
      (functionWrapper_build env n symname wname fname).c_return_type = some "void") ∧
    (is_subroutine (functionWrapper_build env n symname wname fname).ffunc = true ↔
      Len (functionWrapper_build env n symname wname fname).f_return_type = 0) ∧
    (functionWrapper_build env n symname wname fname).c_return_type
      = (get_typemap_out env (Setattr (Setattr n.attrs "wrap:name" wname) "wrap:fname" fname)
          "ctype" Warning.WARN_FORTRAN_TYPEMAP_CTYPE_UNDEF).tm ∧
    (functionWrapper_build env n symname wname fname).f_return_type
      = (get_typemap_out env
          (get_typemap_out env
            (get_typemap_out env (Setattr (Setattr n.attrs "wrap:name" wname) "wrap:fname" fname)
              "ctype" Warning.WARN_FORTRAN_TYPEMAP_CTYPE_UNDEF).n
            "imtype" Warning.WARN_FORTRAN_TYPEMAP_IMTYPE_UNDEF).n
          "ftype" Warning.WARN_FORTRAN_TYPEMAP_FTYPE_UNDEF).tm := by
  obtain ⟨-, him, hf, hsep⟩ := functionWrapper_head_defs env n wname fname
  obtain ⟨-, bim, bf⟩ := functionWrapper_build_defs env n symname wname fname
  obtain ⟨-, eim, ef⟩ := functionWrapper_enddef_defs (functionWrapper_head env n wname fname)
    (parm_loop env (functionWrapper_head env n wname fname).attrs 0
      (functionWrapper_head env n wname fname).parmlist
      (functionWrapper_head env n wname fname).loop) wname
  obtain ⟨-, lim, lf⟩ := parm_loop_defs env (functionWrapper_head env n wname fname).attrs
    (functionWrapper_head env n wname fname).parmlist 0
    (functionWrapper_head env n wname fname).loop
  obtain ⟨fc, ff, hct, hft⟩ := functionWrapper_head_flags env n wname fname
  obtain ⟨hc, hfr, -, -⟩ := functionWrapper_build_returns env n symname wname fname
  refine ⟨?_, ?_, ?_, ?_⟩
  · have hd : is_subroutine (functionWrapper_build env n symname wname fname).imfunc
        = (functionWrapper_head env n wname fname).is_csubroutine := by
      apply is_subroutine_of_def _ _
        (fname ++ ("(" ++ (sepJoin (functionWrapper_head env n wname fname).loop.prepend_comma
          ((visited_parms 0 (functionWrapper_head env n wname fname).parmlist).map im_entry)
          ++ (") &\n    bind(C, name=\"" ++ (wname ++ ("\")"
          ++ ((if !(functionWrapper_head env n wname fname).is_csubroutine
                then " &\n     result(fresult)\n" else "\n")
              ++ (parm_loop env (functionWrapper_head env n wname fname).attrs 0
                  (functionWrapper_head env n wname fname).parmlist
                  (functionWrapper_head env n wname fname).loop).2.imargs)))))))
      rw [bim, eim, lim, him]
      simp only [String.append_assoc]
    rw [hd, fc, hc]
    exact beq_iff_eq
  · have hd : is_subroutine (functionWrapper_build env n symname wname fname).ffunc
        = (functionWrapper_head env n wname fname).is_fsubroutine := by
      apply is_subroutine_of_def _ _
        (wname ++ ("(" ++ (argprepend_text (functionWrapper_head env n wname fname).attrs
            (functionWrapper_head env n wname fname).parmlist
          ++ (sepJoin (functionWrapper_head env n wname fname).loop.prepend_comma
            ((visited_parms 0 (functionWrapper_head env n wname fname).parmlist).map f_entry)
          ++ (")" ++ ((if !(functionWrapper_head env n wname fname).is_fsubroutine
                then " &\n     result(swigf_result)\n" else "\n")
              ++ (parm_loop env (functionWrapper_head env n wname fname).attrs 0
                  (functionWrapper_head env n wname fname).parmlist
                  (functionWrapper_head env n wname fname).loop).2.fargs))))))
      rw [bf, ef, lf, hf]
      simp only [String.append_assoc]
    rw [hd, ff, hfr]
    exact beq_iff_eq
  · rw [hc, hct]
  · rw [hfr, hft]

set_option maxRecDepth 100000 in
/-- C10 (violated by the code): `constructorHandler` stores the empty return
type under the key `ftype:out`, while `get_typemap_out` reads
`tmap:ftype:out`; for the default constructor of `Foo`, whose type has the
binding return template `type(Foo)`, the proxy routine is emitted as a
function with a `result(swigf_result)` clause. -/
theorem constructor_proxy_is_function :
    Getattr (fooCtorFunction fooDefaultCtor).attrs "ftype:out" = some "" ∧
    Getattr (fooCtorFunction fooDefaultCtor).attrs "tmap:ftype:out" = none ∧
    (constructorHandler (sampleEnv sampleTypemaps noClasses) fooEmitter fooDefaultCtor).2.1.f_proxy
      = "function swigc_new_Foo(self) &\n     result(swigf_result)\n"
        ++ "   use, intrinsic :: ISO_C_BINDING\ntype(Foo) :: swigf_result\n\n"
        ++ "type(C_PTR)  :: fresult \n\nfresult = swigc_new_Foo()\n  end function\n" := by
  decide!

/-! ## Overload groups (C2) -/

theorem print_wrapped_loop_eq (items : List String) (out sep : String) (line_length : Nat)
    (hsep : sep = "" ∨ sep = ", ") :
    ∃ seps : List String, seps.length = items.length ∧ (∀ s ∈ seps, is_separator s) ∧
      (print_wrapped_loop out sep items line_length).1 = out ++ interleave seps items := by
  induction items generalizing out sep line_length with
  | nil => exact ⟨[], rfl, by simp, by simp [print_wrapped_loop, interleave]⟩
  | cons x r ih =>
    by_cases hl : line_length + 2 + Len (some x) ≥ g_max_line_length
    · obtain ⟨seps, h1, h2, h3⟩ := ih (Printv (Printv out [some sep]) [some "&\n    ", some x])
        ", " 4 (Or.inr rfl)
      refine ⟨(sep ++ "&\n    ") :: seps, by simp [h1], ?_, ?_⟩
      · intro s hs
        rcases List.mem_cons.mp hs with h | h
        · rcases hsep with e | e <;> subst e <;> subst h <;> simp [is_separator]
        · exact h2 s h
      · simp only [print_wrapped_loop, hl, if_true, h3, interleave]
        simp [Printv, String.append_assoc]
    · obtain ⟨seps, h1, h2, h3⟩ := ih (Printv out [some sep, some x]) ", "
        (line_length + 2 + Len (some x)) (Or.inr rfl)
      refine ⟨sep :: seps, by simp [h1], ?_, ?_⟩
      · intro s hs
        rcases List.mem_cons.mp hs with h | h
        · rcases hsep with e | e <;> subst e <;> subst h <;> simp [is_separator]
        · exact h2 s h
      · simp only [print_wrapped_loop, hl, if_false, h3, interleave]
        simp [Printv, String.append_assoc]

theorem generic_binding_eq (f_types key : String) (items : List String) :
    ∃ seps : List String, seps.length = items.length ∧ (∀ s ∈ seps, is_separator s) ∧
      generic_binding f_types key items
        = f_types ++ "  generic :: " ++ key ++ " => " ++ interleave seps items ++ "\n" := by
  obtain ⟨seps, h1, h2, h3⟩ := print_wrapped_loop_eq items
    (Printv f_types [some "  generic :: ", some key, some " => "]) ""
    (13 + Len (some key) + 4 - 2) (Or.inl rfl)
  refine ⟨seps, h1, h2, ?_⟩
  simp only [generic_binding, print_wrapped_line, h3]
  simp [Printv, String.append_assoc]

theorem addSymbol_ok (st : Emitter) (s : Option String) (h : (addSymbol st s).1 = true) :
    (addSymbol st s).2 = { st with symbols := st.symbols ++ [fmt_s s] } := by
  unfold addSymbol at h ⊢
  split
  · rename_i hm
    simp [hm] at h
  · rfl

/-- C4 as stated fails: the class `D` has two declared bases, the first of which
carries no symbol name (a base that is not wrapped); `classHandler` returns
`SWIG_OK` and the type header contains no `extends(...)` clause at all. -/
theorem unnamed_first_base_gives_no_extends :
    (classHandler (sampleEnv noTypemaps noClasses) noMembers emptyEmitter
      (derivedClass [[("name", "Hidden")], [("sym:name", "B2")]])).1 = Status.SWIG_OK ∧
    (classHandler (sampleEnv noTypemaps noClasses) noMembers emptyEmitter
      (derivedClass [[("name", "Hidden")], [("sym:name", "B2")]])).2.f_types
      = " type :: D\n  SWIGTYPE_ contains\n end type\n" ∧
    Strstr (classHandler (sampleEnv noTypemaps noClasses) noMembers emptyEmitter
      (derivedClass [[("name", "Hidden")], [("sym:name", "B2")]])).2.f_types "extends("
      = false := by
  decide

/-- C4, amended: for a class with two or more declared bases whose own symbol
registers successfully and whose first declared base carries a symbol name,
`classHandler` returns `SWIG_OK`, the emitter handed to the member visits has
the two diagnostics (inheritance, multiple inheritance) recorded, and the type
header written before the members is exactly the `type` line with one
`extends(...)` clause naming the first declared base, followed by `contains`. -/
theorem classHandler_multiple_bases (env : Env) (members : Node → Emitter → Emitter)
    (st : Emitter) (n : Node) (cname bname : String) (b0 b1 : Hash String)
    (rest : List (Hash String))
    (hsym : Getattr n.attrs "sym:name" = some cname)
    (hreg : (addSymbol st (some cname)).1 = true)
    (hb : n.bases = some (b0 :: b1 :: rest))
    (hname : Getattr b0 "sym:name" = some bname) :
    classHandler env members st n
      = (Status.SWIG_OK, classHandler_close env
          (members n (classHandler_header env (addSymbol st (some cname)).2 n)) n) ∧
    (classHandler_header env (addSymbol st (some cname)).2 n).f_types
      = st.f_types ++ " type, extends(" ++ bname ++ ")"
        ++ (if st.isAbstract then ", abstract" else "") ++ " :: " ++ cname ++ "\n"
        ++ " contains\n" ∧
    (classHandler_header env (addSymbol st (some cname)).2 n).warnings
      = st.warnings ++
        [⟨Warning.WARN_LANG_NATIVE_UNIMPL, "Inheritance (class '"
            ++ env.SwigType_namestr (some cname)
            ++ "') support is under development and limited.\n"⟩,
         ⟨Warning.WARN_LANG_NATIVE_UNIMPL,
            "Multiple inheritance (class '\n') is not supported in Fortran"⟩] := by
  have hst := addSymbol_ok st (some cname) hreg
  refine ⟨?_, ?_, ?_⟩
  · simp [classHandler, hsym, hreg]
  · rw [hst]
    by_cases ha : st.isAbstract = true
    · simp [classHandler_header, hsym, hb, hname, ha, Printv, String.append_assoc]
    · simp [classHandler_header, hsym, hb, hname, ha, Printv, String.append_assoc]
  · rw [hst]
    simp [classHandler_header, hsym, hb, hname]

/-- C4, amended, at a concrete input: `D` with the bases `B1` and `B2`. -/
theorem classHandler_multiple_bases_witness :
    Getattr (derivedClass [[("sym:name", "B1")], [("sym:name", "B2")]]).attrs "sym:name"
      = some "D" ∧
    (addSymbol emptyEmitter (some "D")).1 = true ∧
    (derivedClass [[("sym:name", "B1")], [("sym:name", "B2")]]).bases
      = some ([("sym:name", "B1")] :: [("sym:name", "B2")] :: []) ∧
    Getattr [("sym:name", "B1")] "sym:name" = some "B1" ∧
    (classHandler_header (sampleEnv noTypemaps noClasses) (addSymbol emptyEmitter (some "D")).2
        (derivedClass [[("sym:name", "B1")], [("sym:name", "B2")]])).f_types
      = emptyEmitter.f_types ++ " type, extends(" ++ "B1" ++ ")"
        ++ (if emptyEmitter.isAbstract then ", abstract" else "") ++ " :: " ++ "D" ++ "\n"
        ++ " contains\n" :=
  ⟨by decide, by decide, by decide, by decide,
   (classHandler_multiple_bases (sampleEnv noTypemaps noClasses) noMembers emptyEmitter
      (derivedClass [[("sym:name", "B1")], [("sym:name", "B2")]]) "D" "B1"
      [("sym:name", "B1")] [("sym:name", "B2")] [] (by decide) (by decide) (by decide)
      (by decide)).2.1⟩

/-! ## Constructor result conversion (C11) -/

set_option maxRecDepth 100000 in
/-- C11 (violated by the code): `constructorHandler` stores the creation
template of `Foo` under the attribute `fout`, but `functionWrapper` takes the
result conversion from a fresh `fout` lookup for the declaration's return type
and never reads that attribute: the proxy body of the default constructor ends
with the generic template of `p.Foo`, not with the creation template. -/
theorem constructor_uses_generic_fout :
    (get_typemap4 (sampleEnv ctorTypemaps noClasses) fooDefaultCtor.attrs "fcreate" (some "Foo")
      Warning.WARN_FORTRAN_TYPEMAP_FCREATE_UNDEF).tm = some "   self%swigptr = fresult" ∧
    Getattr (constructorHandler_prepare (sampleEnv ctorTypemaps noClasses) fooEmitter
      fooDefaultCtor).1.attrs "fout" = some "   self%swigptr = fresult" ∧
    (constructorHandler (sampleEnv ctorTypemaps noClasses) fooEmitter fooDefaultCtor).2.1.f_proxy
      = "function swigc_new_Foo(self) &\n     result(swigf_result)\n"
        ++ "   use, intrinsic :: ISO_C_BINDING\ntype(Foo) :: swigf_result\n\n"
        ++ "type(C_PTR)  :: fresult \n\nfresult = swigc_new_Foo()\n"
        ++ "   swigf_result%swigptr = fresult\n  end function\n" := by
  decide!

/-! ## Routine names of the tiers (C15, C16) -/

set_option maxRecDepth 100000 in
/-- C15 (violated by the code): for `int add(int a, int b)`, which has no
`feature:faction`, the ffi interface declaration is emitted under the name `add`
(with link name `swigc_add`), while the call statement in the proxy body invokes
`swigc_add`. -/
theorem proxy_call_names_wrapper :
    Getattr addNode.attrs "feature:faction" = none ∧
    (functionWrapper (sampleEnv sampleTypemaps noClasses) emptyEmitter addNode).2.1.f_interfaces
      = "function add(farg1, farg2) &\n    bind(C, name=\"swigc_add\") &\n"
        ++ "     result(fresult)\n   use, intrinsic :: ISO_C_BINDING\n"
        ++ "integer(C_INT) :: fresult\n   integer(C_INT) :: farg1\n"
        ++ "   integer(C_INT) :: farg2\n\n\n  end function\n" ∧
    Getattr (functionWrapper (sampleEnv sampleTypemaps noClasses) emptyEmitter addNode).2.2.attrs
      "wrap:faction" = some "fresult = swigc_add(farg1, farg2)" ∧
    (functionWrapper_build (sampleEnv sampleTypemaps noClasses) addNode (some "add")
      "swigc_add" "add").ffunc.code
      = "f$1 = a\nf$1 = b\nfresult = swigc_add(farg1, farg2)\n  end function" := by
  decide!

set_option maxRecDepth 100000 in
/-- C16 (violated by the code): for `int add(int a, int b)` the proxy name
recorded as `wrap:fname` and exported is `add`, but the routine appended to the
proxy-body section is defined under the native wrapper name `swigc_add`, and
`add` is the name of the ffi interface declaration. -/
theorem proxy_routine_named_wrapper :
    Getattr (functionWrapper (sampleEnv sampleTypemaps noClasses) emptyEmitter addNode).2.2.attrs
      "wrap:fname" = some "add" ∧
    Getattr (functionWrapper (sampleEnv sampleTypemaps noClasses) emptyEmitter addNode).2.2.attrs
      "wrap:name" = some "swigc_add" ∧
    (functionWrapper (sampleEnv sampleTypemaps noClasses) emptyEmitter addNode).2.1.f_public
      = " public :: add\n" ∧
    (functionWrapper (sampleEnv sampleTypemaps noClasses) emptyEmitter addNode).2.1.f_proxy
      = "function swigc_add(a, b) &\n     result(swigf_result)\n"
        ++ "   use, intrinsic :: ISO_C_BINDING\ninteger(C_INT) :: swigf_result\n"
        ++ "   integer(C_INT) :: a\n   integer(C_INT) :: b\n\n"
        ++ "integer(C_INT)  :: fresult \n    integer(C_INT)  ::  farg1 \n"
        ++ "    integer(C_INT)  ::  farg2 \n\nf$1 = a\nf$1 = b\n"
        ++ "fresult = swigc_add(farg1, farg2)\n  end function\n" := by
  decide!

/-! ## Line wrapping (C17, C18) -/

set_option maxRecDepth 100000 in
/-- C17 (violated by the code): from start column 0, three identifiers of 30,
100 and 30 letters (each fits on a continuation line: 4 + 100 + 3 is 107) are
written on two lines of 33 and 136 columns; the second exceeds the budget of
128, because after a break the line length is set to 4 without the item just
written. -/
theorem wrapped_line_exceeds_budget :
    4 + (ident 'b' 100).length + 3 ≤ g_max_line_length ∧
    line_lengths (print_wrapped_line "" [ident 'a' 30, ident 'b' 100, ident 'c' 30] 0).1
      = [33, 136] ∧
    (print_wrapped_line "" [ident 'a' 30, ident 'b' 100, ident 'c' 30] 0).2 = 36 := by
  decide!

theorem replaceAux_copy (d : Char) (t rep a X : List Char) (ha : ∀ c ∈ a, c ≠ d) :
    replaceAux (d :: t) rep 0 (a ++ X) = a ++ replaceAux (d :: t) rep 0 X := by
  induction a with
  | nil => rfl
  | cons c cs ih =>
    have hc : d ≠ c := fun e => ha c (List.mem_cons_self _ _) e.symm
    have hcs : ∀ x ∈ cs, x ≠ d := fun x hx => ha x (List.mem_cons_of_mem _ hx)
    simp [replaceAux, List.isPrefixOf, hc, ih hcs]

theorem replaceAux_skip (tok rep : List Char) (t Y : List Char) :
    replaceAux tok rep t.length (t ++ Y) = replaceAux tok rep 0 Y := by
  induction t with
  | nil => rfl
  | cons c cs ih => simpa [replaceAux] using ih

theorem replaceAux_token (d : Char) (t rep Y : List Char) :
    replaceAux (d :: t) rep 0 ((d :: t) ++ Y) = rep ++ replaceAux (d :: t) rep 0 Y := by
  have hp : (d :: t).isPrefixOf (d :: (t ++ Y)) = true := by
    rw [List.isPrefixOf_iff_prefix]
    exact List.prefix_append (d :: t) Y
  show replaceAux (d :: t) rep 0 (d :: (t ++ Y)) = _
  rw [replaceAux, if_pos hp]
  simp only [List.length_cons, Nat.add_sub_cancel]
  rw [replaceAux_skip]

theorem print_wrapped_loop_breaks (items : List String) (hno : ∀ x ∈ items, '&' ∉ x.data)
    (out sep : String) (line_length : Nat) (hsep : sep = "" ∨ sep = ", ") :
    ∃ seps : List String, seps.length = items.length ∧ (∀ s ∈ seps, is_separator s) ∧
      (print_wrapped_loop out sep items line_length).1 = out ++ interleave seps items ∧
      replaceAux ("&\n    " : String).data [] 0 (interleave seps items).data
        = (sepJoin sep items).data := by
  have htok : ("&\n    " : String).data = '&' :: ("\n    " : String).data := rfl
  have hsepd : ∀ c ∈ sep.data, c ≠ '&' := by
    rcases hsep with e | e <;> subst e <;> decide
  induction items generalizing out sep line_length with
  | nil => exact ⟨[], rfl, by simp, by simp [print_wrapped_loop, interleave], by
      simp [interleave, sepJoin, replaceAux]⟩
  | cons x r ih =>
    have hx : ∀ c ∈ x.data, c ≠ '&' := fun c hc e => hno x (List.mem_cons_self _ _) (e ▸ hc)
    have hr : ∀ y ∈ r, '&' ∉ y.data := fun y hy => hno y (List.mem_cons_of_mem _ hy)
    have hcomma : ∀ c ∈ (", " : String).data, c ≠ '&' := by decide
    by_cases hl : line_length + 2 + Len (some x) ≥ g_max_line_length
    · obtain ⟨seps, h1, h2, h3, h4⟩ := ih hr
        (Printv (Printv out [some sep]) [some "&\n    ", some x]) ", " 4 (Or.inr rfl) hcomma
      refine ⟨(sep ++ "&\n    ") :: seps, by simp [h1], ?_, ?_, ?_⟩
      · intro s hs
        rcases List.mem_cons.mp hs with h | h
        · rcases hsep with e | e <;> subst e <;> subst h <;> simp [is_separator]
        · exact h2 s h
      · simp only [print_wrapped_loop, hl, if_true, h3, interleave]
        simp [Printv, String.append_assoc]
      · simp only [interleave, sepJoin, String.data_append, List.append_assoc]
        have h5 : replaceAux ['&', '\n', ' ', ' ', ' ', ' '] [] 0 (interleave seps r).data
            = (sepJoin ", " r).data := h4
        rw [replaceAux_copy _ _ _ _ _ hsepd, replaceAux_token,
          replaceAux_copy _ _ _ _ _ hx, h5]
        simp
    · obtain ⟨seps, h1, h2, h3, h4⟩ := ih hr (Printv out [some sep, some x]) ", "
        (line_length + 2 + Len (some x)) (Or.inr rfl) hcomma
      refine ⟨sep :: seps, by simp [h1], ?_, ?_, ?_⟩
      · intro s hs
        rcases List.mem_cons.mp hs with h | h
        · rcases hsep with e | e <;> subst e <;> subst h <;> simp [is_separator]
        · exact h2 s h
      · simp only [print_wrapped_loop, hl, if_false, h3, interleave]
        simp [Printv, String.append_assoc]
      · simp only [interleave, sepJoin, String.data_append, List.append_assoc]
        have h5 : replaceAux ['&', '\n', ' ', ' ', ' ', ' '] [] 0 (interleave seps r).data
            = (sepJoin ", " r).data := h4
        rw [replaceAux_copy _ _ _ _ _ hsepd, replaceAux_copy _ _ _ _ _ hx, h5]

/-- C18: for every start column and every list of identifiers without `&`, the
text appended by `print_wrapped_line` is the identifiers in their order, each
behind a separator (nothing, a comma, a continuation break, or a comma and a
continuation break), and deleting every continuation break `&`, newline, four
blanks from it yields exactly the identifiers joined by ", ". -/
theorem wrapped_line_without_breaks (out : String) (items : List String) (line_length : Nat)
    (hno : ∀ x ∈ items, '&' ∉ x.data) :
    ∃ seps : List String, seps.length = items.length ∧ (∀ s ∈ seps, is_separator s) ∧
      (print_wrapped_line out items line_length).1 = out ++ interleave seps items ∧
      Replaceall (interleave seps items) "&\n    " "" = String.intercalate ", " items := by
  obtain ⟨seps, h1, h2, h3, h4⟩ :=
    print_wrapped_loop_breaks items hno out "" line_length (Or.inl rfl)
  refine ⟨seps, h1, h2, h3, ?_⟩
  have hne : ("&\n    " : String).data.isEmpty = false := by decide
  have he : ("" : String).data = [] := rfl
  unfold Replaceall
  simp only [hne, Bool.false_eq_true, if_false, he, h4]
  rw [← sepJoin_empty]

/-- C18 at a concrete input: the identifiers of 30, 100 and 30 letters from
start column 0. -/
theorem wrapped_line_without_breaks_witness :
    (∀ x ∈ [ident 'a' 30, ident 'b' 100, ident 'c' 30], '&' ∉ x.data) ∧
    ∃ seps : List String, seps.length = [ident 'a' 30, ident 'b' 100, ident 'c' 30].length ∧
      (∀ s ∈ seps, is_separator s) ∧
      (print_wrapped_line "" [ident 'a' 30, ident 'b' 100, ident 'c' 30] 0).1
        = "" ++ interleave seps [ident 'a' 30, ident 'b' 100, ident 'c' 30] ∧
      Replaceall (interleave seps [ident 'a' 30, ident 'b' 100, ident 'c' 30]) "&\n    " ""
        = String.intercalate ", " [ident 'a' 30, ident 'b' 100, ident 'c' 30] :=
  ⟨by decide!,
   wrapped_line_without_breaks "" [ident 'a' 30, ident 'b' 100, ident 'c' 30] 0 (by decide!)⟩

/-! ## Attributes carried through `functionWrapper` -/

theorem carried_key_of_data (k : String)
    (h1 : k ≠ "type")
    (h2 : ¬ ("tmap:" : String).data.isPrefixOf k.data = true)
    (h3 : ¬ ("wrap:" : String).data.isPrefixOf k.data = true) : carried_key k := by
  refine ⟨⟨h1, ?_⟩, ?_⟩
  · intro x e
    apply h2
    rw [e, String.data_append, List.isPrefixOf_iff_prefix]
    exact List.prefix_append _ _
  · intro x e
    apply h3
    rw [e, String.data_append, List.isPrefixOf_iff_prefix]
    exact List.prefix_append _ _

theorem carried_key_ne_wrap {k : String} (hk : carried_key k) (x : String) : "wrap:" ++ x ≠ k :=
  fun h => hk.2 x h.symm

theorem functionWrapper_head_attrs (env : Env) (n : Node) (wname fname : String) :
    (functionWrapper_head env n wname fname).attrs =
      SetattrOpt (SetattrOpt (SetattrOpt
        (get_typemap_out env
          (get_typemap_out env
            (get_typemap_out env (Setattr (Setattr n.attrs "wrap:name" wname) "wrap:fname" fname)
              "ctype" Warning.WARN_FORTRAN_TYPEMAP_CTYPE_UNDEF).n
            "imtype" Warning.WARN_FORTRAN_TYPEMAP_IMTYPE_UNDEF).n
          "ftype" Warning.WARN_FORTRAN_TYPEMAP_FTYPE_UNDEF).n
        "wrap:type" (functionWrapper_head env n wname fname).c_return_type)
        "wrap:imtype" (functionWrapper_head env n wname fname).im_return_type)
        "wrap:ftype" (functionWrapper_head env n wname fname).f_return_type := rfl

theorem get_typemap_out_plain (env : Env) (n : Hash String) (tmname : String)
    (warning : Warning) (k : String) (hk : plain_key k) :
    Getattr (get_typemap_out env n tmname warning).n k = Getattr n k :=
  get_typemap_plain env n tmname _ _ warning (some "out") k hk

theorem functionWrapper_head_attr (env : Env) (n : Node) (wname fname : String) (k : String)
    (hk : plain_key k) (h1 : k ≠ "wrap:type") (h2 : k ≠ "wrap:imtype") (h3 : k ≠ "wrap:ftype") :
    Getattr (functionWrapper_head env n wname fname).attrs k
      = Getattr (Setattr (Setattr n.attrs "wrap:name" wname) "wrap:fname" fname) k := by
  rw [functionWrapper_head_attrs,
    Getattr_SetattrOpt_ne _ _ _ _ (Ne.symm h3), Getattr_SetattrOpt_ne _ _ _ _ (Ne.symm h2),
    Getattr_SetattrOpt_ne _ _ _ _ (Ne.symm h1),
    get_typemap_out_plain _ _ _ _ _ hk, get_typemap_out_plain _ _ _ _ _ hk,
    get_typemap_out_plain _ _ _ _ _ hk]

theorem functionWrapper_out_attr (env : Env) (n : Node) (m : FWMid) (k : String)
    (hk : plain_key k) :
    Getattr (functionWrapper_out env n m).attrs k = Getattr m.attrs k := by
  have hl : Getattr (Swig_typemap_lookup_out env m.attrs
      (m.cfunc.withBody (env.Swig_director_emit_dynamic_cast
        { n with attrs := m.attrs, parms := m.parmlist, wrap_parms := true } m.cfunc))
      (env.emit_action { n with attrs := m.attrs, parms := m.parmlist, wrap_parms := true })).2.1 k
        = Getattr m.attrs k := by
    unfold Swig_typemap_lookup_out
    cases h : (Swig_typemap_lookup env "out" m.attrs).1 <;>
      simpa [h] using Swig_typemap_lookup_plain env "out" m.attrs k hk
  unfold functionWrapper_out
  cases h : (Swig_typemap_lookup_out env m.attrs
      (m.cfunc.withBody (env.Swig_director_emit_dynamic_cast
        { n with attrs := m.attrs, parms := m.parmlist, wrap_parms := true } m.cfunc))
      (env.emit_action { n with attrs := m.attrs, parms := m.parmlist, wrap_parms := true })).1 with
  | none => simpa [h] using hl
  | some code =>
    have hne : "tmap:out" ≠ k := plain_key_ne_tmap hk "out"
    simp only [h]
    rw [Getattr_Setattr_ne _ _ _ _ hne]
    exact hl

theorem functionWrapper_fout_attr (env : Env) (h : FWHead) (m : FWMid) (k : String)
    (hk : plain_key k) :
    Getattr (functionWrapper_fout env h m).attrs k = Getattr m.attrs k := by
  have hl := Swig_typemap_lookup_plain env "fout" m.attrs k hk
  unfold functionWrapper_fout
  cases hc : (Swig_typemap_lookup env "fout" m.attrs).1 with
  | none => simpa [hc] using hl
  | some code =>
    have hne : "tmap:fout" ≠ k := plain_key_ne_tmap hk "fout"
    simp only [hc]
    rw [Getattr_Setattr_ne _ _ _ _ hne]
    exact hl

theorem functionWrapper_build_attr_head (env : Env) (n : Node) (symname : Option String)
    (wname fname : String) (k : String) (hk : plain_key k) (h4 : k ≠ "wrap:faction") :
    Getattr (functionWrapper_build env n symname wname fname).n.attrs k
      = Getattr (functionWrapper_head env n wname fname).attrs k := by
  have hfin : ∀ (h : FWHead) (m : FWMid),
      (functionWrapper_finish env h symname m).attrs = m.attrs := fun _ _ => rfl
  have hpass : ∀ m : FWMid, (functionWrapper_passes m).attrs = m.attrs := fun _ => rfl
  have hend : ∀ (h : FWHead) (l : List Parm × ParmLoop),
      (functionWrapper_enddef h l wname).attrs
        = Setattr h.attrs "wrap:faction" (Printv l.2.fcall [some ")"]) := fun _ _ => rfl
  simp only [functionWrapper_build]
  rw [hfin, functionWrapper_fout_attr _ _ _ _ hk, functionWrapper_out_attr _ _ _ _ hk, hpass,
    hend]
  exact Getattr_Setattr_ne _ _ _ _ (Ne.symm h4)

/-- A key that is carried keeps its value through `functionWrapper_build`. -/
theorem functionWrapper_build_attr (env : Env) (n : Node) (symname : Option String)
    (wname fname : String) (k : String) (hk : carried_key k) :
    Getattr (functionWrapper_build env n symname wname fname).n.attrs k = Getattr n.attrs k := by
  have h1 : k ≠ "wrap:faction" := hk.2 "faction"
  have h2 : k ≠ "wrap:type" := hk.2 "type"
  have h3 : k ≠ "wrap:imtype" := hk.2 "imtype"
  have h4 : k ≠ "wrap:ftype" := hk.2 "ftype"
  have h5 : k ≠ "wrap:fname" := hk.2 "fname"
  have h6 : k ≠ "wrap:name" := hk.2 "name"
  rw [functionWrapper_build_attr_head _ _ _ _ _ _ hk.1 h1,
    functionWrapper_head_attr _ _ _ _ _ hk.1 h2 h3 h4,
    Getattr_Setattr_ne _ _ _ _ (Ne.symm h5), Getattr_Setattr_ne _ _ _ _ (Ne.symm h6)]

/-- A carried key keeps its value on the node `functionWrapper` returns. -/
theorem functionWrapper_node_attr (env : Env) (st : Emitter) (n : Node) (k : String)
    (hk : carried_key k) :
    Getattr (functionWrapper env st n).2.2.attrs k = Getattr n.attrs k := by
  by_cases hreg : (if (Getattr n.attrs "sym:overloaded").isSome then (true, st)
      else addSymbol st (Getattr n.attrs "sym:name")).1 = true
  · simp only [functionWrapper, hreg, Bool.not_true, Bool.false_eq_true, if_false]
    exact functionWrapper_build_attr _ _ _ _ _ _ hk
  · have hreg2 := Bool.eq_false_iff.mpr hreg
    simp only [functionWrapper, hreg2, Bool.not_false, if_true]

theorem Swig_restore_attr (saved n : Node) (k : String) (h1 : k ≠ "name")
    (h2 : k ≠ "sym:name") (h3 : k ≠ "type") :
    Getattr (Swig_restore saved n).attrs k = Getattr n.attrs k := by
  unfold Swig_restore
  simp only []
  rw [Getattr_SetattrOpt_ne _ _ _ _ (Ne.symm h3), Getattr_SetattrOpt_ne _ _ _ _ (Ne.symm h2),
    Getattr_SetattrOpt_ne _ _ _ _ (Ne.symm h1)]

theorem Swig_restore_symname (saved n : Node) :
    Getattr (Swig_restore saved n).attrs "sym:name" = Getattr saved.attrs "sym:name" := by
  unfold Swig_restore
  simp only []
  rw [Getattr_SetattrOpt_ne _ _ _ _ (by decide), Getattr_SetattrOpt_same]

theorem carried_membername : carried_key "fortran:membername" :=
  carried_key_of_data _ (by decide) (by decide) (by decide)

theorem get_typemap4_n (env : Env) (n : Hash String) (tmname : String)
    (type : Option SwigType) (warning : Warning) :
    (get_typemap4 env n tmname type warning).n = n := by
  unfold get_typemap4 get_typemap
  simp only [base_lookup]
  cases (Swig_typemap_lookup env tmname (SetattrOpt [] "type" type)).1 with
  | some tm => rfl
  | none => by_cases hw : warning = Warning.WARN_NONE <;> simp [hw]

/-! ## Constructor alias and canonical symbol (C12) -/

theorem constructorHandler_prepare_attr (env : Env) (st : Emitter) (n : Node) (k : String)
    (h1 : k ≠ "fortran:argprepend") (h2 : k ≠ "fout") (h3 : k ≠ "ftype:out")
    (h4 : k ≠ "fortran:membername") :
    Getattr (constructorHandler_prepare env st n).1.attrs k
      = Getattr (if (Getattr n.attrs "sym:name"
            != (match st.currentClass with
                | some classn => Getattr classn.attrs "sym:name"
                | none => none)) = true then
          Setattr n.attrs "sym:name"
            (fmt_s (match st.currentClass with
                | some classn => Getattr classn.attrs "sym:name"
                | none => none) ++ "_" ++ fmt_s (Getattr n.attrs "sym:name"))
        else n.attrs) k := by
  unfold constructorHandler_prepare
  simp only [get_typemap4_n]
  rw [Getattr_Setattr_ne _ _ _ _ (Ne.symm h1)]
  split
  · rw [Getattr_Setattr_ne _ _ _ _ (Ne.symm h2), Getattr_Setattr_ne _ _ _ _ (Ne.symm h3),
      Getattr_SetattrOpt_ne _ _ _ _ (Ne.symm h4)]
  · rw [Getattr_Setattr_ne _ _ _ _ (Ne.symm h3), Getattr_SetattrOpt_ne _ _ _ _ (Ne.symm h4)]

theorem constructorHandler_prepare_membername (env : Env) (st : Emitter) (n : Node) :
    Getattr (constructorHandler_prepare env st n).1.attrs "fortran:membername"
      = if (Getattr n.attrs "sym:name"
            != (match st.currentClass with
                | some classn => Getattr classn.attrs "sym:name"
                | none => none)) = true then Getattr n.attrs "sym:name"
        else some "create" := by
  unfold constructorHandler_prepare
  simp only [get_typemap4_n]
  rw [Getattr_Setattr_ne _ _ _ _ (by decide)]
  split
  · rw [Getattr_Setattr_ne _ _ _ _ (by decide), Getattr_Setattr_ne _ _ _ _ (by decide),
      Getattr_SetattrOpt_same]
  · rw [Getattr_Setattr_ne _ _ _ _ (by decide), Getattr_SetattrOpt_same]

theorem constructorHandler_node (env : Env) (st : Emitter) (n : Node) :
    Getattr (constructorHandler env st n).2.2.attrs "sym:name"
      = Getattr (constructorHandler_prepare env st n).1.attrs "sym:name" ∧
    ((∀ m : Node, Getattr (env.Swig_ConstructorToFunction m).attrs "fortran:membername"
        = Getattr m.attrs "fortran:membername") →
      Getattr (constructorHandler env st n).2.2.attrs "fortran:membername"
        = Getattr (constructorHandler_prepare env st n).1.attrs "fortran:membername") := by
  refine ⟨?_, fun hconv => ?_⟩
  · simp only [constructorHandler, Language_constructorHandler]
    rw [Swig_restore_symname]
  · simp only [constructorHandler, Language_constructorHandler]
    rw [Swig_restore_attr _ _ _ (by decide) (by decide) (by decide),
      functionWrapper_node_attr _ _ _ _ carried_membername]
    simp only [constructor_function]
    rw [Getattr_Setattr_ne _ _ _ _ (by decide), hconv]

/-- C12: on the node `constructorHandler` leaves behind (the conversion of the
constructor into a function keeping the attribute `fortran:membername`): when
the constructor's symbol name equals the class's symbol name the alias override
`fortran:membername` is "create" and `sym:name` is what it was; otherwise the
alias override is the constructor's original symbol name and `sym:name` is the
class name, an underscore and the original name. -/
theorem constructorHandler_alias_and_symbol (env : Env) (st : Emitter) (n classn : Node)
    (hc : st.currentClass = some classn)
    (hconv : ∀ m : Node, Getattr (env.Swig_ConstructorToFunction m).attrs "fortran:membername"
      = Getattr m.attrs "fortran:membername") :
    (Getattr n.attrs "sym:name" = Getattr classn.attrs "sym:name" →
      Getattr (constructorHandler env st n).2.2.attrs "fortran:membername" = some "create" ∧
      Getattr (constructorHandler env st n).2.2.attrs "sym:name" = Getattr n.attrs "sym:name") ∧
    (Getattr n.attrs "sym:name" ≠ Getattr classn.attrs "sym:name" →
      Getattr (constructorHandler env st n).2.2.attrs "fortran:membername"
        = Getattr n.attrs "sym:name" ∧
      Getattr (constructorHandler env st n).2.2.attrs "sym:name"
        = some (fmt_s (Getattr classn.attrs "sym:name") ++ "_"
            ++ fmt_s (Getattr n.attrs "sym:name"))) := by
  have hn := constructorHandler_node env st n
  have hm := constructorHandler_prepare_membername env st n
  have hs := constructorHandler_prepare_attr env st n "sym:name" (by decide) (by decide)
    (by decide) (by decide)
  rw [hn.1, hn.2 hconv]
  rw [hc] at hm hs
  simp only [] at hm hs
  refine ⟨fun he => ?_, fun hne => ?_⟩
  · have hb : (Getattr n.attrs "sym:name" != Getattr classn.attrs "sym:name") = false := by
      simp [he]
    rw [hb] at hm hs
    exact ⟨by simpa using hm, by simpa using hs⟩
  · have hb : (Getattr n.attrs "sym:name" != Getattr classn.attrs "sym:name") = true := by
      simpa using hne
    rw [hb] at hm hs
    refine ⟨by simpa using hm, ?_⟩
    rw [hs]
    simp only [if_true]
    rw [Getattr_Setattr_same]

/-- C12 at concrete inputs: the constructor `Foo(int)` of the class `Foo` under
its own name, and renamed to `make`. -/
theorem constructorHandler_alias_and_symbol_witness :
    fooEmitter.currentClass = some fooClass ∧
    (∀ m : Node,
      Getattr ((sampleEnv sampleTypemaps noClasses).Swig_ConstructorToFunction m).attrs
        "fortran:membername" = Getattr m.attrs "fortran:membername") ∧
    Getattr fooCtor.attrs "sym:name" = Getattr fooClass.attrs "sym:name" ∧
    Getattr (constructorHandler (sampleEnv sampleTypemaps noClasses) fooEmitter fooCtor).2.2.attrs
      "fortran:membername" = some "create" ∧
    Getattr (constructorHandler (sampleEnv sampleTypemaps noClasses) fooEmitter fooCtor).2.2.attrs
      "sym:name" = some "Foo" ∧
    Getattr fooRenamedCtor.attrs "sym:name" ≠ Getattr fooClass.attrs "sym:name" ∧
    Getattr (constructorHandler (sampleEnv sampleTypemaps noClasses) fooEmitter
      fooRenamedCtor).2.2.attrs "fortran:membername" = some "make" ∧
    Getattr (constructorHandler (sampleEnv sampleTypemaps noClasses) fooEmitter
      fooRenamedCtor).2.2.attrs "sym:name" = some "Foo_make" :=
  ⟨rfl, fun m => Getattr_Setattr_ne _ _ _ _ (by decide), by decide,
   ((constructorHandler_alias_and_symbol (sampleEnv sampleTypemaps noClasses) fooEmitter fooCtor
      fooClass rfl (fun m => Getattr_Setattr_ne _ _ _ _ (by decide))).1 (by decide)).1,
   ((constructorHandler_alias_and_symbol (sampleEnv sampleTypemaps noClasses) fooEmitter fooCtor
      fooClass rfl (fun m => Getattr_Setattr_ne _ _ _ _ (by decide))).1 (by decide)).2,
   by decide,
   ((constructorHandler_alias_and_symbol (sampleEnv sampleTypemaps noClasses) fooEmitter
      fooRenamedCtor fooClass rfl (fun m => Getattr_Setattr_ne _ _ _ _ (by decide))).2
      (by decide)).1,
   ((constructorHandler_alias_and_symbol (sampleEnv sampleTypemaps noClasses) fooEmitter
      fooRenamedCtor fooClass rfl (fun m => Getattr_Setattr_ne _ _ _ _ (by decide))).2
      (by decide)).2⟩

/-! ## Public alias (C13) -/

/-- C13 as stated fails: for the static member function `Foo::count` the four
steps give the canonical symbol `Foo_count`, while `write_function_interface`
binds it under its own name `count`. -/
theorem static_function_alias_is_own_name :
    alias_four_steps fooEmitter staticCountNode = some "Foo_count" ∧
    (function_alias fooEmitter staticCountNode).1 = some "count" ∧
    (write_function_interface fooEmitter staticCountNode).2.f_types
      = "  procedure, nopass :: count => swigf_Foo_count\n" := by
  decide

/-- C13, amended: for every combination of attributes the alias
`write_function_interface` uses is the six-step precedence (override name;
static-field set or get name; bare static field name; static member function's
own name; instance-field set or get name; canonical symbol), and that alias is
what it writes: for a declaration that is not overloaded, into the `public`
statement at module level and into the `procedure` binding inside a class. -/
theorem write_function_interface_alias (st : Emitter) (n : Hash String) :
    (function_alias st n).1 = alias_precedence st n ∧
    (write_function_interface st n).1 = Status.SWIG_OK ∧
    (is_wrapping_class st = false → Getattr n "sym:overloaded" = none →
      (write_function_interface st n).2.f_public
        = Printv st.f_public [some " public :: ", alias_precedence st n, some "\n"]) ∧
    (is_wrapping_class st = true → Getattr n "sym:overloaded" = none →
      ∃ flag, (write_function_interface st n).2.f_types
        = Printv st.f_types [some "  procedure", some flag, some " :: ",
            alias_precedence st n, some " => ", Getattr n "wrap:fname", some "\n"]) := by
  have ha : (function_alias st n).1 = alias_precedence st n := by
    unfold function_alias alias_precedence accessor_name
    cases Getattr n "fortran:membername" with
    | some a => rfl
    | none =>
      cases Getattr n "staticmembervariableHandler:sym:name" with
      | some v =>
        cases Getattr n "varset" with
        | some x => rfl
        | none => cases Getattr n "varget" <;> rfl
      | none =>
        cases Getattr n "staticmemberfunctionHandler:sym:name" with
        | some f => rfl
        | none =>
          cases Getattr n "membervariableHandler:sym:name" with
          | none => cases Getattr n "sym:name" <;> rfl
          | some v =>
            cases Getattr n "memberset" with
            | some x => rfl
            | none => cases Getattr n "memberget" <;> cases Getattr n "sym:name" <;> rfl
  refine ⟨ha, ?_, ?_, ?_⟩
  · unfold write_function_interface
    simp only []
    split
    · rfl
    · split <;> rfl
  · intro hc ho
    simp only [write_function_interface, hc, ho, Option.isSome_none, Bool.false_eq_true,
      if_false, ha]
  · intro hc ho
    refine ⟨if (function_alias st n).2 = true then ", nopass" else "", ?_⟩
    simp only [write_function_interface, hc, ho, Option.isSome_none, Bool.false_eq_true,
      if_false, if_true, ha]

/-- C13 at concrete inputs: the getter of `d_val` at module level and the static
member function `count` inside the class `Foo`. -/
theorem write_function_interface_alias_witness :
    is_wrapping_class emptyEmitter = false ∧ Getattr getterNode "sym:overloaded" = none ∧
    (write_function_interface emptyEmitter getterNode).2.f_public
      = Printv emptyEmitter.f_public
          [some " public :: ", alias_precedence emptyEmitter getterNode, some "\n"] ∧
    alias_precedence emptyEmitter getterNode = some "get_d_val" ∧
    is_wrapping_class fooEmitter = true ∧ Getattr staticCountNode "sym:overloaded" = none ∧
    ∃ flag, (write_function_interface fooEmitter staticCountNode).2.f_types
      = Printv fooEmitter.f_types [some "  procedure", some flag, some " :: ",
          alias_precedence fooEmitter staticCountNode, some " => ",
          Getattr staticCountNode "wrap:fname", some "\n"] :=
  ⟨by decide, by decide,
   (write_function_interface_alias emptyEmitter getterNode).2.2.1 (by decide) (by decide),
   by decide, by decide, by decide,
   (write_function_interface_alias fooEmitter staticCountNode).2.2.2 (by decide) (by decide)⟩

/-! ## Member bindings (C14) -/

theorem Language_memberfunctionHandler_eq (env : Env) (st : Emitter) (n : Node) :
    Language_memberfunctionHandler env st n
      = ((functionWrapper env st (member_function env st n)).2.1,
         Swig_restore n (functionWrapper env st (member_function env st n)).2.2) := rfl

theorem Language_destructorHandler_eq (env : Env) (st : Emitter) (n : Node) :
    Language_destructorHandler env st n
      = ((functionWrapper env st (destructor_function env st n)).2.1,
         Swig_restore n (functionWrapper env st (destructor_function env st n)).2.2) := rfl

theorem destructorHandler_eq (env : Env) (st : Emitter) (d : Node) :
    destructorHandler env st d
      = destructor_final (Language_destructorHandler env
          { st with warnings := st.warnings ++
              (get_typemap4 env (Setattr d.attrs "fortran:membername" "release") "frelease"
                st.d_classtype Warning.WARN_FORTRAN_TYPEMAP_FRELEASE_UNDEF).warnings }
          (destructorHandler_prepare env st d)) := rfl

theorem write_function_interface_enumvalues (st : Emitter) (n : Hash String) :
    (write_function_interface st n).2.d_enumvalues = st.d_enumvalues := by
  unfold write_function_interface
  simp only []
  cases is_wrapping_class st <;> cases (Getattr n "sym:overloaded").isSome <;> rfl

theorem addSymbol_enumvalues (st : Emitter) (s : Option String) :
    (addSymbol st s).2.d_enumvalues = st.d_enumvalues := by
  unfold addSymbol
  split <;> rfl

theorem functionWrapper_enumvalues (env : Env) (st : Emitter) (n : Node) :
    (functionWrapper env st n).2.1.d_enumvalues = st.d_enumvalues := by
  have hr : (if (Getattr n.attrs "sym:overloaded").isSome then (true, st)
      else addSymbol st (Getattr n.attrs "sym:name")).2.d_enumvalues = st.d_enumvalues := by
    cases (Getattr n.attrs "sym:overloaded").isSome
    · exact addSymbol_enumvalues st _
    · rfl
  by_cases hreg : (if (Getattr n.attrs "sym:overloaded").isSome then (true, st)
      else addSymbol st (Getattr n.attrs "sym:name")).1 = true
  · simp only [functionWrapper, hreg, Bool.not_true, Bool.false_eq_true, if_false]
    rw [write_function_interface_enumvalues]
    exact hr
  · have hreg2 := Bool.eq_false_iff.mpr hreg
    simp only [functionWrapper, hreg2, Bool.not_false, if_true]
    exact hr

theorem constructorHandler_enumvalues (env : Env) (st : Emitter) (n : Node) :
    (constructorHandler env st n).2.1.d_enumvalues = st.d_enumvalues := by
  simp only [constructorHandler, Language_constructorHandler]
  rw [functionWrapper_enumvalues]

theorem memberfunctionHandler_enumvalues (env : Env) (st : Emitter) (n : Node) :
    (memberfunctionHandler env st n).2.1.d_enumvalues = st.d_enumvalues := by
  simp only [memberfunctionHandler, Language_memberfunctionHandler_eq]
  rw [functionWrapper_enumvalues]

theorem destructorHandler_enumvalues (env : Env) (st : Emitter) (n : Node) :
    (destructorHandler env st n).2.1.d_enumvalues = st.d_enumvalues := by
  have hf : ∀ r : Emitter × Node, (destructor_final r).2.1.d_enumvalues = r.1.d_enumvalues := by
    intro r
    unfold destructor_final
    split <;> rfl
  rw [destructorHandler_eq, hf, Language_destructorHandler_eq]
  simp only []
  rw [functionWrapper_enumvalues]

theorem classHandler_header_enumvalues (env : Env) (st : Emitter) (n : Node) :
    (classHandler_header env st n).d_enumvalues = st.d_enumvalues := rfl

theorem classHandler_close_enumvalues (env : Env) (st : Emitter) (n : Node) :
    (classHandler_close env st n).d_enumvalues = st.d_enumvalues := by
  unfold classHandler_close
  simp only []
  cases Getattr n.attrs "feature:smartptr" <;> rfl

theorem enumvalueDeclaration_unlisted (env : Env) (st : Emitter) (c : Hash String)
    (h : st.d_enumvalues = none) :
    (enumvalueDeclaration env st c).1 = Status.SWIG_OK ∧
    (enumvalueDeclaration env st c).2.d_enumvalues = none ∧
    (enumvalueDeclaration env st c).2.f_types = st.f_types ∧
    (enumvalueDeclaration env st c).2.f_public = st.f_public := by
  unfold enumvalueDeclaration
  simp only [h]
  cases Getattr c "sym:name" with
  | none => exact ⟨rfl, h, rfl, rfl⟩
  | some name =>
    cases Getattr c "enumvalue" with
    | some v => exact ⟨rfl, rfl, rfl, rfl⟩
    | none =>
      cases Getattr c "enumvalueex" with
      | none => exact ⟨rfl, h, rfl, rfl⟩
      | some v => exact ⟨rfl, rfl, rfl, rfl⟩

theorem Language_enumDeclaration_unlisted (env : Env) (cs : List (Hash String)) :
    ∀ st : Emitter, st.d_enumvalues = none →
      (Language_enumDeclaration env st cs).d_enumvalues = none ∧
      (Language_enumDeclaration env st cs).f_types = st.f_types ∧
      (Language_enumDeclaration env st cs).f_public = st.f_public := by
  induction cs with
  | nil => intro st h; exact ⟨h, rfl, rfl⟩
  | cons c r ih =>
    intro st h
    obtain ⟨_, h2, h3, h4⟩ := enumvalueDeclaration_unlisted env st c h
    obtain ⟨i1, i2, i3⟩ := ih _ h2
    simp only [Language_enumDeclaration]
    exact ⟨i1, i2.trans h3, i3.trans h4⟩

theorem enumDeclaration_enumvalues (env : Env) (st : Emitter) (className : Option String)
    (n : Hash String) (cs : List (Hash String)) (h : st.d_enumvalues = none) :
    (enumDeclaration env st className n cs).2.d_enumvalues = none := by
  unfold enumDeclaration
  by_cases himp : st.importMode = true
  · rw [if_pos himp]
    exact h
  · rw [if_neg himp]
    cases hs : Getattr n "sym:name" with
    | none => exact (Language_enumDeclaration_unlisted env cs st h).1
    | some s => rfl

theorem Language_insertDirective_enumvalues (st : Emitter) (n : Hash String) :
    (Language_insertDirective st n).2.d_enumvalues = st.d_enumvalues := by
  have hreg : ∀ e ∈ registered_files, ∀ c : String,
      (e.2 st c).d_enumvalues = st.d_enumvalues := by
    intro e he c
    simp only [registered_files, List.mem_cons, List.mem_singleton, List.not_mem_nil,
      or_false] at he
    rcases he with h | h | h | h | h | h | h | h | h | h <;> subst h <;> rfl
  unfold Language_insertDirective
  by_cases h : (!st.importMode || (Getattr n "generated").isSome) = true
  · rw [if_pos h]
    cases hf : Swig_filebyname ((Getattr n "section").getD "header") with
    | none => simp only [hf]
    | some f =>
      simp only [hf]
      exact hreg f (List.mem_of_find?_eq_some hf) _
  · rw [if_neg h]

theorem insertDirective_enumvalues (env : Env) (st : Emitter) (n : Hash String) :
    (insertDirective env st n).2.1.d_enumvalues = st.d_enumvalues := by
  unfold insertDirective
  split
  · exact Language_insertDirective_enumvalues st n
  · simp only []
    split
    · split <;> rfl
    · split
      · split <;> rfl
      · exact Language_insertDirective_enumvalues st _

theorem importDirective_enumvalues (st : Emitter) (n mod : Hash String) :
    (importDirective st n mod).2.d_enumvalues = st.d_enumvalues := by
  unfold importDirective
  split <;> rfl

theorem FORTRAN_main_enumvalues (argv : List String) :
    ∀ st : Emitter, (FORTRAN_main st argv).d_enumvalues = st.d_enumvalues := by
  induction argv with
  | nil => intro st; rfl
  | cons a r ih =>
    intro st
    unfold FORTRAN_main
    split
    · rw [ih]
    · split
      · rw [ih]
      · rw [ih]

/-- In every reachable state the enumerator list is unset. -/
theorem Reachable_enumvalues (env : Env) (st : Emitter) (h : Reachable env st) :
    st.d_enumvalues = none := by
  induction h with
  | start argv =>
    show (FORTRAN_main emptyEmitter argv).d_enumvalues = none
    rw [FORTRAN_main_enumvalues]
    rfl
  | frontend st st2 _ hstep ih =>
    rw [hstep]
    exact ih
  | function st n _ ih => rw [functionWrapper_enumvalues]; exact ih
  | constructor st n _ ih => rw [constructorHandler_enumvalues]; exact ih
  | destructor st n _ ih => rw [destructorHandler_enumvalues]; exact ih
  | memberfunction st n _ ih => rw [memberfunctionHandler_enumvalues]; exact ih
  | classOpen st n _ ih => rw [classHandler_header_enumvalues]; exact ih
  | classClose st n _ ih => rw [classHandler_close_enumvalues]; exact ih
  | enum st className n children _ ih => exact enumDeclaration_enumvalues env st _ _ _ ih
  | enumvalue st n _ ih => exact (enumvalueDeclaration_unlisted env st n ih).2.1
  | insert st n _ ih => rw [insertDirective_enumvalues]; exact ih
  | importModule st n mod _ ih => rw [importDirective_enumvalues]; exact ih

/-- C20: in every state reachable through the operations of the emitter the
enumerator list is unset, and from such a state `enumDeclaration` of an enum
without export name, with the `enumvalueDeclaration` visits of its children,
returns `SWIG_OK`, leaves the type section and the public section unchanged and
leaves the enumerator list unset; so does each single visit of a child. -/
theorem hidden_enum_leaves_sections (env : Env) (st : Emitter) (className : Option String)
    (n : Hash String) (cs : List (Hash String))
    (hr : Reachable env st) (hs : Getattr n "sym:name" = none) :
    st.d_enumvalues = none ∧
    (enumDeclaration env st className n cs).1 = Status.SWIG_OK ∧
    (enumDeclaration env st className n cs).2.f_types = st.f_types ∧
    (enumDeclaration env st className n cs).2.f_public = st.f_public ∧
    (enumDeclaration env st className n cs).2.d_enumvalues = none ∧
    (∀ c : Hash String, (enumvalueDeclaration env st c).1 = Status.SWIG_OK ∧
      (enumvalueDeclaration env st c).2.f_types = st.f_types ∧
      (enumvalueDeclaration env st c).2.f_public = st.f_public) := by
  have h := Reachable_enumvalues env st hr
  have hl := Language_enumDeclaration_unlisted env cs st h
  refine ⟨h, ?_, ?_, ?_, enumDeclaration_enumvalues env st className n cs h, fun c => ?_⟩
  · unfold enumDeclaration
    split <;> rfl
  · unfold enumDeclaration
    by_cases himp : st.importMode = true
    · rw [if_pos himp]
    · rw [if_neg himp]
      simp only [hs]
      exact hl.2.1
  · unfold enumDeclaration
    by_cases himp : st.importMode = true
    · rw [if_pos himp]
    · rw [if_neg himp]
      simp only [hs]
      exact hl.2.2
  · have hc := enumvalueDeclaration_unlisted env st c h
    exact ⟨hc.1, hc.2.2.1, hc.2.2.2⟩

set_option maxRecDepth 100000 in
/-- C20 at a concrete input: after `add` has been wrapped at module level, the
enum without export name and with the enumerators `A, B = 5, C`. -/
theorem hidden_enum_leaves_sections_witness :
    Reachable (sampleEnv sampleTypemaps noClasses)
      (functionWrapper (sampleEnv sampleTypemaps noClasses)
        (top_begin (FORTRAN_main emptyEmitter ["-final"])) addNode).2.1 ∧
    Getattr hiddenEnum "sym:name" = none ∧
    (functionWrapper (sampleEnv sampleTypemaps noClasses)
        (top_begin (FORTRAN_main emptyEmitter ["-final"])) addNode).2.1.f_public
      = " public :: add\n" ∧
    (enumDeclaration (sampleEnv sampleTypemaps noClasses)
      (functionWrapper (sampleEnv sampleTypemaps noClasses)
        (top_begin (FORTRAN_main emptyEmitter ["-final"])) addNode).2.1
      none hiddenEnum (enum_children 0 colorItems)).2.f_public
      = (functionWrapper (sampleEnv sampleTypemaps noClasses)
        (top_begin (FORTRAN_main emptyEmitter ["-final"])) addNode).2.1.f_public ∧
    (enumDeclaration (sampleEnv sampleTypemaps noClasses)
      (functionWrapper (sampleEnv sampleTypemaps noClasses)
        (top_begin (FORTRAN_main emptyEmitter ["-final"])) addNode).2.1
      none hiddenEnum (enum_children 0 colorItems)).2.f_types
      = (functionWrapper (sampleEnv sampleTypemaps noClasses)
        (top_begin (FORTRAN_main emptyEmitter ["-final"])) addNode).2.1.f_types :=
  ⟨Reachable.function _ _ (Reachable.start _), by decide, by decide!,
   (hidden_enum_leaves_sections (sampleEnv sampleTypemaps noClasses) _ none hiddenEnum
      (enum_children 0 colorItems) (Reachable.function _ _ (Reachable.start _))
      (by decide)).2.2.2.1,
   (hidden_enum_leaves_sections (sampleEnv sampleTypemaps noClasses) _ none hiddenEnum
      (enum_children 0 colorItems) (Reachable.function _ _ (Reachable.start _))
      (by decide)).2.2.1⟩

/-! ## The option `-noproxy` (C21) -/

set_option maxRecDepth 100000 in
/-- C21 (violated by the code): after `main` has read `-noproxy` the flag
`d_use_proxy` is off, and `functionWrapper` still appends the proxy routine of
`int add(int a, int b)` to the proxy-body section, the same text as without the
option. -/
theorem noproxy_still_emits_proxy :
    (top_begin (FORTRAN_main emptyEmitter ["-noproxy"])).d_use_proxy = false ∧
    (functionWrapper (sampleEnv sampleTypemaps noClasses)
        (top_begin (FORTRAN_main emptyEmitter ["-noproxy"])) addNode).2.1.f_proxy
      = "function swigc_add(a, b) &\n     result(swigf_result)\n"
        ++ "   use, intrinsic :: ISO_C_BINDING\ninteger(C_INT) :: swigf_result\n"
        ++ "   integer(C_INT) :: a\n   integer(C_INT) :: b\n\n"
        ++ "integer(C_INT)  :: fresult \n    integer(C_INT)  ::  farg1 \n"
        ++ "    integer(C_INT)  ::  farg2 \n\nf$1 = a\nf$1 = b\n"
        ++ "fresult = swigc_add(farg1, farg2)\n  end function\n" ∧
    (functionWrapper (sampleEnv sampleTypemaps noClasses)
        (top_begin (FORTRAN_main emptyEmitter ["-noproxy"])) addNode).2.1.f_proxy
      = (functionWrapper (sampleEnv sampleTypemaps noClasses)
        (top_begin (FORTRAN_main emptyEmitter [])) addNode).2.1.f_proxy := by
  decide!

/-! ## Parameter entries (C24, C25, C26) -/

set_option maxRecDepth 100000 in
/-- C24 (violated by the code): `functionWrapper` hands `print_carg` the function
node, so the test for a function pointer reads the return type. For
`int apply(int (*cb)(int))` the entry of `cb` is the template followed by the
name, where `print_carg` on the parameter itself puts the name inside; for
`handler`, which returns a function pointer and takes an `int`, the entry of the
`int` parameter is the bare template without its name. -/
theorem print_carg_reads_return_type :
    fpEnv.SwigType_isfunctionpointer (Getattr callbackParm.attrs "type") = true ∧
    print_carg fpEnv "" callbackParm.attrs (some "int (*)(int)") (some "farg1")
      = "int(*farg1)(int)" ∧
    (functionWrapper_build fpEnv applyNode (some "apply") "swigc_apply" "apply").cfunc.def_
      = "SWIGEXPORT int swigc_apply(int (*)(int) farg1) \x7b" ∧
    fpEnv.SwigType_isfunctionpointer (Getattr (intParm "which" "arg1").attrs "type") = false ∧
    (functionWrapper_build fpEnv handlerNode (some "handler") "swigc_handler"
        "handler").cfunc.def_
      = "SWIGEXPORT int (*)(int) swigc_handler(int) \x7b" := by
  decide!

set_option maxRecDepth 100000 in
/-- C25 (violated by the code): for `double scale(int n)` the parameter pass
binds `imtype` and `ftype` of the parameter with the function's return type:
the dummy arguments `farg1` of the ffi interface and `n` of the proxy routine
are declared `real(C_DOUBLE)`, the templates of `double`, while the table maps
the parameter's own type `int` to `integer(C_INT)`; and the `type` attribute of
the parameter is `double` after the pass. -/
theorem parameter_bound_with_return_type :
    (scaleNode.parms.map fun p => Getattr p.attrs "type") = [some "int"] ∧
    (extraTypemaps "imtype" "int").map Typemap.code = some "integer(C_INT)" ∧
    (extraTypemaps "ftype" "int").map Typemap.code = some "integer(C_INT)" ∧
    (functionWrapper (sampleEnv extraTypemaps noClasses) emptyEmitter scaleNode).2.1.f_interfaces
      = "function scale(farg1) &\n    bind(C, name=\"swigc_scale\") &\n"
        ++ "     result(fresult)\n   use, intrinsic :: ISO_C_BINDING\n"
        ++ "real(C_DOUBLE) :: fresult\n   real(C_DOUBLE) :: farg1\n\n\n  end function\n" ∧
    (functionWrapper_build (sampleEnv extraTypemaps noClasses) scaleNode (some "scale")
        "swigc_scale" "scale").ffunc.def_
      = "function swigc_scale(n) &\n     result(swigf_result)\n"
        ++ "   use, intrinsic :: ISO_C_BINDING\nreal(C_DOUBLE) :: swigf_result\n"
        ++ "   real(C_DOUBLE) :: n\n" ∧
    ((functionWrapper (sampleEnv extraTypemaps noClasses) emptyEmitter scaleNode).2.2.parms.map
      fun p => Getattr p.attrs "type") = [some "double"] := by
  decide!

set_option maxRecDepth 100000 in
/-- C26 (violated by the code): for the constructor `Foo(int hidden)` whose only
parameter is skipped the parameter walk emits no parameter, and the parameter
list of the proxy routine is `self, ` with a trailing separator, not `self`. -/
theorem skipped_parameters_leave_separator :
    visited_parms 0 fooIgnoringCtor.parms = [] ∧
    (functionWrapper_build (sampleEnv sampleTypemaps noClasses)
        (fooCtorFunction fooIgnoringCtor) (some "new_Foo") "swigc_new_Foo"
        "swigf_new_Foo").ffunc.def_
      = "function swigc_new_Foo(self, ) &\n     result(swigf_result)\n"
        ++ "   use, intrinsic :: ISO_C_BINDING\ntype(Foo) :: swigf_result\n" ∧
    (constructorHandler (sampleEnv sampleTypemaps noClasses) fooEmitter
        fooIgnoringCtor).2.1.f_proxy
      = "function swigc_new_Foo(self, ) &\n     result(swigf_result)\n"
        ++ "   use, intrinsic :: ISO_C_BINDING\ntype(Foo) :: swigf_result\n\n"
        ++ "type(C_PTR)  :: fresult \n\nfresult = swigc_new_Foo()\n  end function\n" := by
  decide!

/-! ## Finalizer (C22) -/

theorem Setattr_of_none {α : Type} (h : Hash α) (k : String) (v : α)
    (hn : Getattr h k = none) : Setattr h k v = h ++ [(k, v)] := by
  induction h with
  | nil => rfl
  | cons e r ih =>
    obtain ⟨k2, v2⟩ := e
    by_cases hk : k2 = k
    · simp [Getattr, hk] at hn
    · simp only [Getattr, hk, if_false] at hn
      simp only [Setattr, hk, if_false, List.cons_append, ih hn]

theorem write_method_overloads_append (h : Hash (List String)) (k : String)
    (items : List String) :
    ∀ f : String, write_method_overloads (h ++ [(k, items)]) f
      = generic_binding (write_method_overloads h f) k items := by
  induction h with
  | nil => intro f; rfl
  | cons e r ih =>
    intro f
    obtain ⟨k2, v2⟩ := e
    show write_method_overloads (r ++ [(k, items)]) (generic_binding f k2 v2) = _
    rw [ih]
    rfl

/-- C23: for a class with symbol name `s` and the smart-pointer feature, in a
state after the member visits that has no group `assignment(=)` yet, the end of
`classHandler` adds that group with the single entry `swigf_assign_<s>` (the
table gets exactly this one entry more, and its `generic` binding lists only
that name), binds the procedure privately, and appends the assignment
subroutine in which `call self%release()` stands before the store of the copy;
the copy routine in that store, the ffi interface function with its link name,
and the native wrapper are all named `swigc_spcopy_<s>`. -/
theorem smartptr_assignment (env : Env) (st : Emitter) (n : Node) (s sp : String)
    (hs : Getattr n.attrs "sym:name" = some s)
    (hsp : Getattr n.attrs "feature:smartptr" = some sp)
    (hnew : Getattr st.d_method_overloads "assignment(=)" = none) :
    Setattr st.d_method_overloads "assignment(=)" ["swigf_assign_" ++ s]
      = st.d_method_overloads ++ [("assignment(=)", ["swigf_assign_" ++ s])] ∧
    (∃ sep : String, is_separator sep ∧
      (classHandler_close env st n).f_types
        = write_method_overloads st.d_method_overloads
            (st.f_types ++ "  procedure, private :: " ++ ("swigf_assign_" ++ s) ++ "\n")
          ++ "  generic :: " ++ "assignment(=)" ++ " => " ++ sep ++ ("swigf_assign_" ++ s)
          ++ "\n" ++ " end type\n") ∧
    (classHandler_close env st n).f_proxy
      = st.f_proxy ++ assignment_text ("swigf_assign_" ++ s) s ("swigc_spcopy_" ++ s) ∧
    (classHandler_close env st n).f_interfaces
      = st.f_interfaces ++ spcopy_interface ("swigc_spcopy_" ++ s) ∧
    (classHandler_close env st n).f_wrapper
      = Wrapper_print env (spcopy_wrapper ("swigc_spcopy_" ++ s) sp) st.f_wrapper ∧
    (∀ (members : Node → Emitter → Emitter) (st0 : Emitter),
      (addSymbol st0 (some s)).1 = true →
      members n (classHandler_header env (addSymbol st0 (some s)).2 n) = st →
      classHandler env members st0 n = (Status.SWIG_OK, classHandler_close env st n)) := by
  have htab := Setattr_of_none st.d_method_overloads "assignment(=)" ["swigf_assign_" ++ s] hnew
  refine ⟨htab, ?_, ?_, ?_, ?_, ?_⟩
  · obtain ⟨seps, h1, h2, h3⟩ := generic_binding_eq
      (write_method_overloads st.d_method_overloads
        (st.f_types ++ "  procedure, private :: " ++ ("swigf_assign_" ++ s) ++ "\n"))
      "assignment(=)" ["swigf_assign_" ++ s]
    match seps, h1, h2, h3 with
    | [sep], _, h2, h3 =>
      refine ⟨sep, h2 sep (List.mem_singleton_self _), ?_⟩
      have hf : (classHandler_close env st n).f_types
          = Printv (write_method_overloads
              (Setattr st.d_method_overloads "assignment(=)" ["swigf_assign_" ++ s])
              (Printv st.f_types
                [some "  procedure, private :: ", some ("swigf_assign_" ++ s), some "\n"]))
              [some " end type\n"] := by
        simp only [classHandler_close, hsp, hs, fmt_s, Option.getD_some]
      rw [hf, htab, write_method_overloads_append]
      have hp : Printv st.f_types
          [some "  procedure, private :: ", some ("swigf_assign_" ++ s), some "\n"]
          = st.f_types ++ "  procedure, private :: " ++ ("swigf_assign_" ++ s) ++ "\n" := by
        simp only [Printv, String.append_assoc, String.append_empty]
      rw [hp, h3]
      simp only [interleave, Printv, String.append_assoc, String.append_empty]
  · simp only [classHandler_close, hsp, hs, fmt_s, Option.getD_some, Printv, assignment_text,
      String.append_assoc, String.append_empty]
  · simp only [classHandler_close, hsp, hs, fmt_s, Option.getD_some, Printv, spcopy_interface,
      String.append_assoc, String.append_empty]
  · simp only [classHandler_close, hsp, hs, fmt_s, Option.getD_some, Printv, spcopy_wrapper,
      Wrapper.printDef, Wrapper.printCode, NewWrapper, String.append_assoc,
      String.append_empty, String.empty_append]
  · intro members st0 hreg hmid
    simp only [classHandler, hs, hreg, Bool.not_true, Bool.false_eq_true, if_false, hmid]

set_option maxRecDepth 100000 in
/-- C23 at a concrete input: the class `Foo` held by `std::shared_ptr`, without
members. -/
theorem smartptr_assignment_witness :
    Getattr sharedFoo.attrs "sym:name" = some "Foo" ∧
    Getattr sharedFoo.attrs "feature:smartptr" = some "std::shared_ptr< Foo >" ∧
    Getattr sharedFooOpen.d_method_overloads "assignment(=)" = none ∧
    (classHandler_close (sampleEnv sampleTypemaps noClasses) sharedFooOpen sharedFoo).f_proxy
      = sharedFooOpen.f_proxy
        ++ assignment_text ("swigf_assign_" ++ "Foo") "Foo" ("swigc_spcopy_" ++ "Foo") ∧
    sharedFooOpen.f_proxy
        ++ assignment_text ("swigf_assign_" ++ "Foo") "Foo" ("swigc_spcopy_" ++ "Foo")
      = "  subroutine swigf_assign_Foo(self, other)\n   use, intrinsic :: ISO_C_BINDING\n"
        ++ "   class(Foo), intent(inout) :: self\n   type(Foo), intent(in) :: other\n"
        ++ "   call self%release()\n   self%swigptr = swigc_spcopy_Foo(other%swigptr)\n"
        ++ "  end subroutine\n" ∧
    (classHandler_close (sampleEnv sampleTypemaps noClasses) sharedFooOpen sharedFoo).f_types
      = " type :: Foo\n  SWIGTYPE_ contains\n  procedure, private :: swigf_assign_Foo\n"
        ++ "  generic :: assignment(=) => swigf_assign_Foo\n end type\n" ∧
    classHandler (sampleEnv sampleTypemaps noClasses) (fun _ st => st) emptyEmitter sharedFoo
      = (Status.SWIG_OK,
         classHandler_close (sampleEnv sampleTypemaps noClasses) sharedFooOpen sharedFoo) :=
  ⟨by decide, by decide, by decide,
   (smartptr_assignment (sampleEnv sampleTypemaps noClasses) sharedFooOpen sharedFoo "Foo"
      "std::shared_ptr< Foo >" (by decide) (by decide) (by decide)).2.2.1,
   by decide!, by decide!,
   (smartptr_assignment (sampleEnv sampleTypemaps noClasses) sharedFooOpen sharedFoo "Foo"
      "std::shared_ptr< Foo >" (by decide) (by decide) (by decide)).2.2.2.2.2
      (fun _ st => st) emptyEmitter (by decide) rfl⟩

/-! ## Class-name substitution: when a token can be left (C8) -/

theorem isPrefixOf_append_cases (u a X : List Char) (h : u.isPrefixOf (a ++ X) = true) :
    u.isPrefixOf a = true ∨ a.isPrefixOf u = true := by
  rw [List.isPrefixOf_iff_prefix] at h
  rcases List.prefix_or_prefix_of_prefix h (List.prefix_append a X) with h2 | h2
  · exact Or.inl (List.isPrefixOf_iff_prefix.mpr h2)
  · exact Or.inr (List.isPrefixOf_iff_prefix.mpr h2)

theorem completes_factor (d : Char) (F r t : List Char) (ht : t <:+ F)
    (hp : r.isPrefixOf t = true) : completes d F r = true := by
  unfold completes
  simp only [Bool.or_eq_true, List.any_eq_true]
  exact Or.inl (Or.inl ⟨t, (List.mem_tails _ _).mpr ht, hp⟩)

theorem completes_suffix (d : Char) (F r t : List Char) (ht : t <:+ F) (hne : t ≠ [])
    (hp : t.isPrefixOf r = true) : completes d F r = true := by
  unfold completes
  simp only [Bool.or_eq_true, List.any_eq_true]
  refine Or.inl (Or.inr ⟨t, (List.mem_tails _ _).mpr ht, ?_⟩)
  cases t with
  | nil => exact absurd rfl hne
  | cons x xs => simpa using hp

theorem completes_inner (d : Char) (F r post : List Char) (ht : (d :: post) <:+ r)
    (hp : post.isPrefixOf F = true ∨ F.isPrefixOf post = true) : completes d F r = true := by
  unfold completes
  simp only [Bool.or_eq_true, List.any_eq_true]
  refine Or.inr ⟨d :: post, (List.mem_tails _ _).mpr ht, ?_⟩
  simpa using hp

theorem isPrefixOf_replaceAux_safe (d : Char) (F r : List Char) (hd : d ∉ F)
    (hc : completes d F r = false) (u : List Char) (hu : u <:+ F) :
    ∀ s : List Char, u.isPrefixOf (replaceAux (d :: F) r 0 s) = true → u.isPrefixOf s = true := by
  induction u with
  | nil => intro s _; simp
  | cons x u ih =>
    have hu2 : u <:+ F := (List.suffix_cons x u).trans hu
    have hx : x ≠ d := by
      intro e
      apply hd
      rw [← e]
      exact hu.subset (List.mem_cons_self _ _)
    intro s h
    cases s with
    | nil => simp [replaceAux] at h
    | cons c cs =>
      by_cases hp : (d :: F).isPrefixOf (c :: cs) = true
      · exfalso
        rw [replaceAux, if_pos hp] at h
        rcases isPrefixOf_append_cases _ _ _ h with h2 | h2
        · rw [completes_suffix d F r (x :: u) hu (by simp) h2] at hc
          cases hc
        · rw [completes_factor d F r (x :: u) hu h2] at hc
          cases hc
      · rw [replaceAux, if_neg hp] at h
        simp only [List.isPrefixOf, Bool.and_eq_true, beq_iff_eq] at h ⊢
        exact ⟨h.1, ih hu2 cs h.2⟩

theorem occursIn_append_safe (d : Char) (F r X : List Char)
    (hc : completes d F r = false) (hX : occursIn (d :: F) X = false) :
    ∀ a : List Char, a <:+ r → occursIn (d :: F) (a ++ X) = false := by
  intro a
  induction a with
  | nil => intro _; simpa using hX
  | cons c a ih =>
    intro ha
    have ha2 : a <:+ r := (List.suffix_cons c a).trans ha
    simp only [List.cons_append, occursIn, Bool.or_eq_false_iff]
    refine ⟨?_, ih ha2⟩
    by_contra hq
    simp only [Bool.not_eq_false] at hq
    simp only [List.isPrefixOf, Bool.and_eq_true, beq_iff_eq] at hq
    obtain ⟨e, hq2⟩ := hq
    subst e
    have h3 := isPrefixOf_append_cases _ _ _ hq2
    rw [completes_inner d F r a ha h3.symm] at hc
    cases hc

theorem not_occursIn_replaceAux_safe (d : Char) (F r : List Char) (hd : d ∉ F)
    (hc : completes d F r = false) (cs : List Char) (k : Nat) :
    occursIn (d :: F) (replaceAux (d :: F) r k cs) = false := by
  induction cs generalizing k with
  | nil => cases k <;> simp [replaceAux, occursIn, List.isPrefixOf]
  | cons c cs ih =>
    cases k with
    | succ k => simpa [replaceAux] using ih k
    | zero =>
      by_cases hp : (d :: F).isPrefixOf (c :: cs) = true
      · simp only [replaceAux, hp, if_true]
        exact occursIn_append_safe d F r _ hc (ih _) r (List.suffix_refl r)
      · simp only [replaceAux, hp]
        simp only [occursIn, Bool.or_eq_false_iff]
        refine ⟨?_, ih 0⟩
        by_contra hq
        simp only [Bool.not_eq_false] at hq
        apply hp
        simp only [List.isPrefixOf, Bool.and_eq_true, beq_iff_eq] at hq ⊢
        exact ⟨hq.1, isPrefixOf_replaceAux_safe d F r hd hc F (List.suffix_refl F) cs hq.2⟩

theorem replaceAux_literal (tok r : List Char) (c : Char) (cs : List Char)
    (h : tok.isPrefixOf (c :: cs) = false) :
    replaceAux tok r 0 (c :: cs) = c :: replaceAux tok r 0 cs := by
  rw [replaceAux, if_neg (by simp [h])]

theorem replaceAux_free (d : Char) (t r a : List Char) (ha : ∀ c ∈ a, c ≠ d) :
    replaceAux (d :: t) r 0 a = a := by
  have h := replaceAux_copy d t r a [] ha
  simpa [replaceAux] using h

theorem replaceAux_token_end (d : Char) (t rep : List Char) :
    replaceAux (d :: t) rep 0 (d :: t) = rep := by
  have h := replaceAux_token d t rep []
  simpa [replaceAux] using h

theorem occursIn_of_isPrefixOf (tok X : List Char) (h : tok.isPrefixOf X = true) :
    occursIn tok X = true := by
  cases X with
  | nil => simpa [occursIn] using h
  | cons c cs => simp [occursIn, h]

theorem occursIn_append_right (tok a X : List Char) (h : occursIn tok X = true) :
    occursIn tok (a ++ X) = true := by
  induction a with
  | nil => simpa using h
  | cons c cs ih => simp [occursIn, ih]

theorem occursIn_token_append (tok a X : List Char) :
    occursIn tok (a ++ (tok ++ X)) = true :=
  occursIn_append_right tok a _
    (occursIn_of_isPrefixOf tok _ (List.isPrefixOf_iff_prefix.mpr (List.prefix_append tok X)))

theorem not_isPrefixOf_shifted (d : Char) (F pre t Y : List Char) (hd : d ∉ F)
    (hF : pre ++ t = F) (ht : t ≠ []) :
    (d :: F).isPrefixOf (d :: (pre ++ (d :: Y))) = false := by
  cases t with
  | nil => exact absurd rfl ht
  | cons x xs =>
    have hx : x ≠ d := by
      intro e
      apply hd
      rw [← hF, ← e]
      simp
    by_contra hq
    simp only [Bool.not_eq_false] at hq
    rw [List.isPrefixOf_iff_prefix, List.cons_prefix_cons, ← hF,
      List.prefix_append_right_inj, List.cons_prefix_cons] at hq
    exact hx hq.2.1

theorem completes_leaves_token (d : Char) (F r : List Char) (hd : d ∉ F) (hF : F ≠ [])
    (hc : completes d F r = true) :
    ∃ tm : List Char, occursIn (d :: F) tm = true ∧
      occursIn (d :: F) (replaceAux (d :: F) r 0 tm) = true := by
  have hfree : ∀ a : List Char, (∀ c ∈ a, c ∈ F) → ∀ c ∈ a, c ≠ d := by
    intro a ha c hca e
    exact hd (e ▸ ha c hca)
  simp only [completes, Bool.or_eq_true, List.any_eq_true] at hc
  rcases hc with (⟨t, ht, hp⟩ | ⟨t, ht, hp⟩) | ⟨t, ht, hp⟩
  · obtain ⟨pre, hpre⟩ := (List.mem_tails _ _).mp ht
    obtain ⟨post, hpost⟩ := List.isPrefixOf_iff_prefix.mp hp
    have hpreF : ∀ c ∈ pre, c ≠ d := hfree pre (fun c hc => by rw [← hpre]; simp [hc])
    have hpostF : ∀ c ∈ post, c ≠ d :=
      hfree post (fun c hc => by rw [← hpre, ← hpost]; simp [hc])
    cases r with
    | nil =>
      refine ⟨d :: ((d :: F) ++ F), occursIn_token_append _ [d] _, ?_⟩
      have h1 : (d :: F).isPrefixOf (d :: ((d :: F) ++ F)) = false :=
        not_isPrefixOf_shifted d F [] F (F ++ F) hd rfl hF
      rw [replaceAux_literal _ _ _ _ h1, replaceAux_token,
        replaceAux_free d F [] F (hfree F (fun _ h => h))]
      exact occursIn_of_isPrefixOf _ _ (by simp)
    | cons r0 rs =>
      refine ⟨d :: (pre ++ ((d :: F) ++ post)), occursIn_token_append _ (d :: pre) _, ?_⟩
      have h1 : (d :: F).isPrefixOf (d :: (pre ++ ((d :: F) ++ post))) = false :=
        not_isPrefixOf_shifted d F pre t (F ++ post) hd hpre (by rw [← hpost]; simp)
      rw [replaceAux_literal _ _ _ _ h1, replaceAux_copy d F _ pre _ hpreF, replaceAux_token,
        replaceAux_free d F _ post hpostF, hpost, hpre]
      exact occursIn_of_isPrefixOf _ _ (by simp)
  · obtain ⟨pre, hpre⟩ := (List.mem_tails _ _).mp ht
    simp only [Bool.and_eq_true, Bool.not_eq_true', List.isEmpty_eq_false] at hp
    obtain ⟨rest, hrest⟩ := List.isPrefixOf_iff_prefix.mp hp.2
    have hpreF : ∀ c ∈ pre, c ≠ d := hfree pre (fun c hc => by rw [← hpre]; simp [hc])
    refine ⟨d :: (pre ++ (d :: F)), ?_, ?_⟩
    · have h := occursIn_token_append (d :: F) (d :: pre) []
      simpa using h
    have h1 : (d :: F).isPrefixOf (d :: (pre ++ (d :: F))) = false :=
      not_isPrefixOf_shifted d F pre t F hd hpre hp.1
    rw [replaceAux_literal _ _ _ _ h1, replaceAux_copy d F _ pre _ hpreF, replaceAux_token_end,
      ← hrest]
    have e : d :: (pre ++ (t ++ rest)) = (d :: F) ++ rest := by
      rw [← hpre]
      simp
    rw [e]
    exact occursIn_of_isPrefixOf _ _ (List.isPrefixOf_iff_prefix.mpr (List.prefix_append _ _))
  · obtain ⟨pre, hpre⟩ := (List.mem_tails _ _).mp ht
    cases t with
    | nil => simp at hp
    | cons c post =>
      simp only [Bool.and_eq_true, beq_iff_eq, Bool.or_eq_true] at hp
      obtain ⟨e, hp2⟩ := hp
      subst e
      rcases hp2 with h | h
      · obtain ⟨q, hq⟩ := List.isPrefixOf_iff_prefix.mp h
        have hqF : ∀ x ∈ q, x ≠ c := hfree q (fun x hx => by rw [← hq]; simp [hx])
        refine ⟨(c :: F) ++ q, occursIn_token_append _ [] _, ?_⟩
        rw [replaceAux_token, replaceAux_free c F _ q hqF, ← hpre]
        have e : pre ++ c :: post ++ q = pre ++ ((c :: F) ++ []) := by
          rw [← hq]
          simp
        rw [e]
        exact occursIn_token_append _ _ _
      · obtain ⟨q, hq⟩ := List.isPrefixOf_iff_prefix.mp h
        refine ⟨c :: F, occursIn_of_isPrefixOf _ _ (by simp), ?_⟩
        rw [replaceAux_token_end, ← hpre, ← hq]
        exact occursIn_token_append _ _ _

theorem fclassname_data :
    ("$fclassname" : String).data = '$' :: ("fclassname" : String).data := by decide

theorem Strstr_Replaceall_fclassname (s rep : String) :
    Strstr (Replaceall s "$fclassname" rep) "$fclassname"
      = occursIn ('$' :: ("fclassname" : String).data)
          (replaceAux ('$' :: ("fclassname" : String).data) rep.data 0 s.data) := by
  have hne : ("$fclassname" : String).data.isEmpty = false := by decide
  unfold Strstr Replaceall
  simp only [hne, Bool.false_eq_true, if_false, fclassname_data]

/-- C8, amended: `substitute_classname` replaces every occurrence of
`$fclassname` found in one left-to-right pass by the replacement name of the
type (the registered name, or the mangled placeholder when nothing is
registered); it returns true exactly when the template contained the token, and
leaves the template unchanged when it returns false. Whether a token can be
left depends on the replacement name alone: when the name cannot complete a
token (`completes_token` is false) no template contains the token afterwards,
and when it can, some template that contains the token still contains one
afterwards. -/
theorem substitute_classname_resolved (env : Env) (pt : SwigType) (tm : String) :
    (substitute_classname env pt tm).tm
      = Replaceall tm "$fclassname" (replacement_name env pt) ∧
    (substitute_classname env pt tm).performed = Strstr tm "$fclassname" ∧
    ((substitute_classname env pt tm).performed = false →
      (substitute_classname env pt tm).tm = tm) ∧
    (completes_token (replacement_name env pt) = false →
      Strstr (substitute_classname env pt tm).tm "$fclassname" = false) ∧
    (completes_token (replacement_name env pt) = true →
      ∃ tm2 : String, Strstr tm2 "$fclassname" = true ∧
        Strstr (substitute_classname env pt tm2).tm "$fclassname" = true) := by
  have hd : '$' ∉ ("fclassname" : String).data := by decide
  have hF : ("fclassname" : String).data ≠ [] := by decide
  refine ⟨substitute_classname_tm env pt tm, ?_, ?_, fun hc => ?_, fun hc => ?_⟩
  · unfold substitute_classname
    by_cases h : Strstr tm "$fclassname" = true <;> simp [h]
  · unfold substitute_classname
    by_cases h : Strstr tm "$fclassname" = true <;> simp [h]
  · rw [substitute_classname_tm, Strstr_Replaceall_fclassname]
    exact not_occursIn_replaceAux_safe '$' _ _ hd hc _ 0
  · obtain ⟨l, h1, h2⟩ := completes_leaves_token '$' _ _ hd hF hc
    refine ⟨⟨l⟩, ?_, ?_⟩
    · unfold Strstr
      rw [fclassname_data]
      exact h1
    · rw [substitute_classname_tm, Strstr_Replaceall_fclassname]
      exact h2

/-- C8, amended, at concrete inputs: the names `circle`, `list`, `matrix`,
`node`, `shape`, `array`, `foo` and the placeholder of an unregistered type
cannot complete a token, `element`, `name` and `c` can; the type registered as
`circle` in the template `type($fclassname) :: $1` leaves no token and the
flag is true; a template without the token is returned unchanged with the flag
false; for the type registered as `c` some template keeps a token. -/
theorem substitute_classname_resolved_witness :
    (["circle", "list", "matrix", "node", "shape", "array", "foo", "SWIGTYPE_Foo"].map
      completes_token) = [false, false, false, false, false, false, false, false] ∧
    (["element", "name", "c", "", "x$fclass"].map completes_token)
      = [true, true, true, true, true] ∧
    completes_token (replacement_name (sampleEnv noTypemaps (classNamed "circle")) "Foo")
      = false ∧
    Strstr (substitute_classname (sampleEnv noTypemaps (classNamed "circle")) "Foo"
      "type($fclassname) :: $1").tm "$fclassname" = false ∧
    (substitute_classname (sampleEnv noTypemaps (classNamed "circle")) "Foo"
      "type($fclassname) :: $1").tm = "type(circle) :: $1" ∧
    (substitute_classname (sampleEnv noTypemaps (classNamed "circle")) "Foo"
      "type($fclassname) :: $1").performed = true ∧
    completes_token (replacement_name (sampleEnv noTypemaps noClasses) "Foo") = false ∧
    Strstr (substitute_classname (sampleEnv noTypemaps noClasses) "Foo"
      "type($fclassname) :: $1").tm "$fclassname" = false ∧
    (substitute_classname (sampleEnv noTypemaps (classNamed "circle")) "Foo"
      "integer(C_INT)").performed = false ∧
    (substitute_classname (sampleEnv noTypemaps (classNamed "circle")) "Foo"
      "integer(C_INT)").tm = "integer(C_INT)" ∧
    completes_token (replacement_name (sampleEnv noTypemaps classNamedC) "Foo") = true ∧
    (∃ tm2 : String, Strstr tm2 "$fclassname" = true ∧
      Strstr (substitute_classname (sampleEnv noTypemaps classNamedC) "Foo" tm2).tm
        "$fclassname" = true) :=
  ⟨by decide, by decide, by decide,
   (substitute_classname_resolved (sampleEnv noTypemaps (classNamed "circle")) "Foo"
      "type($fclassname) :: $1").2.2.2.1 (by decide),
   by decide, by decide, by decide,
   (substitute_classname_resolved (sampleEnv noTypemaps noClasses) "Foo"
      "type($fclassname) :: $1").2.2.2.1 (by decide),
   by decide,
   (substitute_classname_resolved (sampleEnv noTypemaps (classNamed "circle")) "Foo"
      "integer(C_INT)").2.2.1 (by decide),
   by decide,
   (substitute_classname_resolved (sampleEnv noTypemaps classNamedC) "Foo"
      "").2.2.2.2 (by decide)⟩

end Fortran
